import Mathlib

/-!
# VideoDecoder: index scan, seek planner and decode pump

A shallow embedding of `src/torchcodec/decoders/core/VideoDecoder.cpp`, and of
the operator `get_stream_json_metadata` of
`src/torchcodec/decoders/_core/VideoDecoderOps.cpp`.

* The decoder object is a record `VideoDecoder σ`; every member function is a
  function on that record.  An exception is a `Result.error` returned together
  with the state reached when it was thrown.
* The codec/demux library is not part of the repository.  It is a parameter:
  a record `Lib σ` of operations over an arbitrary library state `σ`.  Theorems
  hold for every library; `refLib` is one concrete library (a packet list with
  a read position, and one frame queue per codec) used to run the code.
* `while (true)` loops take a fuel argument and report `Result.outOfFuel`
  when it is used up.
* `double` values are fractions (`Dbl`); every conversion, product and quotient
  rounds its exact result to the nearest binary64 value.
* `int64_t` values are integers; the two additions of the source that can
  leave the 64-bit range are wrapped with `wrapInt64`.
* A `std::string` that the code takes apart is the list of its characters;
  `std::stoi` and `std::to_string` follow the C++ standard.
-/

namespace TorchCodec

/-! ## Constants of the library headers -/

/-- Status `0` of a library call that succeeded. -/
def AVSUCCESS : Int := 0

/-- Status `AVERROR(EAGAIN)`: the codec needs more input before it has a frame. -/
def AVERROR_EAGAIN : Int := -11

/-- Status `AVERROR_EOF`: end of file on a read, end of stream on a drained codec. -/
def AVERROR_EOF : Int := -541478725

/-- Packet flag bit: the packet holds a keyframe. -/
def AV_PKT_FLAG_KEY : Nat := 1

/-- Packet flag bit: the packet is to be discarded. -/
def AV_PKT_FLAG_DISCARD : Nat := 4

/-- Least `int64_t`. -/
def INT64_MIN : Int := -9223372036854775808

/-- Greatest `int64_t`. -/
def INT64_MAX : Int := 9223372036854775807

/-- Two's-complement reduction of an integer to the `int64_t` range. -/
def wrapInt64 (x : Int) : Int := (x + 9223372036854775808) % 18446744073709551616 - 9223372036854775808

/-- Membership in the `int64_t` range. -/
def isInt64 (x : Int) : Prop := INT64_MIN ≤ x ∧ x ≤ INT64_MAX

instance (x : Int) : Decidable (isInt64 x) := by unfold isInt64; infer_instance

/-! ## Doubles -/

/-- A `double`: the fraction `num / den`.  A zero `den` stands for the values
that are not finite: `+inf` for a positive `num`, `-inf` for a negative one,
NaN for `0 / 0`.  A zero `num` over a negative `den` is `-0.0`.  Arithmetic
rounds its exact result to the nearest binary64 value, a tie to the even
significand; the sign and payload of a NaN are not kept. -/
structure Dbl where
  num : Int
  den : Int
deriving DecidableEq, Repr

namespace Dbl

/-- Number of binary digits of `n`; the first argument bounds the recursion and
is `n` itself at every use. -/
def bitLength : Nat → Nat → Nat
  | 0, _ => 0
  | fuel + 1, n => if n = 0 then 0 else bitLength fuel (n / 2) + 1

/-- The integer nearest to `n / d`, a tie going to the even one. -/
def roundHalfEven (n d : Nat) : Nat :=
  if 2 * (n % d) < d then n / d
  else if d < 2 * (n % d) then n / d + 1
  else if (n / d) % 2 = 0 then n / d else n / d + 1

/-- The integer `e` with `2 ^ e ≤ n / d < 2 ^ (e + 1)`, for positive `n`, `d`. -/
def floorLog2 (n d : Nat) : Int :=
  let t : Int := (bitLength n n : Int) - (bitLength d d : Int)
  if 0 ≤ t then (if d * 2 ^ t.toNat ≤ n then t else t - 1)
  else (if d ≤ n * 2 ^ (-t).toNat then t else t - 1)

/-- The sign bit. -/
def signBit (x : Dbl) : Bool :=
  if x.num = 0 then decide (x.den < 0) else (decide (x.num < 0) != decide (x.den < 0))

/-- The value `+m * 2 ^ k` or `-m * 2 ^ k` as a fraction in lowest terms. -/
def scaled (negative : Bool) (m : Nat) (k : Int) : Dbl :=
  if 0 ≤ k then
    ⟨if negative then -((m * 2 ^ k.toNat : Nat) : Int) else ((m * 2 ^ k.toNat : Nat) : Int), 1⟩
  else
    ⟨if negative then -((m / Nat.gcd m (2 ^ (-k).toNat) : Nat) : Int)
      else ((m / Nat.gcd m (2 ^ (-k).toNat) : Nat) : Int),
     ((2 ^ (-k).toNat / Nat.gcd m (2 ^ (-k).toNat) : Nat) : Int)⟩

/-- Rounding of the exact value `n / d`, with the given sign, to binary64:
53 significant bits, the least exponent `-1022` (below it the spacing stays
`2 ^ -1074`), and infinity from `2 ^ 1024` on. -/
def round (negative : Bool) (n d : Nat) : Dbl :=
  if d = 0 then (if n = 0 then ⟨0, 0⟩ else ⟨if negative then -1 else 1, 0⟩)
  else if n = 0 then ⟨0, if negative then -1 else 1⟩
  else
    let k : Int := max (floorLog2 n d) (-1022) - 52
    let m : Nat :=
      if 0 ≤ k then roundHalfEven n (d * 2 ^ k.toNat) else roundHalfEven (n * 2 ^ (-k).toNat) d
    if m = 0 then ⟨0, if negative then -1 else 1⟩
    else if 1025 ≤ (bitLength m m : Int) + k then ⟨if negative then -1 else 1, 0⟩
    else scaled negative m k

/-- The binary64 value nearest to the fraction `x`, as a decimal literal of the
source denotes it. -/
def nearest (x : Dbl) : Dbl := round x.signBit x.num.natAbs x.den.natAbs

/-- Conversion of an integer to `double`. -/
def ofInt (p : Int) : Dbl := round (decide (p < 0)) p.natAbs 1

/-- The product `a * b` of two doubles. -/
def mul (a b : Dbl) : Dbl :=
  round (a.signBit != b.signBit) (a.num.natAbs * b.num.natAbs) (a.den.natAbs * b.den.natAbs)

/-- The quotient `a / b` of two doubles. -/
def div (a b : Dbl) : Dbl :=
  round (a.signBit != b.signBit) (a.num.natAbs * b.den.natAbs) (a.den.natAbs * b.num.natAbs)

/-- The double `1.0 * p / den` for integers `p` and `den`. -/
def ofRatio (p den : Int) : Dbl := div (mul ⟨1, 1⟩ (ofInt p)) (ofInt den)

/-- The product `x * n` of a double and an integer. -/
def mulInt (x : Dbl) (n : Int) : Dbl := mul x (ofInt n)

/-- The value is NaN. -/
def isNaN (x : Dbl) : Bool := x.den == 0 && x.num == 0

/-- Numerator once the denominator is made non-negative. -/
def sNum (x : Dbl) : Int := if x.den < 0 then -x.num else x.num

/-- Denominator made non-negative. -/
def sDen (x : Dbl) : Int := if x.den < 0 then -x.den else x.den

/-- IEEE `a < b`: false when either side is NaN. -/
def lt (a b : Dbl) : Bool :=
  !a.isNaN && !b.isNaN &&
    (if a.den = 0 ∧ b.den = 0 then decide (a.num < 0 ∧ 0 < b.num)
     else decide (a.sNum * b.sDen < b.sNum * a.sDen))

/-- IEEE `a >= b`: false when either side is NaN. -/
def ge (a b : Dbl) : Bool := !a.isNaN && !b.isNaN && !a.lt b

/-- Conversion of a double to `int64_t`: truncation toward zero.  A value that
is not finite or does not fit converts to `INT64_MIN`, as the x86-64
conversion instruction does (the C++ standard leaves it undefined). -/
def toInt64 (x : Dbl) : Int :=
  if x.den = 0 then INT64_MIN
  else if INT64_MIN ≤ Int.tdiv x.num x.den ∧ Int.tdiv x.num x.den ≤ INT64_MAX then
    Int.tdiv x.num x.den
  else INT64_MIN

/-- The rational value of a finite double. -/
def toRat (x : Dbl) : ℚ := (x.num : ℚ) / (x.den : ℚ)

end Dbl

/-! ## Data model -/

/-- Media type of a container stream (`AVMediaType`). -/
inductive AVMediaType where
  | video
  | audio
  | other
deriving DecidableEq, Repr

/-- A time base `num / den` (`AVRational`). -/
structure AVRational where
  num : Int := 0
  den : Int := 0
deriving DecidableEq, Repr

/-- The library function `av_q2d`: `a.num / (double) a.den`. -/
def av_q2d (a : AVRational) : Dbl := Dbl.div (Dbl.ofInt a.num) (Dbl.ofInt a.den)

/-- The fields of an `AVPacket` that the decoder reads. -/
structure AVPacket where
  stream_index : Int
  pts : Int
  duration : Int
  flags : Nat
deriving DecidableEq, Repr

/-- The fields of an `AVFrame` that the decoder reads. -/
structure AVFrame where
  pts : Int
  pkt_duration : Int
deriving DecidableEq, Repr

/-- Modelled from the spec: `FrameInfo` of the missing header `VideoDecoder.h`,
a presentation timestamp in stream time-base units. -/
structure FrameInfo where
  pts : Int
deriving DecidableEq, Repr

/-- Modelled from the spec: `VideoStreamDecoderOptions` of the missing header
`VideoDecoder.h`.  Every option is unset by default; the default text of
`shape` is one of the two layouts the constructor accepts. -/
structure VideoStreamDecoderOptions where
  ffmpegThreadCount : Option Int := none
  shape : String := "NCHW"
  width : Option Int := none
  height : Option Int := none
deriving DecidableEq, Repr

/-- Modelled from the spec: `StreamInfo` of the missing header
`VideoDecoder.h`, the per-stream state.  The codec context and the filter graph
live in the library state; the record keeps whether each was created. -/
structure StreamInfo where
  streamIndex : Int := -1
  timeBase : AVRational := {}
  hasCodecContext : Bool := false
  currentPts : Int := 0
  currentDuration : Int := 0
  discardFramesBeforePts : Option Int := none
  options : VideoStreamDecoderOptions := {}
  hasFilterGraph : Bool := false
  keyFrames : List FrameInfo := []
  allFrames : List FrameInfo := []
deriving DecidableEq, Repr

/-- Modelled from the spec: `StreamMetadata` of the missing header
`VideoDecoder.h`; every optional field starts absent. -/
structure StreamMetadata where
  streamIndex : Int := 0
  mediaType : AVMediaType := AVMediaType.other
  codecName : Option String := none
  bitRate : Option Int := none
  numFrames : Option Int := none
  durationSeconds : Option Dbl := none
  averageFps : Option Dbl := none
  width : Option Int := none
  height : Option Int := none
  numFramesFromScan : Option Int := none
  minPtsFromScan : Option Int := none
  maxPtsFromScan : Option Int := none
  minPtsSecondsFromScan : Option Dbl := none
  maxPtsSecondsFromScan : Option Dbl := none
deriving DecidableEq, Repr

/-- Modelled from the spec: `ContainerMetadata` of the missing header
`VideoDecoder.h`. -/
structure ContainerMetadata where
  streams : List StreamMetadata := []
  numAudioStreams : Int := 0
  numVideoStreams : Int := 0
  durationSeconds : Option Dbl := none
  bitRate : Option Int := none
  bestVideoStreamIndex : Option Int := none
  bestAudioStreamIndex : Option Int := none
deriving DecidableEq, Repr

/-- Modelled from the spec: `DecodeStats` of the missing header
`VideoDecoder.h`; `DecodeStats{}` has every counter at zero. -/
structure DecodeStats where
  numFramesReceivedByDecoder : Int := 0
  numPacketsRead : Int := 0
  numPacketsSentToDecoder : Int := 0
  numSeeksAttempted : Int := 0
  numSeeksSkipped : Int := 0
  numFlushes : Int := 0
deriving DecidableEq, Repr

/-- An image tensor: its sizes and the decoded frame whose pixels it holds. -/
structure Tensor where
  sizes : List Int
  source : AVFrame
deriving DecidableEq, Repr

/-- Modelled from the spec: `DecodedOutput` of the missing header
`VideoDecoder.h`; `frame` is `none` when no tensor was made. -/
structure DecodedOutput where
  streamIndex : Int
  streamType : AVMediaType
  pts : Int
  ptsSeconds : Dbl
  frame : Option Tensor
deriving DecidableEq, Repr

/-- Modelled from the spec: `BatchDecodedOutput` of the missing header
`VideoDecoder.h`: the sizes of the 4-D tensor and what each slot along the
first axis holds (`none` for a slot not written yet). -/
structure BatchDecodedOutput where
  sizes : List Int
  slots : List (Option Tensor)
deriving DecidableEq, Repr

/-- What `av_buffersink_get_frame` leaves in the filtered frame. -/
structure FilteredFrame where
  formatIsRGB24 : Bool
  height : Int
  width : Int
deriving DecidableEq, Repr

/-- The exception classes the decoder throws; `check_failed` is a failed
`TORCH_CHECK`, and `out_of_range` is thrown by `std::stoi` only. -/
inductive ErrorKind where
  | runtime_error
  | invalid_argument
  | check_failed
  | out_of_range
deriving DecidableEq, Repr

/-- Outcome of a member function: a value, a thrown exception, or a loop that
used up its fuel. -/
inductive Result (α : Type) where
  | ok (value : α)
  | error (kind : ErrorKind) (what : String)
  | outOfFuel
deriving DecidableEq, Repr

/-! ## Stream options from an options string

A `std::string` is the list of its characters. -/

/-- The loop of `splitStringWithDelimiters`, read one character at a time:
`piece` is the text from `start` up to the character looked at.  A delimiter
ends the piece (`find_first_of` returned its position `end`, and `start`
becomes `end + 1`); the end of the text ends the last piece (`str.substr(start)`). -/
def splitPieces (delims : List Char) : List Char → List Char → List (List Char)
  | [], piece => [piece]
  | c :: rest, piece =>
    if delims.contains c then piece :: splitPieces delims rest []
    else splitPieces delims rest (piece ++ [c])

/-- The function `splitStringWithDelimiters`. -/
def splitStringWithDelimiters (str delims : List Char) : List (List Char) :=
  if str.isEmpty then [] else splitPieces delims str []

/-- The characters that `isspace` accepts in the C locale: the space and the
control characters 9 to 13. -/
def isspace (c : Char) : Bool := c.toNat == 32 || (decide (9 ≤ c.toNat) && decide (c.toNat ≤ 13))

/-- The decimal digits. -/
def isdigit (c : Char) : Bool := decide (48 ≤ c.toNat) && decide (c.toNat ≤ 57)

/-- The number that a run of decimal digits denotes. -/
def digitsValue (digits : List Char) : Nat :=
  digits.foldl (fun acc c => 10 * acc + (c.toNat - 48)) 0

/-- The text that `strtol` reads after the leading white space: whether it
starts with a minus sign, and what follows the optional sign. -/
def signAndBody (text : List Char) : Bool × List Char :=
  match text with
  | [] => (false, [])
  | c :: rest =>
    if c = '-' then (true, rest) else if c = '+' then (false, rest) else (false, c :: rest)

/-- The standard library call `std::stoi(value)` in base 10 on a 32-bit `int`:
leading white space is skipped, a sign is optional, the longest run of digits
is read and what follows it is ignored.  No digit throws
`std::invalid_argument`; a value outside the range of `int` throws
`std::out_of_range`. -/
def stoi (value : List Char) : Result Int :=
  let body := signAndBody (value.dropWhile isspace)
  let digits := body.2.takeWhile isdigit
  if digits.isEmpty then Result.error ErrorKind.invalid_argument "stoi"
  else
    let n : Int := if body.1 then -(digitsValue digits : Int) else (digitsValue digits : Int)
    if n < -2147483648 ∨ 2147483647 < n then Result.error ErrorKind.out_of_range "stoi"
    else Result.ok n

/-- The body of the `width` and `height` branches of the constructor: the
option is set from `std::stoi(value)`. -/
def setFromStoi (value : List Char) (set : Int → VideoStreamDecoderOptions) :
    Result VideoStreamDecoderOptions :=
  match stoi value with
  | Result.ok n => Result.ok (set n)
  | Result.error kind what => Result.error kind what
  | Result.outOfFuel => Result.outOfFuel

/-- The body of the token loop of the constructor
`VideoStreamDecoderOptions(const std::string& optionsString)`. -/
def applyOptionToken (token : List Char) (options : VideoStreamDecoderOptions) :
    Result VideoStreamDecoderOptions :=
  match splitStringWithDelimiters token ['='] with
  | [key, value] =>
    if key = "ffmpeg_thread_count".toList then
      match stoi value with
      | Result.ok n =>
        if n < 0 then Result.error ErrorKind.runtime_error "Invalid ffmpeg_thread_count"
        else Result.ok { options with ffmpegThreadCount := some n }
      | Result.error kind what => Result.error kind what
      | Result.outOfFuel => Result.outOfFuel
    else if key = "shape".toList then
      if value ≠ "NHWC".toList ∧ value ≠ "NCHW".toList then
        Result.error ErrorKind.runtime_error "Invalid shape"
      else Result.ok { options with shape := String.mk value }
    else if key = "width".toList then
      setFromStoi value (fun n => { options with width := some n })
    else if key = "height".toList then
      setFromStoi value (fun n => { options with height := some n })
    else Result.error ErrorKind.runtime_error "Invalid option key"
  | _ => Result.error ErrorKind.runtime_error "Invalid option"

/-- The token loop of the constructor. -/
def applyOptionTokens :
    List (List Char) → VideoStreamDecoderOptions → Result VideoStreamDecoderOptions
  | [], options => Result.ok options
  | token :: rest, options =>
    match applyOptionToken token options with
    | Result.ok options1 => applyOptionTokens rest options1
    | Result.error kind what => Result.error kind what
    | Result.outOfFuel => Result.outOfFuel

/-- The constructor `VideoStreamDecoderOptions(const std::string& optionsString)`;
the members start at their defaults. -/
def VideoStreamDecoderOptions.fromOptionsString (optionsString : List Char) :
    Result VideoStreamDecoderOptions :=
  applyOptionTokens (splitStringWithDelimiters optionsString [',']) {}

/-! ## The per-stream table `std::map<int, StreamInfo>` -/

/-- Number of entries with key `k` (`std::map::count`). -/
def mapCount (m : List (Int × StreamInfo)) (k : Int) : Nat :=
  (m.filter (fun e => e.1 == k)).length

/-- Insertion of a new entry, keeping the keys ascending. -/
def mapInsert (k : Int) (v : StreamInfo) : List (Int × StreamInfo) → List (Int × StreamInfo)
  | [] => [(k, v)]
  | e :: rest => if k < e.1 then (k, v) :: e :: rest else e :: mapInsert k v rest

/-- The table after `streams_[k]` was evaluated: a missing key gets a
value-initialised entry. -/
def mapTouch (m : List (Int × StreamInfo)) (k : Int) : List (Int × StreamInfo) :=
  if mapCount m k = 0 then mapInsert k {} m else m

/-- The entry that `streams_[k]` refers to. -/
def mapAt (m : List (Int × StreamInfo)) (k : Int) : StreamInfo :=
  match m.find? (fun e => e.1 == k) with
  | some e => e.2
  | none => {}

/-- The table after `streams_[k]` was evaluated and the entry changed by `f`. -/
def mapModify (m : List (Int × StreamInfo)) (k : Int) (f : StreamInfo → StreamInfo) :
    List (Int × StreamInfo) :=
  (mapTouch m k).map (fun e => if e.1 == k then (e.1, f e.2) else e)

/-! ## The decoder object and the library it drives -/

/-- The data members of `VideoDecoder`; `lib` stands for the format context and
the codec contexts, which belong to the library. -/
structure VideoDecoder (σ : Type) where
  lib : σ
  containerMetadata : ContainerMetadata := {}
  streams_ : List (Int × StreamInfo) := []
  activeStreamIndices_ : List Int := []
  maybeDesiredPts_ : Option Dbl := none
  decodeStats_ : DecodeStats := {}
deriving DecidableEq, Repr

/-- The library calls of `initializeFilterGraphForStream`, in source order:
the buffer source, the buffer sink, the pixel-format list of the sink, the
parse of `scale=width:height`, and the configuration of the graph. -/
inductive FilterGraphCall where
  | createSource
  | createSink
  | setPixFmts
  | parse (width height : Int)
  | config
deriving DecidableEq, Repr

/-- The library calls made by the member functions modelled here, each a
function of the library state.  A status is the `int` the call returns. -/
structure Lib (σ : Type) where
  /-- The call `av_read_frame`: status, the packet read, new state. -/
  readFrame : σ → Int × AVPacket × σ
  /-- The call `avcodec_send_packet` on the codec of a stream; `none` is the null packet. -/
  sendPacket : σ → Int → Option AVPacket → Int × σ
  /-- The call `avcodec_receive_frame` on the codec of a stream. -/
  receiveFrame : σ → Int → Int × AVFrame × σ
  /-- The call `avformat_seek_file` with stream, min_ts, ts, max_ts. -/
  seekFile : σ → Int → Int → Int → Int → Int × σ
  /-- The call `avcodec_flush_buffers` on the codec of a stream. -/
  flushBuffers : σ → Int → σ
  /-- The call `av_index_search_timestamp` backward from a timestamp in a stream. -/
  indexSearchTimestamp : σ → Int → Int → Int
  /-- The call `av_buffersrc_write_frame` on the filter graph of a stream. -/
  bufferSrcWriteFrame : σ → Int → AVFrame → Int × σ
  /-- The call `av_buffersink_get_frame` on the filter graph of a stream. -/
  bufferSinkGetFrame : σ → Int → FilteredFrame × σ
  /-- The field `time_base` of container stream `i`. -/
  streamTimeBase : σ → Int → AVRational
  /-- The field `codecpar->codec_type` of container stream `i`. -/
  streamCodecType : σ → Int → AVMediaType
  /-- The call `avformat_find_stream_info`. -/
  findStreamInfo : σ → Int × σ
  /-- The field `nb_streams` of the format context. -/
  nbStreams : σ → Nat
  /-- The name `avcodec_get_name` gives for the codec of container stream `i`. -/
  streamCodecName : σ → Int → String
  /-- The field `codecpar->bit_rate` of container stream `i`. -/
  streamBitRate : σ → Int → Int
  /-- The field `nb_frames` of container stream `i`. -/
  streamNbFrames : σ → Int → Int
  /-- The field `duration` of container stream `i`. -/
  streamDuration : σ → Int → Int
  /-- The field `r_frame_rate` of container stream `i`. -/
  streamFrameRate : σ → Int → AVRational
  /-- The field `duration` of the format context. -/
  containerDuration : σ → Int
  /-- The field `bit_rate` of the format context. -/
  containerBitRate : σ → Int
  /-- The call `av_find_best_stream` for a media type and a wanted stream number. -/
  findBestStream : σ → AVMediaType → Int → Int
  /-- The call `avcodec_alloc_context3`, with the thread count then written to the context. -/
  allocContext : σ → Int → Int → σ
  /-- The call `avcodec_parameters_to_context` for the codec of a stream. -/
  parametersToContext : σ → Int → Int × σ
  /-- The call `avcodec_open2` for the codec of a stream. -/
  codecOpen2 : σ → Int → Int × σ
  /-- The write of the stream time base to the codec context of a stream. -/
  setCodecTimeBase : σ → Int → σ
  /-- The field `width` of the codec context of a stream. -/
  codecWidth : σ → Int → Int
  /-- The field `height` of the codec context of a stream. -/
  codecHeight : σ → Int → Int
  /-- The name `avcodec_get_name` gives for the codec context of a stream. -/
  codecName : σ → Int → String
  /-- One of the library calls that build the filter graph of a stream. -/
  filterGraphCall : σ → Int → FilterGraphCall → Int × σ
  /-- Whether `torch::empty` accepts the sizes. -/
  tensorEmpty : List Int → Bool
  /-- Whether a tensor of the second sizes can be assigned to a slot of the first sizes. -/
  tensorAssign : List Int → List Int → Bool

/-! ## Index scan -/

/-- Application of `f` to element `n` of a list; no change when out of range. -/
def modifyAt {α : Type} (f : α → α) : Nat → List α → List α
  | _, [] => []
  | 0, x :: xs => f x :: xs
  | n + 1, x :: xs => x :: modifyAt f n xs

/-- The element `containerMetadata_.streams[i]` changed by `f`.  An index
outside the vector is undefined in the source; here it changes nothing. -/
def modifyStreamMetadata (streams : List StreamMetadata) (i : Int)
    (f : StreamMetadata → StreamMetadata) : List StreamMetadata :=
  if 0 ≤ i then modifyAt f i.toNat streams else streams

/-- The packet carries `AV_PKT_FLAG_DISCARD`. -/
def isDiscard (packet : AVPacket) : Bool := packet.flags &&& AV_PKT_FLAG_DISCARD != 0

/-- The packet carries `AV_PKT_FLAG_KEY`. -/
def isKey (packet : AVPacket) : Bool := packet.flags &&& AV_PKT_FLAG_KEY != 0

/-- Update of the scan-derived metadata of one stream by one packet. -/
def scanUpdateMetadata (packet : AVPacket) (stream : StreamMetadata) : StreamMetadata :=
  { stream with
    minPtsFromScan := some (min (stream.minPtsFromScan.getD INT64_MAX) packet.pts)
    maxPtsFromScan :=
      some (max (stream.maxPtsFromScan.getD INT64_MIN) (wrapInt64 (packet.pts + packet.duration)))
    numFramesFromScan := some (stream.numFramesFromScan.getD 0 + 1) }

/-- Body of the read loop of `scanFileAndUpdateMetadataAndIndex` for one packet. -/
def scanPacket {σ : Type} (packet : AVPacket) (d : VideoDecoder σ) : VideoDecoder σ :=
  if isDiscard packet then d
  else
    let streamIndex := packet.stream_index
    let metadata :=
      { d.containerMetadata with
        streams := modifyStreamMetadata d.containerMetadata.streams streamIndex
          (scanUpdateMetadata packet) }
    let frameInfo : FrameInfo := ⟨packet.pts⟩
    let streams1 :=
      if isKey packet then
        mapModify d.streams_ streamIndex (fun s => { s with keyFrames := s.keyFrames ++ [frameInfo] })
      else d.streams_
    let streams2 :=
      mapModify streams1 streamIndex (fun s => { s with allFrames := s.allFrames ++ [frameInfo] })
    { d with containerMetadata := metadata, streams_ := streams2 }

/-- The read loop of `scanFileAndUpdateMetadataAndIndex`. -/
def scanLoop {σ : Type} (L : Lib σ) : Nat → VideoDecoder σ → Result Unit × VideoDecoder σ
  | 0, d => (Result.outOfFuel, d)
  | fuel + 1, d =>
    let r := L.readFrame d.lib
    let d1 := { d with lib := r.2.2 }
    if r.1 = AVERROR_EOF then (Result.ok (), d1)
    else if r.1 ≠ AVSUCCESS then
      (Result.error ErrorKind.runtime_error "Failed to read frame from input file", d1)
    else scanLoop L fuel (scanPacket r.2.1 d1)

/-- Conversion of the scanned bounds of stream `i`, `i + 1`, ... to seconds. -/
def scanSecondsFrom {σ : Type} (L : Lib σ) (lib : σ) : Nat → List StreamMetadata → List StreamMetadata
  | _, [] => []
  | i, streamMetadata :: rest =>
    let tb := L.streamTimeBase lib i
    let m1 :=
      match streamMetadata.minPtsFromScan with
      | some p =>
        { streamMetadata with minPtsSecondsFromScan := some (Dbl.mul (Dbl.ofInt p) (av_q2d tb)) }
      | none => streamMetadata
    let m2 :=
      match m1.maxPtsFromScan with
      | some p => { m1 with maxPtsSecondsFromScan := some (Dbl.mul (Dbl.ofInt p) (av_q2d tb)) }
      | none => m1
    m2 :: scanSecondsFrom L lib (i + 1) rest

/-- Insertion into a list sorted by `pts`. -/
def insertByPts (x : FrameInfo) : List FrameInfo → List FrameInfo
  | [] => [x]
  | y :: ys => if x.pts < y.pts then x :: y :: ys else y :: insertByPts x ys

/-- The call `std::sort` with the comparator `frameInfo1.pts < frameInfo2.pts`.
A `FrameInfo` is its `pts`, so every sorting algorithm gives this list. -/
def sortByPts : List FrameInfo → List FrameInfo
  | [] => []
  | x :: xs => insertByPts x (sortByPts xs)

/-- Body of the final loop of the scan: both frame lists of an entry are sorted. -/
def sortEntry (e : Int × StreamInfo) : Int × StreamInfo :=
  (e.1, { e.2 with keyFrames := sortByPts e.2.keyFrames, allFrames := sortByPts e.2.allFrames })

/-- The final loop of the scan, over every entry of `streams_`. -/
def sortStreams (m : List (Int × StreamInfo)) : List (Int × StreamInfo) :=
  m.map sortEntry

/-- The member function `scanFileAndUpdateMetadataAndIndex`. -/
def scanFileAndUpdateMetadataAndIndex {σ : Type} (L : Lib σ) (fuel : Nat) (d : VideoDecoder σ) :
    Result Unit × VideoDecoder σ :=
  match scanLoop L fuel d with
  | (Result.ok _, d1) =>
    let d2 := { d1 with
      containerMetadata := { d1.containerMetadata with
        streams := scanSecondsFrom L d1.lib 0 d1.containerMetadata.streams } }
    let r := L.seekFile d2.lib 0 INT64_MIN 0 0
    let d3 := { d2 with lib := r.2 }
    if r.1 < 0 then (Result.error ErrorKind.runtime_error "Could not seek file to pts=0", d3)
    else (Result.ok (), { d3 with streams_ := sortStreams d3.streams_ })
  | other => other

/-! ## Seek planner -/

/-- Position of the first element whose `pts` is greater than `pts`: what
`std::upper_bound` with the comparator `pts < frameInfo.pts` returns on a list
ordered by `pts`. -/
def upperBound (keyFrames : List FrameInfo) (pts : Int) : Nat :=
  match keyFrames with
  | [] => 0
  | frameInfo :: rest => if pts < frameInfo.pts then 0 else upperBound rest pts + 1

/-- The member function `getKeyFrameIndexForPtsUsingScannedIndex`. -/
def getKeyFrameIndexForPtsUsingScannedIndex (keyFrames : List FrameInfo) (pts : Int) : Int :=
  if upperBound keyFrames pts = 0 then -1 else (upperBound keyFrames pts : Int) - 1

/-- The member function `getKeyFrameIndexForPtsUsingEncoderIndex`; the stream
pointer is the container stream of the entry's `streamIndex`. -/
def getKeyFrameIndexForPtsUsingEncoderIndex {σ : Type} (L : Lib σ) (lib : σ) (stream : Int)
    (pts : Int) : Int :=
  L.indexSearchTimestamp lib stream pts

/-- The member function `getKeyFrameIndexForPts`. -/
def getKeyFrameIndexForPts {σ : Type} (L : Lib σ) (lib : σ) (streamInfo : StreamInfo)
    (pts : Int) : Int :=
  if streamInfo.keyFrames.isEmpty then
    getKeyFrameIndexForPtsUsingEncoderIndex L lib streamInfo.streamIndex pts
  else getKeyFrameIndexForPtsUsingScannedIndex streamInfo.keyFrames pts

/-- The member function `canWeAvoidSeekingForStream`. -/
def canWeAvoidSeekingForStream {σ : Type} (L : Lib σ) (lib : σ) (streamInfo : StreamInfo)
    (currentPts targetPts : Int) : Bool :=
  if targetPts < currentPts then false
  else if currentPts = targetPts then false
  else
    decide (0 ≤ getKeyFrameIndexForPts L lib streamInfo currentPts) &&
    decide (0 ≤ getKeyFrameIndexForPts L lib streamInfo targetPts) &&
    decide (getKeyFrameIndexForPts L lib streamInfo currentPts =
      getKeyFrameIndexForPts L lib streamInfo targetPts)

/-- The value `*maybeDesiredPts_ * streamInfo.timeBase.den` stored in an `int64_t`. -/
def desiredPtsForStream (desired : Dbl) (streamInfo : StreamInfo) : Int :=
  Dbl.toInt64 (desired.mulInt streamInfo.timeBase.den)

/-- The write `streamInfo.discardFramesBeforePts = *maybeDesiredPts_ * streamInfo.timeBase.den`. -/
def withDiscard (desired : Dbl) (s : StreamInfo) : StreamInfo :=
  { s with discardFramesBeforePts := some (desiredPtsForStream desired s) }

/-- First loop of `maybeSeekToBeforeDesiredPts`: every active stream gets its
`discardFramesBeforePts`. -/
def setDiscardFramesBeforePts (desired : Dbl) :
    List Int → List (Int × StreamInfo) → List (Int × StreamInfo)
  | [], m => m
  | streamIndex :: rest, m =>
    setDiscardFramesBeforePts desired rest (mapModify m streamIndex (withDiscard desired))

/-- Second loop of `maybeSeekToBeforeDesiredPts`: whether some active stream
cannot avoid the seek.  Every `streams_[streamIndex]` exists after the first loop. -/
def mustSeek {σ : Type} (L : Lib σ) (desired : Dbl) (d : VideoDecoder σ) : Bool :=
  d.activeStreamIndices_.any (fun streamIndex =>
    !canWeAvoidSeekingForStream L d.lib (mapAt d.streams_ streamIndex)
      (mapAt d.streams_ streamIndex).currentPts
      (desiredPtsForStream desired (mapAt d.streams_ streamIndex)))

/-- Last loop of `maybeSeekToBeforeDesiredPts`: every active codec is flushed. -/
def flushAll {σ : Type} (L : Lib σ) : List Int → σ → σ
  | [], lib => lib
  | streamIndex :: rest, lib => flushAll L rest (L.flushBuffers lib streamIndex)

/-- The member function `maybeSeekToBeforeDesiredPts`.  It is only called with
a desired PTS present; without one the source dereferences an empty optional,
and the model leaves the state alone. -/
def maybeSeekToBeforeDesiredPts {σ : Type} (L : Lib σ) (d : VideoDecoder σ) :
    Result Unit × VideoDecoder σ :=
  if d.activeStreamIndices_.length = 0 then (Result.ok (), d)
  else
    match d.maybeDesiredPts_ with
    | none => (Result.ok (), d)
    | some desired =>
      let d1 := { d with
        streams_ := setDiscardFramesBeforePts desired d.activeStreamIndices_ d.streams_ }
      let d2 := { d1 with
        decodeStats_ := { d1.decodeStats_ with
          numSeeksAttempted := d1.decodeStats_.numSeeksAttempted + 1 } }
      if !mustSeek L desired d2 then
        (Result.ok (), { d2 with
          decodeStats_ := { d2.decodeStats_ with
            numSeeksSkipped := d2.decodeStats_.numSeeksSkipped + 1 } })
      else
        let firstActiveStreamIndex := d2.activeStreamIndices_.headD 0
        let firstStreamInfo := mapAt d2.streams_ firstActiveStreamIndex
        let desiredPts := desiredPtsForStream desired firstStreamInfo
        let r := L.seekFile d2.lib firstStreamInfo.streamIndex INT64_MIN desiredPts desiredPts
        let d3 := { d2 with lib := r.2 }
        if r.1 < 0 then
          (Result.error ErrorKind.runtime_error "Could not seek file to pts", d3)
        else
          let d4 := { d3 with
            decodeStats_ := { d3.decodeStats_ with numFlushes := d3.decodeStats_.numFlushes + 1 } }
          (Result.ok (), { d4 with lib := flushAll L d4.activeStreamIndices_ d4.lib })

/-! ## Decode pump -/

/-- The member function `resetDecodeStats`. -/
def resetDecodeStats {σ : Type} (d : VideoDecoder σ) : VideoDecoder σ :=
  { d with decodeStats_ := {} }

/-- The member function `getDecodeStats`. -/
def getDecodeStats {σ : Type} (d : VideoDecoder σ) : DecodeStats := d.decodeStats_

/-- The member function `setCursorPtsInSeconds`. -/
def setCursorPtsInSeconds {σ : Type} (seconds : Dbl) (d : VideoDecoder σ) : VideoDecoder σ :=
  { d with maybeDesiredPts_ := some seconds }

/-- The frame `av_frame_alloc` returns: no timestamp (`AV_NOPTS_VALUE`), no duration. -/
def allocatedFrame : AVFrame := ⟨INT64_MIN, 0⟩

/-- Local variables of the pump after its `for` loop over the active streams. -/
structure Received where
  ffmpegStatus : Int
  frame : AVFrame
  frameStreamIndex : Int
  gotPermanentErrorOnAnyActiveStream : Bool
deriving DecidableEq, Repr

/-- The `for` loop of the pump: the active streams are polled in order until
one has a frame or reports a status other than success and `EAGAIN`. -/
def receiveFromActiveStreams {σ : Type} (L : Lib σ) :
    List Int → Int → AVFrame → VideoDecoder σ → Received × VideoDecoder σ
  | [], ffmpegStatus, frame, d => (⟨ffmpegStatus, frame, -1, false⟩, d)
  | streamIndex :: rest, _, _, d =>
    let d1 := { d with streams_ := mapTouch d.streams_ streamIndex }
    let r := L.receiveFrame d1.lib streamIndex
    let d2 := { d1 with lib := r.2.2 }
    if r.1 ≠ AVSUCCESS ∧ r.1 ≠ AVERROR_EAGAIN then (⟨r.1, r.2.1, -1, true⟩, d2)
    else if r.1 = AVSUCCESS then (⟨r.1, r.2.1, streamIndex, false⟩, d2)
    else receiveFromActiveStreams L rest r.1 r.2.1 d2

/-- The drain loop at end of file: the null packet goes to every active codec;
the first negative status stops the loop and is returned with `true`. -/
def sendNullPackets {σ : Type} (L : Lib σ) :
    List Int → Int → VideoDecoder σ → (Int × Bool) × VideoDecoder σ
  | [], ffmpegStatus, d => ((ffmpegStatus, false), d)
  | streamIndex :: rest, _, d =>
    let d1 := { d with streams_ := mapTouch d.streams_ streamIndex }
    let r := L.sendPacket d1.lib streamIndex none
    let d2 := { d1 with lib := r.2 }
    if r.1 < AVSUCCESS then ((r.1, true), d2)
    else sendNullPackets L rest r.1 d2

/-- Local variables of the pump when its `while` loop is left by `break`. -/
structure LoopExit where
  ffmpegStatus : Int
  frameStreamIndex : Int
  frame : AVFrame
deriving DecidableEq, Repr

/-- The `while (true)` loop of `getDecodedOutputWithFilter`. -/
def decodeLoop {σ : Type} (L : Lib σ) (filterFunction : VideoDecoder σ → Int → AVFrame → Bool) :
    Nat → Int → Bool → AVFrame → VideoDecoder σ → Result LoopExit × VideoDecoder σ
  | 0, _, _, _, d => (Result.outOfFuel, d)
  | fuel + 1, ffmpegStatus, reachedEOF, frame, d =>
    let rc := receiveFromActiveStreams L d.activeStreamIndices_ ffmpegStatus frame d
    if rc.1.gotPermanentErrorOnAnyActiveStream then
      (Result.ok ⟨rc.1.ffmpegStatus, rc.1.frameStreamIndex, rc.1.frame⟩, rc.2)
    else
      let d2 := { rc.2 with
        decodeStats_ := { rc.2.decodeStats_ with
          numFramesReceivedByDecoder := rc.2.decodeStats_.numFramesReceivedByDecoder + 1 } }
      if rc.1.ffmpegStatus = AVSUCCESS ∧
          filterFunction d2 rc.1.frameStreamIndex rc.1.frame = true then
        (Result.ok ⟨rc.1.ffmpegStatus, rc.1.frameStreamIndex, rc.1.frame⟩, d2)
      else if rc.1.ffmpegStatus = AVSUCCESS then
        decodeLoop L filterFunction fuel rc.1.ffmpegStatus reachedEOF rc.1.frame d2
      else if reachedEOF then
        decodeLoop L filterFunction fuel rc.1.ffmpegStatus reachedEOF rc.1.frame d2
      else
        let rd := L.readFrame d2.lib
        let d3 := { d2 with
          lib := rd.2.2
          decodeStats_ := { d2.decodeStats_ with
            numPacketsRead := d2.decodeStats_.numPacketsRead + 1 } }
        if rd.1 = AVERROR_EOF then
          let dr := sendNullPackets L d3.activeStreamIndices_ rd.1 d3
          if dr.1.2 then (Result.error ErrorKind.runtime_error "Could not flush decoder", dr.2)
          else decodeLoop L filterFunction fuel dr.1.1 true rc.1.frame dr.2
        else if rd.1 < AVSUCCESS then
          (Result.error ErrorKind.runtime_error "Could not read frame from input file", d3)
        else if d3.activeStreamIndices_.count rd.2.1.stream_index = 0 then
          decodeLoop L filterFunction fuel rd.1 reachedEOF rc.1.frame d3
        else
          let d4 := { d3 with streams_ := mapTouch d3.streams_ rd.2.1.stream_index }
          let sp := L.sendPacket d4.lib rd.2.1.stream_index (some rd.2.1)
          let d5 := { d4 with
            lib := sp.2
            decodeStats_ := { d4.decodeStats_ with
              numPacketsSentToDecoder := d4.decodeStats_.numPacketsSentToDecoder + 1 } }
          if sp.1 < AVSUCCESS then
            (Result.error ErrorKind.runtime_error "Could not push packet to decoder", d5)
          else decodeLoop L filterFunction fuel sp.1 reachedEOF rc.1.frame d5

/-- The member function `convertFrameToTensorUsingFilterGraph`. -/
def convertFrameToTensorUsingFilterGraph {σ : Type} (L : Lib σ) (streamIndex : Int)
    (frame : AVFrame) (d : VideoDecoder σ) : Result Tensor × VideoDecoder σ :=
  let d1 := { d with streams_ := mapTouch d.streams_ streamIndex }
  let w := L.bufferSrcWriteFrame d1.lib streamIndex frame
  let d2 := { d1 with lib := w.2 }
  if w.1 < AVSUCCESS then
    (Result.error ErrorKind.runtime_error "Failed to add frame to buffer source context", d2)
  else
    let g := L.bufferSinkGetFrame d2.lib streamIndex
    let d3 := { d2 with lib := g.2 }
    if !g.1.formatIsRGB24 then
      (Result.error ErrorKind.check_failed "filteredFrame->format == AV_PIX_FMT_RGB24", d3)
    else if (mapAt d3.streams_ streamIndex).options.shape = "NCHW" then
      (Result.ok ⟨[3, g.1.height, g.1.width], frame⟩, d3)
    else (Result.ok ⟨[g.1.height, g.1.width, 3], frame⟩, d3)

/-- The member function `convertAVFrameToDecodedOutput`. -/
def convertAVFrameToDecodedOutput {σ : Type} (L : Lib σ) (streamIndex : Int) (frame : AVFrame)
    (d : VideoDecoder σ) : Result DecodedOutput × VideoDecoder σ :=
  let d1 := { d with streams_ := mapTouch d.streams_ streamIndex }
  let streamType := L.streamCodecType d1.lib streamIndex
  let ptsSeconds := Dbl.ofRatio frame.pts (L.streamTimeBase d1.lib streamIndex).den
  match streamType with
  | AVMediaType.video =>
    match convertFrameToTensorUsingFilterGraph L streamIndex frame d1 with
    | (Result.ok tensor, d2) =>
      (Result.ok ⟨streamIndex, streamType, frame.pts, ptsSeconds, some tensor⟩, d2)
    | (Result.error kind what, d2) => (Result.error kind what, d2)
    | (Result.outOfFuel, d2) => (Result.outOfFuel, d2)
  | AVMediaType.audio =>
    (Result.error ErrorKind.runtime_error "Audio is not supported yet.", d1)
  | AVMediaType.other =>
    (Result.ok ⟨streamIndex, streamType, frame.pts, ptsSeconds, none⟩, d1)

/-- The block of `getDecodedOutputWithFilter` that consumes a pending seek: with
a desired PTS present, the seek planner runs and the desired PTS is cleared;
an exception of the planner leaves it in place. -/
def consumePendingSeek {σ : Type} (L : Lib σ) (d : VideoDecoder σ) :
    Result Unit × VideoDecoder σ :=
  if d.maybeDesiredPts_.isSome then
    match (maybeSeekToBeforeDesiredPts L d).1 with
    | Result.ok _ =>
      (Result.ok (), { (maybeSeekToBeforeDesiredPts L d).2 with maybeDesiredPts_ := none })
    | _ => maybeSeekToBeforeDesiredPts L d
  else (Result.ok (), d)

/-- The two writes `activeStream.currentPts = frame->pts` and
`activeStream.currentDuration = frame->pkt_duration`. -/
def setCurrentFrame (frame : AVFrame) (s : StreamInfo) : StreamInfo :=
  { s with currentPts := frame.pts, currentDuration := frame.pkt_duration }

/-- The block of `getDecodedOutputWithFilter` after its `while` loop: a negative
status throws, otherwise the stream of the frame records the frame as its
current one and the frame is converted. -/
def finishDecode {σ : Type} (L : Lib σ) (ex : LoopExit) (d : VideoDecoder σ) :
    Result DecodedOutput × VideoDecoder σ :=
  if ex.ffmpegStatus < AVSUCCESS then
    (Result.error ErrorKind.runtime_error "Could not receive frame from decoder", d)
  else
    convertAVFrameToDecodedOutput L ex.frameStreamIndex ex.frame
      { d with streams_ := mapModify d.streams_ ex.frameStreamIndex (setCurrentFrame ex.frame) }

/-- The member function `getDecodedOutputWithFilter`.  The filter reads the
decoder it is called on, as the lambdas that capture `this` do. -/
def getDecodedOutputWithFilter {σ : Type} (L : Lib σ) (fuel : Nat)
    (filterFunction : VideoDecoder σ → Int → AVFrame → Bool) (d : VideoDecoder σ) :
    Result DecodedOutput × VideoDecoder σ :=
  if d.activeStreamIndices_.length = 0 then
    (Result.error ErrorKind.runtime_error "No active streams configured.", d)
  else
    match consumePendingSeek L (resetDecodeStats d) with
    | (Result.error kind what, d1) => (Result.error kind what, d1)
    | (Result.outOfFuel, d1) => (Result.outOfFuel, d1)
    | (Result.ok _, d1) =>
      match decodeLoop L filterFunction fuel AVSUCCESS false allocatedFrame d1 with
      | (Result.error kind what, d2) => (Result.error kind what, d2)
      | (Result.outOfFuel, d2) => (Result.outOfFuel, d2)
      | (Result.ok ex, d2) => finishDecode L ex d2

/-- The filter of `getNextDecodedOutput`. -/
def nextFrameFilter {σ : Type} (d : VideoDecoder σ) (frameStreamIndex : Int) (frame : AVFrame) :
    Bool :=
  decide ((mapAt d.streams_ frameStreamIndex).discardFramesBeforePts.getD INT64_MIN ≤ frame.pts)

/-- The member function `getNextDecodedOutput`. -/
def getNextDecodedOutput {σ : Type} (L : Lib σ) (fuel : Nat) (d : VideoDecoder σ) :
    Result DecodedOutput × VideoDecoder σ :=
  getDecodedOutputWithFilter L fuel nextFrameFilter d

/-- The loop at the head of `getFrameDisplayedAtTimestamp`: `seconds` moves back
to the start of the current frame of the first entry whose current frame
holds it. -/
def rewindToCurrentFrame (seconds : Dbl) : List (Int × StreamInfo) → Dbl
  | [] => seconds
  | e :: rest =>
    if seconds.ge (Dbl.ofRatio e.2.currentPts e.2.timeBase.den) ∧
        seconds.lt (Dbl.ofRatio (wrapInt64 (e.2.currentPts + e.2.currentDuration))
          e.2.timeBase.den) then
      Dbl.ofRatio e.2.currentPts e.2.timeBase.den
    else rewindToCurrentFrame seconds rest

/-- The filter of `getFrameDisplayedAtTimestamp`, with the captured `seconds`. -/
def displayedAtFilter {σ : Type} (seconds : Dbl) (d : VideoDecoder σ) (frameStreamIndex : Int)
    (frame : AVFrame) : Bool :=
  seconds.ge (Dbl.ofRatio frame.pts (mapAt d.streams_ frameStreamIndex).timeBase.den) &&
  seconds.lt (Dbl.ofRatio (wrapInt64 (frame.pts + frame.pkt_duration))
    (mapAt d.streams_ frameStreamIndex).timeBase.den)

/-- The member function `getFrameDisplayedAtTimestamp`. -/
def getFrameDisplayedAtTimestamp {σ : Type} (L : Lib σ) (fuel : Nat) (seconds : Dbl)
    (d : VideoDecoder σ) : Result DecodedOutput × VideoDecoder σ :=
  let seconds1 := rewindToCurrentFrame seconds d.streams_
  getDecodedOutputWithFilter L fuel (displayedAtFilter seconds1)
    (setCursorPtsInSeconds seconds1 d)

/-- The member function `getFrameAtIndex`. -/
def getFrameAtIndex {σ : Type} (L : Lib σ) (fuel : Nat) (streamIndex : Int) (frameIndex : Int)
    (d : VideoDecoder σ) : Result DecodedOutput × VideoDecoder σ :=
  if streamIndex < 0 ∨ (d.containerMetadata.streams.length : Int) ≤ streamIndex then
    (Result.error ErrorKind.runtime_error "Invalid stream index", d)
  else if mapCount d.streams_ streamIndex = 0 then
    (Result.error ErrorKind.runtime_error "streamIndex not added to decoder", d)
  else if frameIndex < 0 ∨ ((mapAt d.streams_ streamIndex).allFrames.length : Int) ≤ frameIndex then
    (Result.error ErrorKind.runtime_error "Invalid frame index", d)
  else
    let pts := ((mapAt d.streams_ streamIndex).allFrames.getD frameIndex.toNat ⟨0⟩).pts
    getNextDecodedOutput L fuel
      (setCursorPtsInSeconds (Dbl.ofRatio pts (mapAt d.streams_ streamIndex).timeBase.den) d)

/-- The loop of `getFramesAtIndexes` from slot `i` on. -/
def getFramesAtIndexesLoop {σ : Type} (L : Lib σ) (fuel : Nat) (streamIndex : Int) :
    List Int → Nat → BatchDecodedOutput → VideoDecoder σ →
      Result BatchDecodedOutput × VideoDecoder σ
  | [], _, output, d => (Result.ok output, d)
  | frameIndex :: rest, i, output, d =>
    if frameIndex < 0 ∨ ((mapAt d.streams_ streamIndex).allFrames.length : Int) ≤ frameIndex then
      (Result.error ErrorKind.runtime_error "Invalid frame index", d)
    else
      let pts := ((mapAt d.streams_ streamIndex).allFrames.getD frameIndex.toNat ⟨0⟩).pts
      match getNextDecodedOutput L fuel
          (setCursorPtsInSeconds (Dbl.ofRatio pts (mapAt d.streams_ streamIndex).timeBase.den) d) with
      | (Result.error kind what, d1) => (Result.error kind what, d1)
      | (Result.outOfFuel, d1) => (Result.outOfFuel, d1)
      | (Result.ok decoded, d1) =>
        match decoded.frame with
        | none => (Result.error ErrorKind.check_failed "assignment of an undefined tensor", d1)
        | some frame =>
          if L.tensorAssign (output.sizes.drop 1) frame.sizes then
            getFramesAtIndexesLoop L fuel streamIndex rest (i + 1)
              { output with slots := output.slots.set i (some frame) } d1
          else (Result.error ErrorKind.check_failed "tensor sizes do not match the slot", d1)

/-- The member function `getFramesAtIndexes`.  The source reads
`*streamMetadata.height` and `*streamMetadata.width` without a check; an absent
value is read as `0` here. -/
def getFramesAtIndexes {σ : Type} (L : Lib σ) (fuel : Nat) (streamIndex : Int)
    (frameIndexes : List Int) (d : VideoDecoder σ) : Result BatchDecodedOutput × VideoDecoder σ :=
  if streamIndex < 0 ∨ (d.containerMetadata.streams.length : Int) ≤ streamIndex then
    (Result.error ErrorKind.runtime_error "Invalid stream index", d)
  else
    let streamMetadata := d.containerMetadata.streams.getD streamIndex.toNat {}
    let d1 := { d with streams_ := mapTouch d.streams_ streamIndex }
    let options := (mapAt d1.streams_ streamIndex).options
    let height := options.height.getD (streamMetadata.height.getD 0)
    let width := options.width.getD (streamMetadata.width.getD 0)
    let sizes : Option (List Int) :=
      if options.shape = "NHWC" then some [(frameIndexes.length : Int), height, width, 3]
      else if options.shape = "NCHW" then some [(frameIndexes.length : Int), 3, height, width]
      else none
    match sizes with
    | none => (Result.error ErrorKind.runtime_error "Unsupported frame shape", d1)
    | some sz =>
      if !L.tensorEmpty sz then
        (Result.error ErrorKind.check_failed "torch::empty rejected the sizes", d1)
      else if mapCount d1.streams_ streamIndex = 0 then
        (Result.error ErrorKind.runtime_error "Invalid stream index", d1)
      else
        getFramesAtIndexesLoop L fuel streamIndex frameIndexes 0
          ⟨sz, List.replicate frameIndexes.length none⟩ d1

/-! ## Construction and stream activation -/

/-- Body of the stream loop of `initializeDecoder` for container stream `i`. -/
def initializeStreamMetadata {σ : Type} (L : Lib σ) (lib : σ) (i : Int) : StreamMetadata :=
  let curr : StreamMetadata :=
    { streamIndex := i
      mediaType := L.streamCodecType lib i
      codecName := some (L.streamCodecName lib i)
      bitRate := some (L.streamBitRate lib i) }
  let curr1 :=
    if 0 < L.streamNbFrames lib i then { curr with numFrames := some (L.streamNbFrames lib i) }
    else curr
  let curr2 :=
    if 0 < L.streamDuration lib i ∧ 0 < (L.streamTimeBase lib i).den then
      { curr1 with
        durationSeconds := some (Dbl.mul (av_q2d (L.streamTimeBase lib i))
          (Dbl.ofInt (L.streamDuration lib i))) }
    else curr1
  let fps := av_q2d (L.streamFrameRate lib i)
  if (Dbl.ofInt 0).lt fps then { curr2 with averageFps := some fps } else curr2

/-- The stream loop of `initializeDecoder`, from stream `i` on for `n` streams. -/
def initializeStreams {σ : Type} (L : Lib σ) (lib : σ) :
    Nat → Nat → ContainerMetadata → ContainerMetadata
  | 0, _, metadata => metadata
  | n + 1, i, metadata =>
    let curr := initializeStreamMetadata L lib i
    let m1 := { metadata with streams := metadata.streams ++ [curr] }
    let m2 :=
      match curr.mediaType with
      | AVMediaType.video => { m1 with numVideoStreams := m1.numVideoStreams + 1 }
      | AVMediaType.audio => { m1 with numAudioStreams := m1.numAudioStreams + 1 }
      | AVMediaType.other => m1
    initializeStreams L lib n (i + 1) m2

/-- The member function `getBestStreamIndex`. -/
def getBestStreamIndex {σ : Type} (L : Lib σ) (lib : σ) (mediaType : AVMediaType) : Int :=
  L.findBestStream lib mediaType (-1)

/-- The member function `initializeDecoder`. -/
def initializeDecoder {σ : Type} (L : Lib σ) (d : VideoDecoder σ) : Result Unit × VideoDecoder σ :=
  let r := L.findStreamInfo d.lib
  let d1 := { d with lib := r.2 }
  if r.1 < 0 then (Result.error ErrorKind.runtime_error "Failed to find stream info", d1)
  else
    let m0 := { d1.containerMetadata with streams := [] }
    let m1 := initializeStreams L d1.lib (L.nbStreams d1.lib) 0 m0
    let m2 :=
      if 0 < L.containerDuration d1.lib then
        { m1 with durationSeconds := some (Dbl.ofRatio (L.containerDuration d1.lib) 1000000) }
      else m1
    let m3 :=
      if 0 < L.containerBitRate d1.lib then { m2 with bitRate := some (L.containerBitRate d1.lib) }
      else m2
    let bestVideoStream := getBestStreamIndex L d1.lib AVMediaType.video
    let m4 := if 0 ≤ bestVideoStream then { m3 with bestVideoStreamIndex := some bestVideoStream } else m3
    let bestAudioStream := getBestStreamIndex L d1.lib AVMediaType.video
    let m5 := if 0 ≤ bestAudioStream then { m4 with bestAudioStreamIndex := some bestAudioStream } else m4
    (Result.ok (), { d1 with containerMetadata := m5 })

/-- The static member function `createFromFilePath`, from the opened container on. -/
def createFromFilePath {σ : Type} (L : Lib σ) (lib : σ) : Result Unit × VideoDecoder σ :=
  initializeDecoder L { lib := lib }

/-- Insertion into a `std::set<int>` kept ascending. -/
def setInsert (k : Int) : List Int → List Int
  | [] => [k]
  | x :: xs => if k < x then k :: x :: xs else if k = x then x :: xs else x :: setInsert k xs

/-- The member function `updateMetadataWithCodecContext`. -/
def updateMetadataWithCodecContext {σ : Type} (L : Lib σ) (streamIndex : Int)
    (d : VideoDecoder σ) : VideoDecoder σ :=
  { d with containerMetadata := { d.containerMetadata with
      streams := modifyStreamMetadata d.containerMetadata.streams streamIndex (fun m =>
        { m with width := some (L.codecWidth d.lib streamIndex)
                 height := some (L.codecHeight d.lib streamIndex)
                 codecName := some (L.codecName d.lib streamIndex) }) } }

/-- The width and height written into the `scale` filter description. -/
def scaleDimensions (options : VideoStreamDecoderOptions) (codecWidth codecHeight : Int) :
    Int × Int :=
  if options.height.isSome ∧ options.width.isSome then
    (options.width.getD 0, options.height.getD 0)
  else (codecWidth, codecHeight)

/-- The library calls of `initializeFilterGraphForStream` from the first of
`calls` on: a negative status throws. -/
def runFilterGraphCalls {σ : Type} (L : Lib σ) (streamIndex : Int) :
    List (FilterGraphCall × String) → VideoDecoder σ → Result Unit × VideoDecoder σ
  | [], d => (Result.ok (), d)
  | c :: rest, d =>
    let r := L.filterGraphCall d.lib streamIndex c.1
    let d1 := { d with lib := r.2 }
    if r.1 < 0 then (Result.error ErrorKind.runtime_error c.2, d1)
    else runFilterGraphCalls L streamIndex rest d1

/-- The member function `initializeFilterGraphForStream`. -/
def initializeFilterGraphForStream {σ : Type} (L : Lib σ) (streamIndex : Int)
    (options : VideoStreamDecoderOptions) (d : VideoDecoder σ) : Result Unit × VideoDecoder σ :=
  let d1 := { d with streams_ := mapTouch d.streams_ streamIndex }
  if (mapAt d1.streams_ streamIndex).hasFilterGraph then (Result.ok (), d1)
  else
    let d2 := { d1 with
      streams_ := mapModify d1.streams_ streamIndex (fun s => { s with hasFilterGraph := true }) }
    let dims := scaleDimensions options (L.codecWidth d2.lib streamIndex)
      (L.codecHeight d2.lib streamIndex)
    runFilterGraphCalls L streamIndex
      [(FilterGraphCall.createSource, "Failed to create filter graph"),
       (FilterGraphCall.createSink, "Failed to create filter graph"),
       (FilterGraphCall.setPixFmts, "Failed to set output pixel formats"),
       (FilterGraphCall.parse dims.1 dims.2, "Failed to parse filter description"),
       (FilterGraphCall.config, "Failed to configure filter graph")] d2

/-- The member function `addVideoStreamDecoder`.  The decoder that
`av_find_best_stream` returns with a stream is never null. -/
def addVideoStreamDecoder {σ : Type} (L : Lib σ) (preferredStreamNumber : Int)
    (options : VideoStreamDecoderOptions) (d : VideoDecoder σ) : Result Unit × VideoDecoder σ :=
  if 0 < d.activeStreamIndices_.count preferredStreamNumber then
    (Result.error ErrorKind.invalid_argument "Stream is already active.", d)
  else
    let streamNumber := L.findBestStream d.lib AVMediaType.video preferredStreamNumber
    if streamNumber < 0 then
      (Result.error ErrorKind.invalid_argument "No valid stream found in input file.", d)
    else
      let d1 := { d with
        streams_ := mapModify d.streams_ streamNumber (fun s =>
          { s with streamIndex := streamNumber
                   timeBase := L.streamTimeBase d.lib streamNumber }) }
      if L.streamCodecType d1.lib streamNumber ≠ AVMediaType.video then
        (Result.error ErrorKind.invalid_argument "Stream is not a video stream.", d1)
      else
        let d2 := { d1 with
          lib := L.allocContext d1.lib streamNumber (options.ffmpegThreadCount.getD 0)
          streams_ := mapModify d1.streams_ streamNumber (fun s => { s with hasCodecContext := true }) }
        let p := L.parametersToContext d2.lib streamNumber
        let d3 := { d2 with lib := p.2 }
        if p.1 ≠ AVSUCCESS then (Result.error ErrorKind.check_failed "retVal == AVSUCCESS", d3)
        else
          let o := L.codecOpen2 d3.lib streamNumber
          let d4 := { d3 with lib := o.2 }
          if o.1 < AVSUCCESS then (Result.error ErrorKind.invalid_argument "avcodec_open2 failed", d4)
          else
            let d5 := { d4 with
              lib := L.setCodecTimeBase d4.lib streamNumber
              activeStreamIndices_ := setInsert streamNumber d4.activeStreamIndices_ }
            let d6 := updateMetadataWithCodecContext L (mapAt d5.streams_ streamNumber).streamIndex d5
            let d7 := { d6 with
              streams_ := mapModify d6.streams_ streamNumber (fun s => { s with options := options }) }
            initializeFilterGraphForStream L streamNumber options d7

/-! ## The stream metadata operator of `VideoDecoderOps.cpp` -/

/-- The standard library call `std::to_string` on a `double`, which prints
with six decimals (`%f`); the value is rounded to the nearest multiple of
`10^-6`, a tie to the even one.  A NaN prints as `nan`; the C library also
prints the sign bit of a NaN, which `Dbl` does not keep. -/
def doubleToString (x : Dbl) : String :=
  if x.den = 0 then (if x.num = 0 then "nan" else if 0 < x.num then "inf" else "-inf")
  else
    let n := x.sNum.natAbs * 1000000
    let q := n / x.sDen.natAbs
    let r := n % x.sDen.natAbs
    let scaled :=
      if 2 * r < x.sDen.natAbs then q
      else if x.sDen.natAbs < 2 * r then q + 1
      else if q % 2 = 0 then q else q + 1
    let frac := toString (scaled % 1000000)
    (if x.signBit then "-" else "") ++ toString (scaled / 1000000) ++ "." ++
      String.mk (List.replicate (6 - frac.length) '0') ++ frac

/-- The order of `std::string`: the first differing character decides, and a
proper prefix comes first. -/
def stringLess : List Char → List Char → Bool
  | _, [] => false
  | [], _ :: _ => true
  | a :: as, b :: bs =>
    if a.toNat < b.toNat then true else if b.toNat < a.toNat then false else stringLess as bs

/-- The write `map[key] = value` on a `std::map<std::string, std::string>`,
whose entries are kept in the order of their keys. -/
def jsonMapSet (key value : String) : List (String × String) → List (String × String)
  | [] => [(key, value)]
  | e :: rest =>
    if stringLess key.toList e.1.toList then (key, value) :: e :: rest
    else if key = e.1 then (key, value) :: rest
    else e :: jsonMapSet key value rest

/-- The write `map[key] = value` made only when the optional field has a value. -/
def jsonMapSetIf {α : Type} (key : String) (field : Option α) (text : α → String)
    (map : List (String × String)) : List (String × String) :=
  match field with
  | some a => jsonMapSet key (text a) map
  | none => map

/-- The function `quoteValue`. -/
def quoteValue (value : String) : String := "\"" ++ value ++ "\""

/-- The loop of `mapToJson` over the entries of the map. -/
def mapToJsonEntries : List (String × String) → String
  | [] => ""
  | [e] => "\"" ++ e.1 ++ "\": " ++ e.2 ++ "\n"
  | e :: rest => "\"" ++ e.1 ++ "\": " ++ e.2 ++ ",\n" ++ mapToJsonEntries rest

/-- The function `mapToJson`. -/
def mapToJson (metadataMap : List (String × String)) : String :=
  "\x7b\n" ++ mapToJsonEntries metadataMap ++ "\x7d"

/-- The element that `streams[stream_index]` reads.  `std::vector::operator[]`
makes no bounds check: an index outside the vector is undefined behaviour, and
`outside` stands for whatever that read yields. -/
def streamsAt (streams : List StreamMetadata) (stream_index : Int) (outside : StreamMetadata) :
    StreamMetadata :=
  if 0 ≤ stream_index then streams.getD stream_index.toNat outside else outside

/-- The operator `get_stream_json_metadata`.  No statement of it throws. -/
def get_stream_json_metadata {σ : Type} (outside : StreamMetadata) (d : VideoDecoder σ)
    (stream_index : Int) : String :=
  let streamMetadata := streamsAt d.containerMetadata.streams stream_index outside
  let map0 : List (String × String) := []
  let map1 := jsonMapSetIf "durationSeconds" streamMetadata.durationSeconds doubleToString map0
  let map2 := jsonMapSetIf "bitRate" streamMetadata.bitRate toString map1
  let map3 := jsonMapSetIf "numFramesFromScan" streamMetadata.numFramesFromScan toString map2
  let map4 := jsonMapSetIf "numFrames" streamMetadata.numFrames toString map3
  let map5 := jsonMapSetIf "minPtsSecondsFromScan" streamMetadata.minPtsSecondsFromScan
    doubleToString map4
  let map6 := jsonMapSetIf "maxPtsSecondsFromScan" streamMetadata.maxPtsSecondsFromScan
    doubleToString map5
  let map7 := jsonMapSetIf "codec" streamMetadata.codecName quoteValue map6
  let map8 := jsonMapSetIf "width" streamMetadata.width toString map7
  let map9 := jsonMapSetIf "height" streamMetadata.height toString map8
  let map10 := jsonMapSetIf "averageFps" streamMetadata.averageFps doubleToString map9
  mapToJson map10

/-! ## A reference library

One library to run the code on: the container is a list of packets read from
a position, every packet sent to a codec comes back as one frame with the
packet's timestamp and duration, a drained codec reports end of stream until
it is flushed, and a seek moves the read position to the keyframe packet of
the given stream with the greatest timestamp in the window. -/

/-- A container stream of the reference library. -/
structure RefStream where
  codecType : AVMediaType := AVMediaType.video
  timeBase : AVRational := ⟨1, 1⟩
  width : Int := 0
  height : Int := 0
deriving DecidableEq, Repr

/-- A codec context of the reference library with its filter graph. -/
structure RefCodec where
  queue : List AVFrame := []
  draining : Bool := false
  scaleWidth : Int := 0
  scaleHeight : Int := 0
deriving DecidableEq, Repr

/-- State of the reference library. -/
structure RefState where
  streams : List RefStream := []
  packets : List AVPacket := []
  pos : Nat := 0
  codecs : List (Int × RefCodec) := []
deriving DecidableEq, Repr

namespace RefState

/-- Container stream `i`, if there is one. -/
def stream? (st : RefState) (i : Int) : Option RefStream :=
  if 0 ≤ i then st.streams.get? i.toNat else none

/-- The codec context of stream `i`, if one was allocated. -/
def codec? (st : RefState) (i : Int) : Option RefCodec :=
  (st.codecs.find? (fun e => e.1 == i)).map (fun e => e.2)

/-- Replacement of the codec context of stream `i`. -/
def setCodec (st : RefState) (i : Int) (c : RefCodec) : RefState :=
  { st with codecs := (i, c) :: st.codecs.filter (fun e => e.1 != i) }

/-- Search for the keyframe packet of `stream` with the greatest timestamp in
`[minTs, maxTs]`, among the packets from position `i` on; `best` is the
position and timestamp found so far. -/
def findKeyFrame (stream minTs maxTs : Int) :
    List AVPacket → Nat → Option (Nat × Int) → Option (Nat × Int)
  | [], _, best => best
  | p :: rest, i, best =>
    if p.stream_index = stream ∧ isKey p = true ∧ minTs ≤ p.pts ∧ p.pts ≤ maxTs then
      match best with
      | some b =>
        if b.2 < p.pts then findKeyFrame stream minTs maxTs rest (i + 1) (some (i, p.pts))
        else findKeyFrame stream minTs maxTs rest (i + 1) best
      | none => findKeyFrame stream minTs maxTs rest (i + 1) (some (i, p.pts))
    else findKeyFrame stream minTs maxTs rest (i + 1) best

end RefState

/-- Whether a tensor of sizes `src` broadcasts to sizes `dst`, both read from
the last axis backwards. -/
def broadcastsTo : List Int → List Int → Bool
  | _, [] => true
  | [], _ :: _ => false
  | a :: dst, b :: src => (b == a || b == 1) && broadcastsTo dst src

/-- The reference library. -/
def refLib : Lib RefState where
  readFrame st :=
    match st.packets.get? st.pos with
    | some p => (AVSUCCESS, p, { st with pos := st.pos + 1 })
    | none => (AVERROR_EOF, ⟨-1, INT64_MIN, 0, 0⟩, st)
  sendPacket st i packet :=
    match st.codec? i with
    | none => (-22, st)
    | some c =>
      match packet with
      | none => (AVSUCCESS, st.setCodec i { c with draining := true })
      | some p =>
        if c.draining then (AVERROR_EOF, st)
        else (AVSUCCESS, st.setCodec i { c with queue := c.queue ++ [⟨p.pts, p.duration⟩] })
  receiveFrame st i :=
    match st.codec? i with
    | none => (-22, allocatedFrame, st)
    | some c =>
      match c.queue with
      | f :: rest => (AVSUCCESS, f, st.setCodec i { c with queue := rest })
      | [] => if c.draining then (AVERROR_EOF, allocatedFrame, st)
              else (AVERROR_EAGAIN, allocatedFrame, st)
  seekFile st stream minTs _ maxTs :=
    match RefState.findKeyFrame stream minTs maxTs st.packets 0 none with
    | some b => (AVSUCCESS, { st with pos := b.1 })
    | none => (-1, st)
  flushBuffers st i :=
    match st.codec? i with
    | none => st
    | some c => st.setCodec i { c with queue := [], draining := false }
  indexSearchTimestamp st stream pts :=
    match RefState.findKeyFrame stream INT64_MIN pts st.packets 0 none with
    | some b => b.1
    | none => -1
  bufferSrcWriteFrame st _ _ := (AVSUCCESS, st)
  bufferSinkGetFrame st i :=
    match st.codec? i with
    | none => (⟨true, 0, 0⟩, st)
    | some c => (⟨true, c.scaleHeight, c.scaleWidth⟩, st)
  streamTimeBase st i := ((st.stream? i).getD {}).timeBase
  streamCodecType st i := ((st.stream? i).getD { codecType := AVMediaType.other }).codecType
  findStreamInfo st := (AVSUCCESS, st)
  nbStreams st := st.streams.length
  streamCodecName _ _ := "h264"
  streamBitRate _ _ := 0
  streamNbFrames _ _ := 0
  streamDuration _ _ := 0
  streamFrameRate _ _ := ⟨0, 1⟩
  containerDuration _ := 0
  containerBitRate _ := 0
  findBestStream st mediaType wanted :=
    if 0 ≤ wanted then
      match st.stream? wanted with
      | some s => if s.codecType = mediaType then wanted else -1381258232
      | none => -1381258232
    else
      match st.streams.findIdx? (fun s => s.codecType == mediaType) with
      | some i => i
      | none => -1381258232
  allocContext st i _ := st.setCodec i {}
  parametersToContext st _ := (AVSUCCESS, st)
  codecOpen2 st _ := (AVSUCCESS, st)
  setCodecTimeBase st _ := st
  codecWidth st i := ((st.stream? i).getD {}).width
  codecHeight st i := ((st.stream? i).getD {}).height
  codecName _ _ := "h264"
  filterGraphCall st i call :=
    match call, st.codec? i with
    | FilterGraphCall.parse w h, some c =>
      (AVSUCCESS, st.setCodec i { c with scaleWidth := w, scaleHeight := h })
    | _, _ => (AVSUCCESS, st)
  tensorEmpty sizes := sizes.all (fun n => decide (0 ≤ n))
  tensorAssign dst src := broadcastsTo dst.reverse src.reverse

/-- The value of a result, for use after the result was shown to be `ok`. -/
def Result.value? {α : Type} : Result α → Option α
  | Result.ok a => some a
  | _ => none

/-- The steps of `create_from_file` after the container was opened:
`createFromFilePath`, then the index scan. -/
def create_from_file {σ : Type} (L : Lib σ) (fuel : Nat) (lib : σ) :
    Result Unit × VideoDecoder σ :=
  match createFromFilePath L lib with
  | (Result.ok _, d) => scanFileAndUpdateMetadataAndIndex L fuel d
  | other => other

/-! ## Words of the claims about the scan -/

/-- The packets that the successive `av_read_frame` calls of a read loop
deliver before end of file; `none` when a read fails or the fuel runs out. -/
def packetsRead {σ : Type} (L : Lib σ) : Nat → σ → Option (List AVPacket)
  | 0, _ => none
  | fuel + 1, lib =>
    if (L.readFrame lib).1 = AVERROR_EOF then some []
    else if (L.readFrame lib).1 ≠ AVSUCCESS then none
    else (packetsRead L fuel (L.readFrame lib).2.2).map (fun ps => (L.readFrame lib).2.1 :: ps)

/-- The library state after the reads of `packetsRead`, the read that reported
end of file included. -/
def libAfterReads {σ : Type} (L : Lib σ) : Nat → σ → σ
  | 0, lib => lib
  | fuel + 1, lib =>
    if (L.readFrame lib).1 = AVERROR_EOF then (L.readFrame lib).2.2
    else if (L.readFrame lib).1 ≠ AVSUCCESS then (L.readFrame lib).2.2
    else libAfterReads L fuel (L.readFrame lib).2.2

/-- The packets of stream `i` that are not flagged discard. -/
def retainedPackets (packets : List AVPacket) (i : Int) : List AVPacket :=
  packets.filter (fun p => !isDiscard p && p.stream_index == i)

/-- A decoder on which no scan has run: no per-stream entry, and no
scan-derived count or bound in any stream's metadata. -/
def isFresh {σ : Type} (d : VideoDecoder σ) : Prop :=
  d.streams_ = [] ∧
  ∀ m ∈ d.containerMetadata.streams,
    m.numFramesFromScan = none ∧ m.minPtsFromScan = none ∧ m.maxPtsFromScan = none

instance {σ : Type} (d : VideoDecoder σ) : Decidable (isFresh d) := by
  unfold isFresh; infer_instance

/-- A list of frames is in ascending `pts` order. -/
def sortedByPts (frames : List FrameInfo) : Prop :=
  List.Pairwise (fun a b => a.pts ≤ b.pts) frames

/-- The invariant the specification gives for the scan-derived metadata of a
stream: a frame count of at least one, and a least `pts` not above the
greatest end. -/
def scanInvariant (m : StreamMetadata) : Prop :=
  (∃ n, m.numFramesFromScan = some n ∧ 1 ≤ n) ∧
  (∃ lo hi, m.minPtsFromScan = some lo ∧ m.maxPtsFromScan = some hi ∧ lo ≤ hi)

/-! ## Example containers for the reference library -/

/-- A packet of the given stream, timestamp and duration, a keyframe or not. -/
def mkPacket (stream pts duration : Int) (key : Bool) : AVPacket :=
  ⟨stream, pts, duration, if key then AV_PKT_FLAG_KEY else 0⟩

/-- A video stream of 4 by 2 pixels with time base `1 / den`. -/
def videoStream (den : Int) : RefStream :=
  { codecType := AVMediaType.video, timeBase := ⟨1, den⟩, width := 4, height := 2 }

/-- Two streams; stream 0 has three packets read out of `pts` order, stream 1
has one packet, flagged discard. -/
def unsortedContainer : RefState :=
  { streams := [videoStream 1, videoStream 1]
    packets := [mkPacket 0 2 3 false, mkPacket 0 0 1 true, ⟨1, 7, 1, AV_PKT_FLAG_DISCARD⟩,
      mkPacket 0 1 1 true] }

/-- Two streams; the only packet belongs to stream 0 and has a negative duration. -/
def negativeDurationContainer : RefState :=
  { streams := [videoStream 1, videoStream 1]
    packets := [mkPacket 0 0 (-5) true] }

/-- One video stream with time base `1/1` and six frames of duration 1 at
`pts` 0 to 5; the frames at `pts` 0 and 3 are keyframes. -/
def sixFrameContainer : RefState :=
  { streams := [videoStream 1]
    packets := [mkPacket 0 0 1 true, mkPacket 0 1 1 false, mkPacket 0 2 1 false,
      mkPacket 0 3 1 true, mkPacket 0 4 1 false, mkPacket 0 5 1 false] }

/-- The decoder on `sixFrameContainer` after `create_from_file` and
`addVideoStreamDecoder(-1, {})`. -/
def sixFrameDecoder : VideoDecoder RefState :=
  (addVideoStreamDecoder refLib (-1) {} (create_from_file refLib 10 sixFrameContainer).2).2

/-- The decoder on `sixFrameContainer` after `create_from_file` and
`addVideoStreamDecoder` with the `shape` field of the options set to `HWC`. -/
def sixFrameDecoderHWC : VideoDecoder RefState :=
  (addVideoStreamDecoder refLib (-1) { shape := "HWC" }
    (create_from_file refLib 10 sixFrameContainer).2).2

/-- The decoder on `sixFrameContainer` after `seekToPts(100)` and a
`getNextDecodedOutput` call, which reads to the end of the file, drains the
codec and throws. -/
def sixFrameDecoderAtEnd : VideoDecoder RefState :=
  (getNextDecodedOutput refLib 20 (setCursorPtsInSeconds ⟨100, 1⟩ sixFrameDecoder)).2

/-- Two video streams with interleaved packets, every packet a keyframe:
stream 0 has time base `1/10` and frames at `pts` 0, 10, 20; stream 1 has time
base `1/1` and frames at `pts` 0, 1, 2. -/
def twoStreamContainer : RefState :=
  { streams := [videoStream 10, videoStream 1]
    packets := [mkPacket 0 0 10 true, mkPacket 1 0 1 true, mkPacket 0 10 10 true,
      mkPacket 1 1 1 true, mkPacket 0 20 10 true, mkPacket 1 2 1 true] }

/-- The decoder on `twoStreamContainer` after `create_from_file`,
`addVideoStreamDecoder(0, {})` and `addVideoStreamDecoder(1, {})`. -/
def twoStreamDecoder : VideoDecoder RefState :=
  (addVideoStreamDecoder refLib 1 {}
    (addVideoStreamDecoder refLib 0 {} (create_from_file refLib 10 twoStreamContainer).2).2).2

/-- Two video streams with time base `1/1`, every packet a keyframe: stream 0
has frames of duration 2 at `pts` 0 and 2; stream 1 has frames of duration 3 at
`pts` 0 and 3. -/
def twoRateContainer : RefState :=
  { streams := [videoStream 1, videoStream 1]
    packets := [mkPacket 0 0 2 true, mkPacket 1 0 3 true, mkPacket 0 2 2 true,
      mkPacket 1 3 3 true] }

/-- The decoder on `twoRateContainer` after `create_from_file`, the activation
of both streams, and two `getNextDecodedOutput` calls, which return the first
frame of stream 0 and the first frame of stream 1. -/
def twoRateDecoder : VideoDecoder RefState :=
  (getNextDecodedOutput refLib 20 (getNextDecodedOutput refLib 20
    (addVideoStreamDecoder refLib 1 {}
      (addVideoStreamDecoder refLib 0 {}
        (create_from_file refLib 10 twoRateContainer).2).2).2).2).2

/-- The decoder on `unsortedContainer` after `create_from_file` and
`addVideoStreamDecoder(0, {})`: stream 1, whose only packet is flagged discard,
was never activated and has no entry in the per-stream table. -/
def unsortedDecoder : VideoDecoder RefState :=
  (addVideoStreamDecoder refLib 0 {} (create_from_file refLib 10 unsortedContainer).2).2

/-- The decoder on `sixFrameContainer` after `create_from_file` and
`addVideoStreamDecoder` with the `width` option set to -4 and the `height`
option to -2. -/
def sixFrameDecoderNegativeSizes : VideoDecoder RefState :=
  (addVideoStreamDecoder refLib (-1) { width := some (-4), height := some (-2) }
    (create_from_file refLib 10 sixFrameContainer).2).2

/-- The decoder on `sixFrameContainer`, whose frames are 4 wide and 2 high,
after `create_from_file` and `addVideoStreamDecoder` with only the `height`
option set, to 8. -/
def sixFrameDecoderHeightOnly : VideoDecoder RefState :=
  (addVideoStreamDecoder refLib (-1) { height := some 8 }
    (create_from_file refLib 10 sixFrameContainer).2).2

/-! ## Auxiliary definitions of the proofs -/

/-- The read loop body folded over the packets read. -/
def scanPackets {σ : Type} (packets : List AVPacket) (d : VideoDecoder σ) : VideoDecoder σ :=
  packets.foldl (fun acc p => scanPacket p acc) d

/-- Every keyframe of an entry is one of its frames. -/
def keyFramesSubset (m : List (Int × StreamInfo)) : Prop :=
  ∀ e ∈ m, ∀ k ∈ e.2.keyFrames, k ∈ e.2.allFrames

/-- The metadata update of the read loop folded over a list of packets. -/
def scanFold (packets : List AVPacket) (m : StreamMetadata) : StreamMetadata :=
  packets.foldl (fun acc p => scanUpdateMetadata p acc) m

/-- The three scan-derived fields that `scanSecondsFrom` leaves alone. -/
def scanTriple (m : StreamMetadata) : Option Int × Option Int × Option Int :=
  (m.numFramesFromScan, m.minPtsFromScan, m.maxPtsFromScan)

/-- The invariant behind the lower bound of the next-frame filter: the seek to
`s` is still pending, or it was consumed and every active stream has
`discardFramesBeforePts` at `s * den` converted to `int64_t`. -/
def DiscardInv {σ : Type} (s : Dbl) (tb : Int → Int) (act : List Int) (d : VideoDecoder σ) :
    Prop :=
  d.activeStreamIndices_ = act ∧ (∀ k, (mapAt d.streams_ k).timeBase.den = tb k) ∧
  (d.maybeDesiredPts_ = some s ∨
    (d.maybeDesiredPts_ = none ∧
      ∀ k ∈ act, (mapAt d.streams_ k).discardFramesBeforePts =
        some (Dbl.toInt64 (s.mulInt (tb k)))))

/-- What the decode loop leaves alone: the active set, the metadata, the
pending seek, every entry of the per-stream table, and the seek counters. -/
structure LoopFrame {σ : Type} (d d' : VideoDecoder σ) : Prop where
  active : d'.activeStreamIndices_ = d.activeStreamIndices_
  metadata : d'.containerMetadata = d.containerMetadata
  desired : d'.maybeDesiredPts_ = d.maybeDesiredPts_
  entry : ∀ k, mapAt d'.streams_ k = mapAt d.streams_ k
  count : ∀ k, mapCount d.streams_ k ≠ 0 → mapCount d'.streams_ k ≠ 0
  seeksAttempted : d'.decodeStats_.numSeeksAttempted = d.decodeStats_.numSeeksAttempted
  seeksSkipped : d'.decodeStats_.numSeeksSkipped = d.decodeStats_.numSeeksSkipped
  flushes : d'.decodeStats_.numFlushes = d.decodeStats_.numFlushes

/-- What a whole decode call leaves alone: the active set, the metadata, the
presence of entries, and every field of an entry but the current frame and
the discard bound. -/
structure CallFrame {σ : Type} (d d' : VideoDecoder σ) : Prop where
  active : d'.activeStreamIndices_ = d.activeStreamIndices_
  metadata : d'.containerMetadata = d.containerMetadata
  count : ∀ k, mapCount d.streams_ k ≠ 0 → mapCount d'.streams_ k ≠ 0
  timeBase : ∀ k, (mapAt d'.streams_ k).timeBase = (mapAt d.streams_ k).timeBase
  allFrames : ∀ k, (mapAt d'.streams_ k).allFrames = (mapAt d.streams_ k).allFrames
  keyFrames : ∀ k, (mapAt d'.streams_ k).keyFrames = (mapAt d.streams_ k).keyFrames
  options : ∀ k, (mapAt d'.streams_ k).options = (mapAt d.streams_ k).options

/-- Whether the seek planner finds an active stream that cannot avoid the
seek, read on the state before the planner runs. -/
def needSeek {σ : Type} (L : Lib σ) (desired : Dbl) (d : VideoDecoder σ) : Bool :=
  d.activeStreamIndices_.any (fun streamIndex =>
    !canWeAvoidSeekingForStream L d.lib (mapAt d.streams_ streamIndex)
      (mapAt d.streams_ streamIndex).currentPts
      (desiredPtsForStream desired (mapAt d.streams_ streamIndex)))

/-- The status of the `avformat_seek_file` call the seek planner makes when it
must seek, read on the state before the planner runs. -/
def plannedSeekStatus {σ : Type} (L : Lib σ) (desired : Dbl) (d : VideoDecoder σ) : Int :=
  (L.seekFile d.lib (mapAt d.streams_ (d.activeStreamIndices_.headD 0)).streamIndex INT64_MIN
    (desiredPtsForStream desired (mapAt d.streams_ (d.activeStreamIndices_.headD 0)))
    (desiredPtsForStream desired (mapAt d.streams_ (d.activeStreamIndices_.headD 0)))).1

/-- The decoder after the first loop of the seek planner and the increment of
`numSeeksAttempted`. -/
def afterDiscard {σ : Type} (s : Dbl) (d : VideoDecoder σ) : VideoDecoder σ :=
  { d with
    streams_ := setDiscardFramesBeforePts s d.activeStreamIndices_ d.streams_
    decodeStats_ := { d.decodeStats_ with
      numSeeksAttempted := d.decodeStats_.numSeeksAttempted + 1 } }

/-- The library state after the `avformat_seek_file` call of the seek planner. -/
def plannedSeekLib {σ : Type} (L : Lib σ) (desired : Dbl) (d : VideoDecoder σ) : σ :=
  (L.seekFile d.lib (mapAt d.streams_ (d.activeStreamIndices_.headD 0)).streamIndex INT64_MIN
    (desiredPtsForStream desired (mapAt d.streams_ (d.activeStreamIndices_.headD 0)))
    (desiredPtsForStream desired (mapAt d.streams_ (d.activeStreamIndices_.headD 0)))).2

/-- The three seek counters of the decode stats. -/
def seekCounters (st : DecodeStats) : Int × Int × Int :=
  (st.numSeeksAttempted, st.numSeeksSkipped, st.numFlushes)

/-! ## Words of the claims about decoding -/

/-- The calls `getFrameAtIndex(s, i1)`, ..., `getFrameAtIndex(s, in)` made one
after the other from the state the previous call left; an exception ends the
sequence.  The outputs are in call order. -/
def getFrameAtIndexSequence {σ : Type} (L : Lib σ) (fuel : Nat) (streamIndex : Int) :
    List Int → VideoDecoder σ → Result (List DecodedOutput) × VideoDecoder σ
  | [], d => (Result.ok [], d)
  | frameIndex :: rest, d =>
    match getFrameAtIndex L fuel streamIndex frameIndex d with
    | (Result.ok o, d1) =>
      match getFrameAtIndexSequence L fuel streamIndex rest d1 with
      | (Result.ok os, d2) => (Result.ok (o :: os), d2)
      | (Result.error kind what, d2) => (Result.error kind what, d2)
      | (Result.outOfFuel, d2) => (Result.outOfFuel, d2)
    | (Result.error kind what, d1) => (Result.error kind what, d1)
    | (Result.outOfFuel, d1) => (Result.outOfFuel, d1)

/-- The sizes of the batched tensor that `getFramesAtIndexes` allocates for `n`
frame indices on a stream whose `shape` option is `NHWC` or `NCHW`
(lines 782-796 of `VideoDecoder.cpp`). -/
def batchSizes {σ : Type} (d : VideoDecoder σ) (streamIndex : Int) (n : Nat) : List Int :=
  if (mapAt d.streams_ streamIndex).options.shape = "NHWC" then
    [(n : Int),
      (mapAt d.streams_ streamIndex).options.height.getD
        ((d.containerMetadata.streams.getD streamIndex.toNat {}).height.getD 0),
      (mapAt d.streams_ streamIndex).options.width.getD
        ((d.containerMetadata.streams.getD streamIndex.toNat {}).width.getD 0), 3]
  else
    [(n : Int), 3,
      (mapAt d.streams_ streamIndex).options.height.getD
        ((d.containerMetadata.streams.getD streamIndex.toNat {}).height.getD 0),
      (mapAt d.streams_ streamIndex).options.width.getD
        ((d.containerMetadata.streams.getD streamIndex.toNat {}).width.getD 0)]

/-- Words of the amended C3: every output that the calls
`getFrameAtIndex(s, i1)`, ..., `getFrameAtIndex(s, in)` return, made one after
the other, holds a tensor that the library assigns to a slot of sizes `slot`. -/
def framesFitSlots {σ : Type} (L : Lib σ) (fuel : Nat) (streamIndex : Int) (slot : List Int) :
    List Int → VideoDecoder σ → Bool
  | [], _ => true
  | frameIndex :: rest, d =>
    match getFrameAtIndex L fuel streamIndex frameIndex d with
    | (Result.ok o, d1) =>
      (match o.frame with
        | some frame => L.tensorAssign slot frame.sizes
        | none => false) &&
        framesFitSlots L fuel streamIndex slot rest d1
    | _ => true

/-- Words of C5, "seeking to the greatest keyframe <= targetPts, flushing, and
decoding until the predicate accepts": the decode call with the seek planner's
seek and flush made whatever `canWeAvoidSeekingForStream` returns. -/
def decodeWithSeek {σ : Type} (L : Lib σ) (fuel : Nat) (desired : Dbl) (d : VideoDecoder σ) :
    Result DecodedOutput × VideoDecoder σ :=
  match decodeLoop L nextFrameFilter fuel AVSUCCESS false allocatedFrame
      { afterDiscard desired (resetDecodeStats d) with
        lib := flushAll L d.activeStreamIndices_ (plannedSeekLib L desired d)
        maybeDesiredPts_ := none } with
  | (Result.ok ex, d2) => finishDecode L ex d2
  | (Result.error kind what, d2) => (Result.error kind what, d2)
  | (Result.outOfFuel, d2) => (Result.outOfFuel, d2)

/-! ## Words of the claims about the options string -/

/-- The option keys that the specification lists. -/
def optionKeys : List (List Char) :=
  ["ffmpeg_thread_count".toList, "shape".toList, "width".toList, "height".toList]

/-- Words of the claims, "comma-separated token": `token` holds no comma and
stands in a non-empty `str` between two commas, between an end of `str` and a
comma, or is the whole of `str`. -/
def isTokenOf (token str : List Char) : Prop :=
  str ≠ [] ∧ ',' ∉ token ∧ ∃ pre post, str = pre ++ token ++ post ∧
    (pre = [] ∨ ∃ pre1, pre = pre1 ++ [',']) ∧ (post = [] ∨ ∃ post1, post = ',' :: post1)

/-- Words of the claims, "splits on `=` into exactly a key and a value, and the
key is one of the option keys". -/
def isOption (token : List Char) : Prop :=
  ∃ key value, token = key ++ '=' :: value ∧ '=' ∉ key ∧ '=' ∉ value ∧ key ∈ optionKeys

/-! ## The library with a log of the pump's calls -/

/-- A library call of the decode pump together with the status it returned. -/
inductive PumpCall where
  | receive (streamIndex : Int) (status : Int)
  | read (status : Int)
  | send (streamIndex : Int) (status : Int)
deriving DecidableEq, Repr

/-- The library `L` with a log beside its state: every `avcodec_receive_frame`,
`av_read_frame` and `avcodec_send_packet` call is appended to the log with the
status it returned; every call acts on the state of `L` as `L` does. -/
def traced {σ : Type} (L : Lib σ) : Lib (σ × List PumpCall) where
  readFrame st :=
    ((L.readFrame st.1).1, (L.readFrame st.1).2.1,
      ((L.readFrame st.1).2.2, st.2 ++ [PumpCall.read (L.readFrame st.1).1]))
  sendPacket st i packet :=
    ((L.sendPacket st.1 i packet).1,
      ((L.sendPacket st.1 i packet).2, st.2 ++ [PumpCall.send i (L.sendPacket st.1 i packet).1]))
  receiveFrame st i :=
    ((L.receiveFrame st.1 i).1, (L.receiveFrame st.1 i).2.1,
      ((L.receiveFrame st.1 i).2.2, st.2 ++ [PumpCall.receive i (L.receiveFrame st.1 i).1]))
  seekFile st stream minTs ts maxTs :=
    ((L.seekFile st.1 stream minTs ts maxTs).1, ((L.seekFile st.1 stream minTs ts maxTs).2, st.2))
  flushBuffers st i := (L.flushBuffers st.1 i, st.2)
  indexSearchTimestamp st := L.indexSearchTimestamp st.1
  bufferSrcWriteFrame st i frame :=
    ((L.bufferSrcWriteFrame st.1 i frame).1, ((L.bufferSrcWriteFrame st.1 i frame).2, st.2))
  bufferSinkGetFrame st i := ((L.bufferSinkGetFrame st.1 i).1, ((L.bufferSinkGetFrame st.1 i).2, st.2))
  streamTimeBase st := L.streamTimeBase st.1
  streamCodecType st := L.streamCodecType st.1
  findStreamInfo st := ((L.findStreamInfo st.1).1, ((L.findStreamInfo st.1).2, st.2))
  nbStreams st := L.nbStreams st.1
  streamCodecName st := L.streamCodecName st.1
  streamBitRate st := L.streamBitRate st.1
  streamNbFrames st := L.streamNbFrames st.1
  streamDuration st := L.streamDuration st.1
  streamFrameRate st := L.streamFrameRate st.1
  containerDuration st := L.containerDuration st.1
  containerBitRate st := L.containerBitRate st.1
  findBestStream st := L.findBestStream st.1
  allocContext st i threads := (L.allocContext st.1 i threads, st.2)
  parametersToContext st i := ((L.parametersToContext st.1 i).1, ((L.parametersToContext st.1 i).2, st.2))
  codecOpen2 st i := ((L.codecOpen2 st.1 i).1, ((L.codecOpen2 st.1 i).2, st.2))
  setCodecTimeBase st i := (L.setCodecTimeBase st.1 i, st.2)
  codecWidth st := L.codecWidth st.1
  codecHeight st := L.codecHeight st.1
  codecName st := L.codecName st.1
  filterGraphCall st i call := ((L.filterGraphCall st.1 i call).1, ((L.filterGraphCall st.1 i call).2, st.2))
  tensorEmpty := L.tensorEmpty
  tensorAssign := L.tensorAssign

/-- The decoder `d` on the traced library, with an empty log. -/
def startLog {σ : Type} (d : VideoDecoder σ) : VideoDecoder (σ × List PumpCall) :=
  { lib := (d.lib, [])
    containerMetadata := d.containerMetadata
    streams_ := d.streams_
    activeStreamIndices_ := d.activeStreamIndices_
    maybeDesiredPts_ := d.maybeDesiredPts_
    decodeStats_ := d.decodeStats_ }

/-- Words of C23, "the number of receive-frame calls that returned success". -/
def successfulReceives (log : List PumpCall) : Nat :=
  log.countP (fun c =>
    match c with
    | PumpCall.receive _ status => status == AVSUCCESS
    | _ => false)

/-- The number of receive-frame calls on stream `last` that returned `EAGAIN`. -/
def againReceivesOn (last : Int) (log : List PumpCall) : Nat :=
  log.countP (fun c =>
    match c with
    | PumpCall.receive streamIndex status => status == AVERROR_EAGAIN && streamIndex == last
    | _ => false)

/-- Words of C24, "a status other than success or AGAIN". -/
def isPermanent (status : Int) : Prop := status ≠ AVSUCCESS ∧ status ≠ AVERROR_EAGAIN

/-! ## Words of the claims about the pump -/

/-- No receive-frame call in `evs` returned a status other than success and
`EAGAIN`. -/
def noPermanent (evs : List PumpCall) : Prop :=
  ∀ i status, PumpCall.receive i status ∈ evs → ¬ isPermanent status

/-- A stretch of the decode pump on a traced library in which no receive-frame
call returned a status other than success and `EAGAIN`: the active set stays,
the per-stream table stays when every active stream has an entry, and the log
grows by calls without such a status. -/
structure PumpRun {σ : Type} (d d' : VideoDecoder (σ × List PumpCall)) : Prop where
  active : d'.activeStreamIndices_ = d.activeStreamIndices_
  streams : (∀ k ∈ d.activeStreamIndices_, mapCount d.streams_ k ≠ 0) → d'.streams_ = d.streams_
  log : ∃ evs, d'.lib.2 = d.lib.2 ++ evs ∧ noPermanent evs

/-- A stretch of the decode pump on a traced library that ends with a
receive-frame call returning `status`, the first call in the stretch with a
status other than success and `EAGAIN`. -/
structure PermanentExit {σ : Type} (status : Int) (d d' : VideoDecoder (σ × List PumpCall)) :
    Prop where
  active : d'.activeStreamIndices_ = d.activeStreamIndices_
  streams : (∀ k ∈ d.activeStreamIndices_, mapCount d.streams_ k ≠ 0) → d'.streams_ = d.streams_
  log : ∃ evs i, d'.lib.2 = d.lib.2 ++ evs ++ [PumpCall.receive i status] ∧ noPermanent evs

/-- What the `while` loop of the pump leaves on a traced library: either no
receive-frame call returned a status other than success and `EAGAIN`, and a
`break` out of the loop carries the success status; or the loop was left by the
`break` after such a status, which is negative. -/
def PumpPost {σ : Type} (d : VideoDecoder (σ × List PumpCall))
    (r : Result LoopExit × VideoDecoder (σ × List PumpCall)) : Prop :=
  (PumpRun d r.2 ∧ ∀ ex, r.1 = Result.ok ex → ex.ffmpegStatus = AVSUCCESS) ∨
  (∃ ex, r.1 = Result.ok ex ∧ isPermanent ex.ffmpegStatus ∧ ex.ffmpegStatus < 0 ∧
    PermanentExit ex.ffmpegStatus d r.2)

/-- What the seek planner leaves alone on a traced library: the log, the active
set, the current frame of every entry, and, when every active stream has an
entry, the keys of the per-stream table. -/
structure SeekFrame {σ : Type} (d d' : VideoDecoder (σ × List PumpCall)) : Prop where
  log : d'.lib.2 = d.lib.2
  active : d'.activeStreamIndices_ = d.activeStreamIndices_
  currentPts : ∀ k, (mapAt d'.streams_ k).currentPts = (mapAt d.streams_ k).currentPts
  currentDuration : ∀ k,
    (mapAt d'.streams_ k).currentDuration = (mapAt d.streams_ k).currentDuration
  keys : (∀ k ∈ d.activeStreamIndices_, mapCount d.streams_ k ≠ 0) →
    d'.streams_.map Prod.fst = d.streams_.map Prod.fst ∧
    ∀ k ∈ d.activeStreamIndices_, mapCount d'.streams_ k ≠ 0

/-- The passes of the pump loop that a log shows to have ended without a status
other than success and `EAGAIN`: such a pass ends with a receive-frame call
that returned success, or with the receive-frame call on the last active
stream returning `EAGAIN`. -/
def pumpPasses (last : Int) (log : List PumpCall) : Nat :=
  successfulReceives log + againReceivesOn last log

/-- A stretch of the decode pump on a traced library over which
`numFramesReceivedByDecoder` grows as `pumpPasses` does, and
`numPacketsSentToDecoder` grows at most as `numPacketsRead` does. -/
structure Counted {σ : Type} (last : Int) (d d' : VideoDecoder (σ × List PumpCall)) : Prop where
  active : d'.activeStreamIndices_ = d.activeStreamIndices_
  frames : d'.decodeStats_.numFramesReceivedByDecoder - (pumpPasses last d'.lib.2 : Int) =
    d.decodeStats_.numFramesReceivedByDecoder - (pumpPasses last d.lib.2 : Int)
  packets : d'.decodeStats_.numPacketsSentToDecoder - d'.decodeStats_.numPacketsRead ≤
    d.decodeStats_.numPacketsSentToDecoder - d.decodeStats_.numPacketsRead

/-! ## Doubles at work -/

/-- Evaluations of the `double` arithmetic: `0.7 * 10` and `-0.7 * 10` are the
doubles `7.0` and `-7.0`, though the double nearest to `0.7` is below `0.7`;
`1.0 * 29 / 25 * 25` is a double below `29` and converts to `28`; `0.1` is the
double `3602879701896397 / 2^55`; the integer `2^53 + 1` converts to the
double `2^53`; `1.0 * 1 / 0` is `+inf`, `1.0 * 0 / -3` is `-0.0` and
`1.0 * 0 / 0` is NaN. -/
theorem binary64_rounding_examples :
    (Dbl.nearest ⟨7, 10⟩).mulInt 10 = ⟨7, 1⟩ ∧
    (Dbl.nearest ⟨-7, 10⟩).mulInt 10 = ⟨-7, 1⟩ ∧
    (Dbl.nearest ⟨7, 10⟩).lt ⟨7, 10⟩ = true ∧
    Dbl.toInt64 ((Dbl.ofRatio 29 25).mulInt 25) = 28 ∧
    Dbl.nearest ⟨1, 10⟩ = ⟨3602879701896397, 36028797018963968⟩ ∧
    Dbl.ofInt 9007199254740993 = ⟨9007199254740992, 1⟩ ∧
    Dbl.ofRatio 1 0 = ⟨1, 0⟩ ∧ Dbl.ofRatio 0 (-3) = ⟨0, -1⟩ ∧ Dbl.ofRatio 0 0 = ⟨0, 0⟩ := by
  decide

/-! ## Lemmas on the per-stream table -/

theorem mem_mapInsert {k : Int} {v : StreamInfo} {m : List (Int × StreamInfo)} {e : Int × StreamInfo} :
    e ∈ mapInsert k v m ↔ e = (k, v) ∨ e ∈ m := by
  induction m with
  | nil => simp [mapInsert]
  | cons x xs ih =>
    unfold mapInsert
    split
    · simp
    · simp only [List.mem_cons, ih]
      tauto

theorem mapCount_eq_zero_iff {m : List (Int × StreamInfo)} {k : Int} :
    mapCount m k = 0 ↔ ∀ e ∈ m, e.1 ≠ k := by
  simp [mapCount, List.filter_eq_nil_iff]

theorem find_eq_none_of_count_zero {m : List (Int × StreamInfo)} {k : Int} (h : mapCount m k = 0) :
    m.find? (fun e => e.1 == k) = none := by
  rw [List.find?_eq_none]
  intro e he
  have := (mapCount_eq_zero_iff.1 h) e he
  simpa using this

theorem mapAt_of_count_zero {m : List (Int × StreamInfo)} {k : Int} (h : mapCount m k = 0) :
    mapAt m k = {} := by
  simp [mapAt, find_eq_none_of_count_zero h]

theorem find_mapInsert {k j : Int} {v : StreamInfo} {m : List (Int × StreamInfo)}
    (h : ∀ e ∈ m, e.1 ≠ k) :
    (mapInsert k v m).find? (fun e => e.1 == j) =
      if j = k then some (k, v) else m.find? (fun e => e.1 == j) := by
  induction m with
  | nil =>
    by_cases hjk : j = k
    · simp [mapInsert, hjk]
    · have : ¬ k = j := fun h => hjk h.symm
      simp [mapInsert, hjk, this]
  | cons x xs ih =>
    have hx : x.1 ≠ k := h x (List.mem_cons_self _ _)
    have ih' := ih (fun e he => h e (List.mem_cons_of_mem _ he))
    unfold mapInsert
    by_cases hlt : k < x.1
    · by_cases hjk : j = k
      · simp [hlt, hjk]
      · have : ¬ k = j := fun h => hjk h.symm
        simp [hlt, hjk, this, List.find?_cons]
    · by_cases hjk : j = k
      · subst hjk
        simp [hlt, List.find?_cons, hx, ih']
      · simp [hlt, List.find?_cons, ih', hjk]

theorem mapAt_mapTouch (m : List (Int × StreamInfo)) (k j : Int) :
    mapAt (mapTouch m k) j = mapAt m j := by
  unfold mapTouch
  by_cases h : mapCount m k = 0
  · simp only [h, if_true]
    unfold mapAt
    rw [find_mapInsert (mapCount_eq_zero_iff.1 h)]
    by_cases hjk : j = k
    · subst hjk
      simp [find_eq_none_of_count_zero h]
    · simp [hjk]
  · simp [h]

theorem mapCount_mapInsert (m : List (Int × StreamInfo)) (k j : Int) (v : StreamInfo) :
    mapCount (mapInsert k v m) j = (if j = k then 1 else 0) + mapCount m j := by
  induction m with
  | nil =>
    by_cases hjk : j = k
    · simp [mapInsert, mapCount, hjk]
    · have : ¬ k = j := fun h => hjk h.symm
      simp [mapInsert, mapCount, hjk, this]
  | cons x xs ih =>
    unfold mapInsert
    by_cases hlt : k < x.1
    · by_cases hjk : j = k
      · simp [hlt, mapCount, hjk, List.filter_cons]; omega
      · have : ¬ k = j := fun h => hjk h.symm
        simp [hlt, mapCount, hjk, this, List.filter_cons]
    · simp only [hlt, if_false]
      have : mapCount (x :: mapInsert k v xs) j = (if x.1 = j then 1 else 0) + mapCount (mapInsert k v xs) j := by
        by_cases hx : x.1 = j <;> simp [mapCount, List.filter_cons, hx] <;> omega
      rw [this, ih]
      have : mapCount (x :: xs) j = (if x.1 = j then 1 else 0) + mapCount xs j := by
        by_cases hx : x.1 = j <;> simp [mapCount, List.filter_cons, hx] <;> omega
      rw [this]; omega

theorem mapCount_mapTouch_ne_zero (m : List (Int × StreamInfo)) (k j : Int) :
    mapCount (mapTouch m k) j ≠ 0 ↔ j = k ∨ mapCount m j ≠ 0 := by
  unfold mapTouch
  by_cases h : mapCount m k = 0
  · simp only [h, if_true, mapCount_mapInsert]
    by_cases hjk : j = k
    · simp [hjk]
    · simp [hjk]
  · simp only [h, if_false]
    constructor
    · intro h'; exact Or.inr h'
    · rintro (rfl | h')
      · exact h
      · exact h'

theorem mapTouch_of_count_ne_zero {m : List (Int × StreamInfo)} {k : Int} (h : mapCount m k ≠ 0) :
    mapTouch m k = m := by
  simp [mapTouch, h]

theorem mapCount_map_key (m : List (Int × StreamInfo)) (g : Int × StreamInfo → Int × StreamInfo)
    (hg : ∀ e, (g e).1 = e.1) (j : Int) : mapCount (m.map g) j = mapCount m j := by
  induction m with
  | nil => rfl
  | cons x xs ih =>
    simp only [mapCount, List.map_cons, List.filter_cons, hg] at ih ⊢
    by_cases hx : x.1 = j <;> simp [hx, ih]

theorem find_map_key (m : List (Int × StreamInfo)) (g : Int × StreamInfo → Int × StreamInfo)
    (hg : ∀ e, (g e).1 = e.1) (j : Int) :
    (m.map g).find? (fun e => e.1 == j) = (m.find? (fun e => e.1 == j)).map g := by
  induction m with
  | nil => rfl
  | cons x xs ih =>
    by_cases hx : x.1 = j
    · simp [List.find?_cons, hg, hx]
    · have hx' : (x.1 == j) = false := by simpa using hx
      simp only [List.map_cons, List.find?_cons, hg, ih, hx']

theorem find_isSome_of_count_ne_zero {m : List (Int × StreamInfo)} {j : Int}
    (hj : mapCount m j ≠ 0) : ∃ v, m.find? (fun e => e.1 == j) = some (j, v) := by
  induction m with
  | nil => simp [mapCount] at hj
  | cons x xs ih =>
    by_cases hx : x.1 = j
    · obtain ⟨a, b⟩ := x
      simp at hx
      subst hx
      exact ⟨b, by simp [List.find?_cons]⟩
    · have hj' : mapCount xs j ≠ 0 := by
        simpa [mapCount, List.filter_cons, hx] using hj
      obtain ⟨v, hv⟩ := ih hj'
      exact ⟨v, by simp [List.find?_cons, hx, hv]⟩

theorem mapAt_map_key (m : List (Int × StreamInfo)) (g : Int × StreamInfo → Int × StreamInfo)
    (hg : ∀ e, (g e).1 = e.1) (j : Int) (hj : mapCount m j ≠ 0) :
    mapAt (m.map g) j = (g (j, mapAt m j)).2 := by
  obtain ⟨v, hv⟩ := find_isSome_of_count_ne_zero hj
  simp [mapAt, find_map_key m g hg, hv]

theorem mapCount_mapModify_ne_zero (m : List (Int × StreamInfo)) (k j : Int)
    (f : StreamInfo → StreamInfo) :
    mapCount (mapModify m k f) j ≠ 0 ↔ j = k ∨ mapCount m j ≠ 0 := by
  unfold mapModify
  rw [mapCount_map_key _ _ (by intro e; split <;> rfl)]
  exact mapCount_mapTouch_ne_zero m k j

theorem mapAt_mapModify (m : List (Int × StreamInfo)) (k j : Int) (f : StreamInfo → StreamInfo) :
    mapAt (mapModify m k f) j = if j = k then f (mapAt m k) else mapAt m j := by
  unfold mapModify
  by_cases hj : mapCount (mapTouch m k) j = 0
  · have hne : j ≠ k := by
      intro h
      have := (mapCount_mapTouch_ne_zero m k j).2 (Or.inl h)
      exact this hj
    have h1 : mapCount ((mapTouch m k).map
        (fun e => if e.1 == k then (e.1, f e.2) else e)) j = 0 := by
      rw [mapCount_map_key _ _ (by intro e; split <;> rfl)]; exact hj
    rw [mapAt_of_count_zero h1, if_neg hne, ← mapAt_mapTouch m k j, mapAt_of_count_zero hj]
  · rw [mapAt_map_key _ _ (by intro e; split <;> rfl) j hj, mapAt_mapTouch]
    by_cases hjk : j = k
    · subst hjk; simp
    · simp [hjk]


/-! ## Lemmas on sorting -/

theorem mem_insertByPts {x y : FrameInfo} {l : List FrameInfo} :
    y ∈ insertByPts x l ↔ y = x ∨ y ∈ l := by
  induction l with
  | nil => simp [insertByPts]
  | cons z zs ih =>
    unfold insertByPts
    split
    · simp
    · simp only [List.mem_cons, ih]; tauto

theorem mem_sortByPts {y : FrameInfo} {l : List FrameInfo} : y ∈ sortByPts l ↔ y ∈ l := by
  induction l with
  | nil => simp [sortByPts]
  | cons z zs ih => simp [sortByPts, mem_insertByPts, ih]

theorem length_insertByPts (x : FrameInfo) (l : List FrameInfo) :
    (insertByPts x l).length = l.length + 1 := by
  induction l with
  | nil => simp [insertByPts]
  | cons z zs ih =>
    unfold insertByPts
    split <;> simp [ih]

theorem length_sortByPts (l : List FrameInfo) : (sortByPts l).length = l.length := by
  induction l with
  | nil => simp [sortByPts]
  | cons z zs ih => simp [sortByPts, length_insertByPts, ih]

theorem sorted_insertByPts (x : FrameInfo) (l : List FrameInfo) (h : sortedByPts l) :
    sortedByPts (insertByPts x l) := by
  induction l with
  | nil => simp [insertByPts, sortedByPts]
  | cons z zs ih =>
    unfold sortedByPts at h ih ⊢
    rw [List.pairwise_cons] at h
    unfold insertByPts
    split
    · rename_i hlt
      rw [List.pairwise_cons, List.pairwise_cons]
      refine ⟨?_, h⟩
      intro a ha
      rcases List.mem_cons.1 ha with rfl | ha
      · omega
      · have := h.1 a ha; omega
    · rename_i hnlt
      rw [List.pairwise_cons]
      refine ⟨?_, ih h.2⟩
      intro a ha
      rcases mem_insertByPts.1 ha with rfl | ha
      · omega
      · exact h.1 a ha

theorem sorted_sortByPts (l : List FrameInfo) : sortedByPts (sortByPts l) := by
  induction l with
  | nil => simp [sortByPts, sortedByPts]
  | cons z zs ih => exact sorted_insertByPts z _ ih


/-! ## Lemmas on the scan -/

theorem scanPacket_congr {σ : Type} (p : AVPacket) (d1 d2 : VideoDecoder σ)
    (hs : d1.streams_ = d2.streams_) (hm : d1.containerMetadata = d2.containerMetadata) :
    (scanPacket p d1).streams_ = (scanPacket p d2).streams_ ∧
    (scanPacket p d1).containerMetadata = (scanPacket p d2).containerMetadata := by
  unfold scanPacket
  by_cases hd : isDiscard p = true
  · simp [hd, hs, hm]
  · simp [hd, hs, hm]

theorem scanPackets_congr {σ : Type} (ps : List AVPacket) (d1 d2 : VideoDecoder σ)
    (hs : d1.streams_ = d2.streams_) (hm : d1.containerMetadata = d2.containerMetadata) :
    (scanPackets ps d1).streams_ = (scanPackets ps d2).streams_ ∧
    (scanPackets ps d1).containerMetadata = (scanPackets ps d2).containerMetadata := by
  induction ps generalizing d1 d2 with
  | nil => exact ⟨hs, hm⟩
  | cons p ps ih =>
    have h := scanPacket_congr p d1 d2 hs hm
    exact ih _ _ h.1 h.2

theorem scanPackets_cons {σ : Type} (p : AVPacket) (ps : List AVPacket) (d : VideoDecoder σ) :
    scanPackets (p :: ps) d = scanPackets ps (scanPacket p d) := rfl

theorem scanLoop_ok {σ : Type} (L : Lib σ) (fuel : Nat) (d d' : VideoDecoder σ)
    (h : scanLoop L fuel d = (Result.ok (), d')) :
    ∃ ps, packetsRead L fuel d.lib = some ps ∧
      d'.streams_ = (scanPackets ps d).streams_ ∧
      d'.containerMetadata = (scanPackets ps d).containerMetadata := by
  induction fuel generalizing d with
  | zero => simp [scanLoop] at h
  | succ n ih =>
    unfold scanLoop at h
    unfold packetsRead
    by_cases heof : (L.readFrame d.lib).1 = AVERROR_EOF
    · simp only [heof, if_true] at h ⊢
      refine ⟨[], rfl, ?_, ?_⟩
      · have := congrArg Prod.snd h; simp at this; rw [← this]; rfl
      · have := congrArg Prod.snd h; simp at this; rw [← this]; rfl
    · by_cases hok : (L.readFrame d.lib).1 = AVSUCCESS
      · rw [if_neg heof, if_neg (by simpa using hok)] at h
        rw [if_neg heof, if_neg (by simpa using hok)]
        obtain ⟨ps, hps, hs, hm⟩ := ih _ h
        have hlib : (scanPacket (L.readFrame d.lib).2.1
            { d with lib := (L.readFrame d.lib).2.2 }).lib = (L.readFrame d.lib).2.2 := by
          unfold scanPacket; split <;> rfl
        rw [hlib] at hps
        have hc := scanPacket_congr (L.readFrame d.lib).2.1
          { d with lib := (L.readFrame d.lib).2.2 } d rfl rfl
        have hcc := scanPackets_congr ps _ _ hc.1 hc.2
        refine ⟨(L.readFrame d.lib).2.1 :: ps, by simp [hps], ?_, ?_⟩
        · rw [hs, scanPackets_cons]; exact hcc.1
        · rw [hm, scanPackets_cons]; exact hcc.2
      · rw [if_neg heof, if_pos (by simpa using hok)] at h
        simp at h

theorem scanFile_ok {σ : Type} (L : Lib σ) (fuel : Nat) (d d' : VideoDecoder σ)
    (h : scanFileAndUpdateMetadataAndIndex L fuel d = (Result.ok (), d')) :
    ∃ ps lib, packetsRead L fuel d.lib = some ps ∧
      d'.streams_ = sortStreams (scanPackets ps d).streams_ ∧
      d'.containerMetadata.streams =
        scanSecondsFrom L lib 0 (scanPackets ps d).containerMetadata.streams := by
  unfold scanFileAndUpdateMetadataAndIndex at h
  split at h
  · rename_i u d1 hloop
    obtain ⟨ps, hps, hs, hm⟩ := scanLoop_ok L fuel d d1 hloop
    dsimp only at h
    split at h
    · simp at h
    · refine ⟨ps, d1.lib, hps, ?_, ?_⟩
      · have := congrArg Prod.snd h; simp at this; rw [← this]; simp [hs]
      · have := congrArg Prod.snd h; simp at this; rw [← this]; simp [hm]
  · rename_i hne
    exact absurd h (by
      intro hh
      exact hne () d' hh)


theorem scanLoop_of_packetsRead {σ : Type} (L : Lib σ) (fuel : Nat) (d : VideoDecoder σ)
    (ps : List AVPacket) (h : packetsRead L fuel d.lib = some ps) :
    (scanLoop L fuel d).1 = Result.ok () ∧
    (scanLoop L fuel d).2.lib = libAfterReads L fuel d.lib := by
  induction fuel generalizing d ps with
  | zero => simp [packetsRead] at h
  | succ n ih =>
    unfold packetsRead at h
    unfold scanLoop libAfterReads
    by_cases heof : (L.readFrame d.lib).1 = AVERROR_EOF
    · rw [if_pos heof, if_pos heof]
      exact ⟨rfl, rfl⟩
    · by_cases hok : (L.readFrame d.lib).1 = AVSUCCESS
      · rw [if_neg heof, if_neg (by simpa using hok)] at h
        rw [if_neg heof, if_neg (by simpa using hok), if_neg heof, if_neg (by simpa using hok)]
        have hlib : (scanPacket (L.readFrame d.lib).2.1
            { d with lib := (L.readFrame d.lib).2.2 }).lib = (L.readFrame d.lib).2.2 := by
          unfold scanPacket; split <;> rfl
        cases hrest : packetsRead L n (L.readFrame d.lib).2.2 with
        | none => rw [hrest] at h; simp at h
        | some ps' =>
          have := ih (scanPacket (L.readFrame d.lib).2.1
            { d with lib := (L.readFrame d.lib).2.2 }) ps' (by rw [hlib]; exact hrest)
          rw [hlib] at this
          exact this
      · rw [if_neg heof, if_pos (by simpa using hok)] at h
        simp at h

theorem scanFile_returns {σ : Type} (L : Lib σ) (fuel : Nat) (d : VideoDecoder σ)
    (ps : List AVPacket) (hps : packetsRead L fuel d.lib = some ps)
    (hseek : 0 ≤ (L.seekFile (libAfterReads L fuel d.lib) 0 INT64_MIN 0 0).1) :
    ∃ d', scanFileAndUpdateMetadataAndIndex L fuel d = (Result.ok (), d') := by
  obtain ⟨h1, h2⟩ := scanLoop_of_packetsRead L fuel d ps hps
  unfold scanFileAndUpdateMetadataAndIndex
  split
  · rename_i u d1 hloop
    have hd1 : d1.lib = libAfterReads L fuel d.lib := by rw [← h2, hloop]
    dsimp only
    rw [hd1]
    rw [if_neg (by omega)]
    exact ⟨_, rfl⟩
  · rename_i hne
    exfalso
    exact hne () (scanLoop L fuel d).2 (Prod.ext h1 rfl)

theorem mem_mapTouch {m : List (Int × StreamInfo)} {k : Int} {e : Int × StreamInfo}
    (h : e ∈ mapTouch m k) : e ∈ m ∨ e = (k, {}) := by
  unfold mapTouch at h
  split at h
  · rcases mem_mapInsert.1 h with h | h
    · exact Or.inr h
    · exact Or.inl h
  · exact Or.inl h

theorem mapModify_mapModify (m : List (Int × StreamInfo)) (k : Int) (f g : StreamInfo → StreamInfo) :
    mapModify (mapModify m k f) k g = mapModify m k (fun s => g (f s)) := by
  have hc : mapCount (mapModify m k f) k ≠ 0 := (mapCount_mapModify_ne_zero m k k f).2 (Or.inl rfl)
  have h1 : mapModify (mapModify m k f) k g =
      (mapTouch (mapModify m k f) k).map (fun e => if e.1 == k then (e.1, g e.2) else e) := rfl
  rw [h1, mapTouch_of_count_ne_zero hc]
  unfold mapModify
  rw [List.map_map]
  apply List.map_congr_left
  intro e _
  by_cases he : e.1 = k
  · simp [he]
  · simp [he]

theorem keyFramesSubset_mapModify (m : List (Int × StreamInfo)) (k : Int)
    (f : StreamInfo → StreamInfo) (hm : keyFramesSubset m)
    (hf : ∀ s : StreamInfo, (∀ x ∈ s.keyFrames, x ∈ s.allFrames) →
      ∀ x ∈ (f s).keyFrames, x ∈ (f s).allFrames) :
    keyFramesSubset (mapModify m k f) := by
  intro e he
  unfold mapModify at he
  rw [List.mem_map] at he
  obtain ⟨e0, he0, rfl⟩ := he
  have h0 : ∀ x ∈ e0.2.keyFrames, x ∈ e0.2.allFrames := by
    rcases mem_mapTouch he0 with h | h
    · exact hm e0 h
    · subst h; intro x hx; simp at hx
  by_cases hk : e0.1 = k
  · simp only [hk, beq_self_eq_true, if_true]
    exact hf _ h0
  · have : (e0.1 == k) = false := by simpa using hk
    simp only [this]
    exact h0

theorem scanPacket_streams {σ : Type} (p : AVPacket) (d : VideoDecoder σ) :
    (scanPacket p d).streams_ =
      if isDiscard p = true then d.streams_
      else mapModify d.streams_ p.stream_index (fun s =>
        { s with keyFrames := if isKey p = true then s.keyFrames ++ [⟨p.pts⟩] else s.keyFrames
                 allFrames := s.allFrames ++ [⟨p.pts⟩] }) := by
  unfold scanPacket
  by_cases hd : isDiscard p = true
  · simp [hd]
  · by_cases hk : isKey p = true
    · simp only [hd, hk, if_true, if_false]
      rw [mapModify_mapModify]
      rfl
    · simp only [hd, hk, if_false]
      rfl

theorem keyFramesSubset_scanPacket {σ : Type} (p : AVPacket) (d : VideoDecoder σ)
    (h : keyFramesSubset d.streams_) : keyFramesSubset (scanPacket p d).streams_ := by
  rw [scanPacket_streams]
  split
  · exact h
  · apply keyFramesSubset_mapModify _ _ _ h
    intro s hs x hx
    by_cases hk : isKey p = true
    · simp only [hk, if_true] at hx
      rcases List.mem_append.1 hx with hx | hx
      · exact List.mem_append.2 (Or.inl (hs x hx))
      · exact List.mem_append.2 (Or.inr hx)
    · simp only [hk, if_false] at hx
      exact List.mem_append.2 (Or.inl (hs x hx))

theorem keyFramesSubset_scanPackets {σ : Type} (ps : List AVPacket) (d : VideoDecoder σ)
    (h : keyFramesSubset d.streams_) : keyFramesSubset (scanPackets ps d).streams_ := by
  induction ps generalizing d with
  | nil => exact h
  | cons p ps ih => exact ih _ (keyFramesSubset_scanPacket p d h)

theorem allFrames_scanPacket {σ : Type} (p : AVPacket) (d : VideoDecoder σ) (i : Int) :
    (mapAt (scanPacket p d).streams_ i).allFrames =
      (mapAt d.streams_ i).allFrames ++ (retainedPackets [p] i).map (fun q => ⟨q.pts⟩) := by
  rw [scanPacket_streams]
  by_cases hd : isDiscard p = true
  · simp [hd, retainedPackets]
  · rw [if_neg hd, mapAt_mapModify]
    by_cases hi : i = p.stream_index
    · subst hi
      simp [retainedPackets, hd]
    · have : ¬ p.stream_index = i := fun h => hi h.symm
      simp [retainedPackets, hi, this]

theorem retainedPackets_cons (p : AVPacket) (ps : List AVPacket) (i : Int) :
    retainedPackets (p :: ps) i = retainedPackets [p] i ++ retainedPackets ps i := by
  unfold retainedPackets
  rw [← List.filter_append]
  rfl

theorem allFrames_scanPackets {σ : Type} (ps : List AVPacket) (d : VideoDecoder σ) (i : Int) :
    (mapAt (scanPackets ps d).streams_ i).allFrames =
      (mapAt d.streams_ i).allFrames ++ (retainedPackets ps i).map (fun q => ⟨q.pts⟩) := by
  induction ps generalizing d with
  | nil => simp [scanPackets, retainedPackets]
  | cons p ps ih =>
    rw [scanPackets_cons, ih, allFrames_scanPacket, retainedPackets_cons p ps]
    simp

theorem mapAt_sortStreams (m : List (Int × StreamInfo)) (i : Int) :
    mapAt (sortStreams m) i = (sortEntry (i, mapAt m i)).2 := by
  unfold sortStreams
  by_cases h : mapCount m i = 0
  · have h1 : mapCount (m.map sortEntry) i = 0 := by
      rw [mapCount_map_key m sortEntry (fun e => rfl)]; exact h
    rw [mapAt_of_count_zero h1, mapAt_of_count_zero h]
    rfl
  · rw [mapAt_map_key m sortEntry (fun e => rfl) i h]


/-! ## Lemmas on the scanned metadata -/

theorem getElem?_modifyAt {α : Type} (f : α → α) (n : Nat) (l : List α) (k : Nat) :
    (modifyAt f n l)[k]? = if k = n then l[k]?.map f else l[k]? := by
  induction l generalizing n k with
  | nil => cases n <;> simp [modifyAt]
  | cons x xs ih =>
    cases n with
    | zero =>
      cases k with
      | zero => simp [modifyAt]
      | succ k => simp [modifyAt]
    | succ n =>
      cases k with
      | zero => simp [modifyAt]
      | succ k => simp [modifyAt, ih]

theorem length_modifyAt {α : Type} (f : α → α) (n : Nat) (l : List α) :
    (modifyAt f n l).length = l.length := by
  induction l generalizing n with
  | nil => cases n <;> simp [modifyAt]
  | cons x xs ih => cases n <;> simp [modifyAt, ih]

theorem getElem?_modifyStreamMetadata (streams : List StreamMetadata) (j : Int)
    (f : StreamMetadata → StreamMetadata) (k : Nat) :
    (modifyStreamMetadata streams j f)[k]? = if (k : Int) = j then streams[k]?.map f else streams[k]? := by
  unfold modifyStreamMetadata
  by_cases hj : 0 ≤ j
  · rw [if_pos hj, getElem?_modifyAt]
    by_cases hk : (k : Int) = j
    · have : k = j.toNat := by omega
      rw [if_pos this, if_pos hk]
    · have : ¬ k = j.toNat := by omega
      rw [if_neg this, if_neg hk]
  · have : ¬ (k : Int) = j := by omega
    simp [hj, this]

theorem length_modifyStreamMetadata (streams : List StreamMetadata) (j : Int)
    (f : StreamMetadata → StreamMetadata) :
    (modifyStreamMetadata streams j f).length = streams.length := by
  unfold modifyStreamMetadata
  split
  · exact length_modifyAt _ _ _
  · rfl

theorem scanFold_nil_fun : scanFold [] = fun m => m := rfl

theorem scanFold_singleton_fun (p : AVPacket) : scanFold [p] = scanUpdateMetadata p := rfl

theorem metadata_scanPacket {σ : Type} (p : AVPacket) (d : VideoDecoder σ) (k : Nat) :
    (scanPacket p d).containerMetadata.streams[k]? =
      d.containerMetadata.streams[k]?.map (scanFold (retainedPackets [p] k)) := by
  unfold scanPacket
  by_cases hd : isDiscard p = true
  · simp [hd, retainedPackets, scanFold_nil_fun]
  · rw [if_neg hd]
    simp only []
    rw [getElem?_modifyStreamMetadata]
    by_cases hk : (k : Int) = p.stream_index
    · have : p.stream_index = (k : Int) := hk.symm
      simp [hk, retainedPackets, hd, scanFold_singleton_fun]
    · have : ¬ p.stream_index = (k : Int) := fun h => hk h.symm
      simp [hk, retainedPackets, this, scanFold_nil_fun]

theorem scanFold_append (ps qs : List AVPacket) (m : StreamMetadata) :
    scanFold (ps ++ qs) m = scanFold qs (scanFold ps m) := by
  simp [scanFold, List.foldl_append]

theorem metadata_scanPackets {σ : Type} (ps : List AVPacket) (d : VideoDecoder σ) (k : Nat) :
    (scanPackets ps d).containerMetadata.streams[k]? =
      d.containerMetadata.streams[k]?.map (scanFold (retainedPackets ps k)) := by
  induction ps generalizing d with
  | nil =>
    simp only [scanPackets, List.foldl_nil, retainedPackets, List.filter_nil]
    cases d.containerMetadata.streams[k]? <;> simp [scanFold]
  | cons p ps ih =>
    rw [scanPackets_cons, ih, metadata_scanPacket, retainedPackets_cons p ps, Option.map_map]
    congr 1
    funext m
    simp [scanFold_append]

theorem length_metadata_scanPackets {σ : Type} (ps : List AVPacket) (d : VideoDecoder σ) :
    (scanPackets ps d).containerMetadata.streams.length = d.containerMetadata.streams.length := by
  induction ps generalizing d with
  | nil => rfl
  | cons p ps ih =>
    rw [scanPackets_cons, ih]
    unfold scanPacket
    split
    · rfl
    · exact length_modifyStreamMetadata _ _ _

theorem scanFold_numFrames (ps : List AVPacket) (m : StreamMetadata) :
    (scanFold ps m).numFramesFromScan =
      if ps = [] then m.numFramesFromScan
      else some (m.numFramesFromScan.getD 0 + (ps.length : Int)) := by
  induction ps generalizing m with
  | nil => simp [scanFold]
  | cons p ps ih =>
    have : scanFold (p :: ps) m = scanFold ps (scanUpdateMetadata p m) := rfl
    rw [this, ih]
    by_cases hps : ps = []
    · subst hps; simp [scanUpdateMetadata]
    · simp [hps, scanUpdateMetadata]; omega

theorem scanFold_minPts (ps : List AVPacket) (m : StreamMetadata) :
    (scanFold ps m).minPtsFromScan =
      if ps = [] then m.minPtsFromScan
      else some ((ps.map (fun p => p.pts)).foldl min (m.minPtsFromScan.getD INT64_MAX)) := by
  induction ps generalizing m with
  | nil => simp [scanFold]
  | cons p ps ih =>
    have : scanFold (p :: ps) m = scanFold ps (scanUpdateMetadata p m) := rfl
    rw [this, ih]
    by_cases hps : ps = []
    · subst hps; simp [scanUpdateMetadata]
    · simp [hps, scanUpdateMetadata]

theorem scanFold_maxPts (ps : List AVPacket) (m : StreamMetadata) :
    (scanFold ps m).maxPtsFromScan =
      if ps = [] then m.maxPtsFromScan
      else some ((ps.map (fun p => wrapInt64 (p.pts + p.duration))).foldl max
        (m.maxPtsFromScan.getD INT64_MIN)) := by
  induction ps generalizing m with
  | nil => simp [scanFold]
  | cons p ps ih =>
    have : scanFold (p :: ps) m = scanFold ps (scanUpdateMetadata p m) := rfl
    rw [this, ih]
    by_cases hps : ps = []
    · subst hps; simp [scanUpdateMetadata]
    · simp [hps, scanUpdateMetadata]

theorem wrapInt64_of_isInt64 {x : Int} (h : isInt64 x) : wrapInt64 x = x := by
  unfold isInt64 INT64_MIN INT64_MAX at h
  unfold wrapInt64
  omega

theorem foldl_min_eq_min? (x : Int) (xs : List Int) (hx : x ≤ INT64_MAX) :
    (x :: xs).foldl min INT64_MAX = xs.foldl min x := by
  simp [List.foldl_cons, min_eq_right hx]

theorem foldl_max_eq_max? (x : Int) (xs : List Int) (hx : INT64_MIN ≤ x) :
    (x :: xs).foldl max INT64_MIN = xs.foldl max x := by
  simp [List.foldl_cons, max_eq_right hx]

theorem min?_cons_foldl (x : Int) (xs : List Int) : (x :: xs).min? = some (xs.foldl min x) := rfl

theorem max?_cons_foldl (x : Int) (xs : List Int) : (x :: xs).max? = some (xs.foldl max x) := rfl

theorem scanSecondsFrom_triple {σ : Type} (L : Lib σ) (lib : σ) (n : Nat)
    (l : List StreamMetadata) :
    (scanSecondsFrom L lib n l).map scanTriple = l.map scanTriple := by
  induction l generalizing n with
  | nil => rfl
  | cons m ms ih =>
    unfold scanSecondsFrom
    simp only [List.map_cons, ih]
    congr 1
    cases h1 : m.minPtsFromScan <;> cases h2 : m.maxPtsFromScan <;> simp [scanTriple, h1, h2]


theorem scan_triple {σ : Type} (L : Lib σ) (fuel : Nat) (d d' : VideoDecoder σ)
    (ps : List AVPacket) (hfresh : isFresh d) (hps : packetsRead L fuel d.lib = some ps)
    (hscan : scanFileAndUpdateMetadataAndIndex L fuel d = (Result.ok (), d'))
    (k : Nat) (m : StreamMetadata) (hm : d'.containerMetadata.streams[k]? = some m) :
    m.numFramesFromScan =
      (if retainedPackets ps k = [] then none
       else some ((retainedPackets ps k).length : Int)) ∧
    m.minPtsFromScan =
      (if retainedPackets ps k = [] then none
       else some (((retainedPackets ps k).map (fun p => p.pts)).foldl min INT64_MAX)) ∧
    m.maxPtsFromScan =
      (if retainedPackets ps k = [] then none
       else some (((retainedPackets ps k).map
          (fun p => wrapInt64 (p.pts + p.duration))).foldl max INT64_MIN)) := by
  obtain ⟨ps', lib, hps', _, hmeta⟩ := scanFile_ok L fuel d d' hscan
  rw [hps] at hps'
  have hpe : ps' = ps := by injection hps' with h; exact h.symm
  subst hpe
  have h1 := congrArg (fun l => l[k]?) (scanSecondsFrom_triple L lib 0
    (scanPackets ps' d).containerMetadata.streams)
  simp only [List.getElem?_map] at h1
  rw [← hmeta, hm, metadata_scanPackets] at h1
  cases h0 : d.containerMetadata.streams[k]? with
  | none => rw [h0] at h1; simp at h1
  | some m0 =>
    rw [h0] at h1
    simp only [Option.map_some'] at h1
    have hm0 := hfresh.2 m0 (List.getElem?_mem h0)
    have ht : scanTriple m = scanTriple (scanFold (retainedPackets ps' k) m0) := by
      injection h1
    unfold scanTriple at ht
    rw [scanFold_numFrames, scanFold_minPts, scanFold_maxPts, hm0.1, hm0.2.1, hm0.2.2] at ht
    have e1 := congrArg Prod.fst ht
    have e2 := congrArg (fun t => t.2.1) ht
    have e3 := congrArg (fun t => t.2.2) ht
    simp only at e1 e2 e3
    refine ⟨?_, ?_, ?_⟩
    · rw [e1]; split <;> simp
    · rw [e2]; split <;> simp
    · rw [e3]; split <;> simp

theorem scan_allFrames {σ : Type} (L : Lib σ) (fuel : Nat) (d d' : VideoDecoder σ)
    (ps : List AVPacket) (hfresh : isFresh d) (hps : packetsRead L fuel d.lib = some ps)
    (hscan : scanFileAndUpdateMetadataAndIndex L fuel d = (Result.ok (), d')) (i : Int) :
    (mapAt d'.streams_ i).allFrames =
      sortByPts ((retainedPackets ps i).map (fun q => ⟨q.pts⟩)) := by
  obtain ⟨ps', lib, hps', hstreams, _⟩ := scanFile_ok L fuel d d' hscan
  rw [hps] at hps'
  have hpe : ps' = ps := by injection hps' with h; exact h.symm
  subst hpe
  rw [hstreams, mapAt_sortStreams]
  simp only [sortEntry]
  rw [allFrames_scanPackets, hfresh.1]
  simp [mapAt]

theorem foldl_min_le (l : List Int) (a : Int) : l.foldl min a ≤ a := by
  induction l generalizing a with
  | nil => simp
  | cons x xs ih =>
    simp only [List.foldl_cons]
    exact le_trans (ih _) (min_le_left _ _)

theorem le_foldl_max (l : List Int) (a : Int) : a ≤ l.foldl max a := by
  induction l generalizing a with
  | nil => simp
  | cons x xs ih =>
    simp only [List.foldl_cons]
    exact le_trans (le_max_left _ _) (ih _)


/-! ## Claims on the index scan -/

theorem scan_sorted_of_ok {σ : Type} (L : Lib σ) (fuel : Nat)
    (d d' : VideoDecoder σ) (hfresh : isFresh d)
    (hscan : scanFileAndUpdateMetadataAndIndex L fuel d = (Result.ok (), d')) :
    ∀ e ∈ d'.streams_, sortedByPts e.2.allFrames ∧ sortedByPts e.2.keyFrames ∧
      ∀ k ∈ e.2.keyFrames, ∃ a ∈ e.2.allFrames, a.pts = k.pts := by
  obtain ⟨ps, lib, _, hstreams, _⟩ := scanFile_ok L fuel d d' hscan
  intro e he
  rw [hstreams] at he
  unfold sortStreams at he
  rw [List.mem_map] at he
  obtain ⟨e0, he0, rfl⟩ := he
  have hsub : keyFramesSubset (scanPackets ps d).streams_ := by
    apply keyFramesSubset_scanPackets
    rw [hfresh.1]
    intro e he; simp at he
  refine ⟨sorted_sortByPts _, sorted_sortByPts _, ?_⟩
  intro k hk
  simp only [sortEntry] at hk ⊢
  exact ⟨k, mem_sortByPts.2 (hsub e0 he0 k (mem_sortByPts.1 hk)), rfl⟩

/-- C6: on a fresh decoder, when the library delivers a finite packet sequence
and then end of file within the fuel, and the rewind succeeds, the scan
returns, and afterwards every entry of the per-stream table has `allFrames`
and `keyFrames` in ascending `pts` order, and every `pts` of `keyFrames`
occurs in `allFrames` of the same entry. -/
theorem scan_sorts_frames_and_keeps_keyframes_among_frames {σ : Type} (L : Lib σ) (fuel : Nat)
    (d : VideoDecoder σ) (ps : List AVPacket) (hfresh : isFresh d)
    (hps : packetsRead L fuel d.lib = some ps)
    (hseek : 0 ≤ (L.seekFile (libAfterReads L fuel d.lib) 0 INT64_MIN 0 0).1) :
    ∃ d', scanFileAndUpdateMetadataAndIndex L fuel d = (Result.ok (), d') ∧
      ∀ e ∈ d'.streams_, sortedByPts e.2.allFrames ∧ sortedByPts e.2.keyFrames ∧
        ∀ k ∈ e.2.keyFrames, ∃ a ∈ e.2.allFrames, a.pts = k.pts := by
  obtain ⟨d', hd'⟩ := scanFile_returns L fuel d ps hps hseek
  exact ⟨d', hd', scan_sorted_of_ok L fuel d d' hfresh hd'⟩

/-- Witness of C6: the scan of `unsortedContainer`, whose packets are read
with `pts` 2, 0, 1. -/
theorem scan_sorts_frames_and_keeps_keyframes_among_frames_witness :
    isFresh (createFromFilePath refLib unsortedContainer).2 ∧
    packetsRead refLib 10 unsortedContainer = some unsortedContainer.packets ∧
    ∃ d', scanFileAndUpdateMetadataAndIndex refLib 10
        (createFromFilePath refLib unsortedContainer).2 = (Result.ok (), d') ∧
      ∀ e ∈ d'.streams_, sortedByPts e.2.allFrames ∧ sortedByPts e.2.keyFrames ∧
        ∀ k ∈ e.2.keyFrames, ∃ a ∈ e.2.allFrames, a.pts = k.pts :=
  ⟨by decide, by rfl,
    scan_sorts_frames_and_keeps_keyframes_among_frames refLib 10
      (createFromFilePath refLib unsortedContainer).2 unsortedContainer.packets
      (by decide) (by rfl) (by decide)⟩

theorem scan_metadata_of_ok {σ : Type} (L : Lib σ) (fuel : Nat)
    (d d' : VideoDecoder σ) (ps : List AVPacket) (hfresh : isFresh d)
    (hps : packetsRead L fuel d.lib = some ps)
    (hrange : ∀ p ∈ ps, isInt64 p.pts ∧ isInt64 (p.pts + p.duration))
    (hscan : scanFileAndUpdateMetadataAndIndex L fuel d = (Result.ok (), d')) :
    ∀ (i : Nat) (m : StreamMetadata), d'.containerMetadata.streams[i]? = some m →
      m.minPtsFromScan = ((retainedPackets ps i).map (fun p => p.pts)).min? ∧
      m.maxPtsFromScan = ((retainedPackets ps i).map (fun p => p.pts + p.duration)).max? ∧
      m.numFramesFromScan =
        (if retainedPackets ps i = [] then none
         else some ((retainedPackets ps i).length : Int)) ∧
      (mapAt d'.streams_ i).allFrames.length = (retainedPackets ps i).length ∧
      (retainedPackets ps i = [] →
        m.minPtsFromScan = none ∧ m.maxPtsFromScan = none ∧ m.numFramesFromScan = none) := by
  intro i m hm
  obtain ⟨h1, h2, h3⟩ := scan_triple L fuel d d' ps hfresh hps hscan i m hm
  have hall := scan_allFrames L fuel d d' ps hfresh hps hscan i
  have hR : ∀ p ∈ retainedPackets ps i, isInt64 p.pts ∧ isInt64 (p.pts + p.duration) := by
    intro p hp
    exact hrange p (List.mem_filter.1 hp).1
  refine ⟨?_, ?_, h1, ?_, ?_⟩
  · rw [h2]
    cases hl : retainedPackets ps i with
    | nil => simp
    | cons p rest =>
      have hp := (hR p (by rw [hl]; exact List.mem_cons_self _ _)).1
      simp only [List.map_cons, reduceCtorEq, if_false, min?_cons_foldl]
      rw [foldl_min_eq_min? _ _ hp.2]
  · rw [h3]
    have hmap : (retainedPackets ps i).map (fun p => wrapInt64 (p.pts + p.duration)) =
        (retainedPackets ps i).map (fun p => p.pts + p.duration) := by
      apply List.map_congr_left
      intro p hp
      exact wrapInt64_of_isInt64 (hR p hp).2
    rw [hmap]
    cases hl : retainedPackets ps i with
    | nil => simp
    | cons p rest =>
      have hp := (hR p (by rw [hl]; exact List.mem_cons_self _ _)).2
      simp only [List.map_cons, reduceCtorEq, if_false, max?_cons_foldl]
      rw [foldl_max_eq_max? _ _ hp.1]
  · rw [hall, length_sortByPts, List.length_map]
  · intro hnil
    rw [h1, h2, h3, if_pos hnil, if_pos hnil, if_pos hnil]
    exact ⟨rfl, rfl, rfl⟩

/-- C7: on a fresh decoder, when the library delivers the finite packet
sequence `ps` and then end of file within the fuel, and the rewind succeeds,
the scan returns, and afterwards, for every stream of the container,
`minPtsFromScan` is the least `pts`, `maxPtsFromScan` the greatest
`pts + duration` and `numFramesFromScan` the number of the packets of `ps`
that belong to the stream and are not flagged discard; that number is the
length of the stream's `allFrames`; all three are absent when there is no such
packet.  Packet fields are `int64_t` values and `pts + duration` does not
overflow. -/
theorem scan_metadata_is_min_max_count {σ : Type} (L : Lib σ) (fuel : Nat)
    (d : VideoDecoder σ) (ps : List AVPacket) (hfresh : isFresh d)
    (hps : packetsRead L fuel d.lib = some ps)
    (hseek : 0 ≤ (L.seekFile (libAfterReads L fuel d.lib) 0 INT64_MIN 0 0).1)
    (hrange : ∀ p ∈ ps, isInt64 p.pts ∧ isInt64 (p.pts + p.duration)) :
    ∃ d', scanFileAndUpdateMetadataAndIndex L fuel d = (Result.ok (), d') ∧
      ∀ (i : Nat) (m : StreamMetadata), d'.containerMetadata.streams[i]? = some m →
        m.minPtsFromScan = ((retainedPackets ps i).map (fun p => p.pts)).min? ∧
        m.maxPtsFromScan = ((retainedPackets ps i).map (fun p => p.pts + p.duration)).max? ∧
        m.numFramesFromScan =
          (if retainedPackets ps i = [] then none
           else some ((retainedPackets ps i).length : Int)) ∧
        (mapAt d'.streams_ i).allFrames.length = (retainedPackets ps i).length ∧
        (retainedPackets ps i = [] →
          m.minPtsFromScan = none ∧ m.maxPtsFromScan = none ∧ m.numFramesFromScan = none) := by
  obtain ⟨d', hd'⟩ := scanFile_returns L fuel d ps hps hseek
  exact ⟨d', hd', scan_metadata_of_ok L fuel d d' ps hfresh hps hrange hd'⟩

/-- Witness of C7: the scan of `unsortedContainer`. -/
theorem scan_metadata_is_min_max_count_witness :
    isFresh (createFromFilePath refLib unsortedContainer).2 ∧
    packetsRead refLib 10 unsortedContainer = some unsortedContainer.packets ∧
    ∃ d', scanFileAndUpdateMetadataAndIndex refLib 10
        (createFromFilePath refLib unsortedContainer).2 = (Result.ok (), d') ∧
      ∀ (i : Nat) (m : StreamMetadata), d'.containerMetadata.streams[i]? = some m →
        m.minPtsFromScan =
          ((retainedPackets unsortedContainer.packets i).map (fun p => p.pts)).min? ∧
        m.maxPtsFromScan =
          ((retainedPackets unsortedContainer.packets i).map
            (fun p => p.pts + p.duration)).max? ∧
        m.numFramesFromScan =
          (if retainedPackets unsortedContainer.packets i = [] then none
           else some ((retainedPackets unsortedContainer.packets i).length : Int)) ∧
        (mapAt d'.streams_ i).allFrames.length =
          (retainedPackets unsortedContainer.packets i).length ∧
        (retainedPackets unsortedContainer.packets i = [] →
          m.minPtsFromScan = none ∧ m.maxPtsFromScan = none ∧ m.numFramesFromScan = none) :=
  ⟨by decide, by rfl,
    scan_metadata_is_min_max_count refLib 10 (createFromFilePath refLib unsortedContainer).2
      unsortedContainer.packets (by decide) (by rfl) (by decide) (by decide)⟩

theorem foldl_min_le_of_mem (l : List Int) (a x : Int) (hx : x ∈ l) : l.foldl min a ≤ x := by
  induction l generalizing a with
  | nil => simp at hx
  | cons y ys ih =>
    simp only [List.foldl_cons]
    rcases List.mem_cons.1 hx with rfl | h
    · exact le_trans (foldl_min_le _ _) (min_le_right _ _)
    · exact ih _ h

theorem le_foldl_max_of_mem (l : List Int) (a x : Int) (hx : x ∈ l) : x ≤ l.foldl max a := by
  induction l generalizing a with
  | nil => simp at hx
  | cons y ys ih =>
    simp only [List.foldl_cons]
    rcases List.mem_cons.1 hx with rfl | h
    · exact le_trans (le_max_right _ _) (le_foldl_max _ _)
    · exact ih _ h

/-- C8, counterexample: after the scan of `negativeDurationContainer`, stream 0
has `minPtsFromScan = 0` above `maxPtsFromScan = -5`, stream 1 has no
`numFramesFromScan`, and so the invariant fails for both streams. -/
theorem scan_invariant_fails_for_negative_duration_and_empty_stream :
    (create_from_file refLib 10 negativeDurationContainer).1 = Result.ok () ∧
    (create_from_file refLib 10 negativeDurationContainer).2.containerMetadata.streams.map
      (fun m => (m.numFramesFromScan, m.minPtsFromScan, m.maxPtsFromScan)) =
        [(some 1, some 0, some (-5)), (none, none, none)] ∧
    ∀ m ∈ (create_from_file refLib 10 negativeDurationContainer).2.containerMetadata.streams,
      ¬ scanInvariant m := by
  refine ⟨by rfl, by rfl, ?_⟩
  intro m hm
  have h : (create_from_file refLib 10 negativeDurationContainer).2.containerMetadata.streams =
      [{ streamIndex := 0, mediaType := AVMediaType.video, codecName := some "h264",
         bitRate := some 0, numFramesFromScan := some 1, minPtsFromScan := some 0,
         maxPtsFromScan := some (-5), minPtsSecondsFromScan := some ⟨0, 1⟩,
         maxPtsSecondsFromScan := some ⟨-5, 1⟩ },
       { streamIndex := 1, mediaType := AVMediaType.video, codecName := some "h264",
         bitRate := some 0 }] := by rfl
  rw [h] at hm
  simp only [List.mem_cons, List.mem_singleton, List.not_mem_nil, or_false] at hm
  rcases hm with rfl | rfl
  · rintro ⟨_, lo, hi, hlo, hhi, hle⟩
    simp only [Option.some.injEq] at hlo hhi
    omega
  · rintro ⟨⟨n, hn, _⟩, _⟩
    simp at hn

theorem scan_invariant_of_ok {σ : Type} (L : Lib σ) (fuel : Nat)
    (d d' : VideoDecoder σ) (ps : List AVPacket) (hfresh : isFresh d)
    (hps : packetsRead L fuel d.lib = some ps)
    (hscan : scanFileAndUpdateMetadataAndIndex L fuel d = (Result.ok (), d')) :
    ∀ (i : Nat) (m : StreamMetadata), d'.containerMetadata.streams[i]? = some m →
      (retainedPackets ps i ≠ [] →
        (∃ n, m.numFramesFromScan = some n ∧ 1 ≤ n) ∧
        ((∃ p ∈ retainedPackets ps i, 0 ≤ p.duration ∧ isInt64 (p.pts + p.duration)) →
          ∃ lo hi, m.minPtsFromScan = some lo ∧ m.maxPtsFromScan = some hi ∧ lo ≤ hi)) ∧
      (retainedPackets ps i = [] →
        m.numFramesFromScan = none ∧ m.minPtsFromScan = none ∧ m.maxPtsFromScan = none) := by
  intro i m hm
  obtain ⟨h1, h2, h3⟩ := scan_triple L fuel d d' ps hfresh hps hscan i m hm
  refine ⟨?_, fun hnil => ?_⟩
  swap
  · rw [if_pos hnil] at h1 h2 h3
    exact ⟨h1, h2, h3⟩
  intro hne
  rw [if_neg hne] at h1 h2 h3
  refine ⟨⟨_, h1, ?_⟩, ?_⟩
  · have : 0 < (retainedPackets ps i).length := List.length_pos.2 hne
    omega
  · rintro ⟨p, hp, hdur, hfit⟩
    refine ⟨_, _, h2, h3, ?_⟩
    have hlo := foldl_min_le_of_mem ((retainedPackets ps i).map (fun p => p.pts)) INT64_MAX p.pts
      (List.mem_map.2 ⟨p, hp, rfl⟩)
    have hhi := le_foldl_max_of_mem
      ((retainedPackets ps i).map (fun p => wrapInt64 (p.pts + p.duration))) INT64_MIN
      (wrapInt64 (p.pts + p.duration)) (List.mem_map.2 ⟨p, hp, rfl⟩)
    rw [wrapInt64_of_isInt64 hfit] at hhi
    omega

/-- C8, amended: on a fresh decoder, when the library delivers the finite
packet sequence `ps` and then end of file within the fuel, and the rewind
succeeds, the scan returns, and afterwards every stream with at least one
packet not flagged discard has `numFramesFromScan >= 1`, and has
`minPtsFromScan <= maxPtsFromScan` when one of those packets has a
non-negative duration whose sum with the `pts` fits in 64 bits; for a stream
without such a packet the three fields are absent. -/
theorem scan_invariant_for_streams_with_packets {σ : Type} (L : Lib σ) (fuel : Nat)
    (d : VideoDecoder σ) (ps : List AVPacket) (hfresh : isFresh d)
    (hps : packetsRead L fuel d.lib = some ps)
    (hseek : 0 ≤ (L.seekFile (libAfterReads L fuel d.lib) 0 INT64_MIN 0 0).1) :
    ∃ d', scanFileAndUpdateMetadataAndIndex L fuel d = (Result.ok (), d') ∧
      ∀ (i : Nat) (m : StreamMetadata), d'.containerMetadata.streams[i]? = some m →
        (retainedPackets ps i ≠ [] →
          (∃ n, m.numFramesFromScan = some n ∧ 1 ≤ n) ∧
          ((∃ p ∈ retainedPackets ps i, 0 ≤ p.duration ∧ isInt64 (p.pts + p.duration)) →
            ∃ lo hi, m.minPtsFromScan = some lo ∧ m.maxPtsFromScan = some hi ∧ lo ≤ hi)) ∧
        (retainedPackets ps i = [] →
          m.numFramesFromScan = none ∧ m.minPtsFromScan = none ∧ m.maxPtsFromScan = none) := by
  obtain ⟨d', hd'⟩ := scanFile_returns L fuel d ps hps hseek
  exact ⟨d', hd', scan_invariant_of_ok L fuel d d' ps hfresh hps hd'⟩

/-- Witness of C8, amended: the scan of `unsortedContainer`, whose stream 0 has
three packets that are kept and whose stream 1 has none. -/
theorem scan_invariant_for_streams_with_packets_witness :
    isFresh (createFromFilePath refLib unsortedContainer).2 ∧
    packetsRead refLib 10 unsortedContainer = some unsortedContainer.packets ∧
    (retainedPackets unsortedContainer.packets 0).length = 3 ∧
    retainedPackets unsortedContainer.packets 1 = [] ∧
    ∃ d', scanFileAndUpdateMetadataAndIndex refLib 10
        (createFromFilePath refLib unsortedContainer).2 = (Result.ok (), d') ∧
      ∀ (i : Nat) (m : StreamMetadata), d'.containerMetadata.streams[i]? = some m →
        (retainedPackets unsortedContainer.packets i ≠ [] →
          (∃ n, m.numFramesFromScan = some n ∧ 1 ≤ n) ∧
          ((∃ p ∈ retainedPackets unsortedContainer.packets i,
              0 ≤ p.duration ∧ isInt64 (p.pts + p.duration)) →
            ∃ lo hi, m.minPtsFromScan = some lo ∧ m.maxPtsFromScan = some hi ∧ lo ≤ hi)) ∧
        (retainedPackets unsortedContainer.packets i = [] →
          m.numFramesFromScan = none ∧ m.minPtsFromScan = none ∧ m.maxPtsFromScan = none) :=
  ⟨by decide, by rfl, by decide, by decide,
    scan_invariant_for_streams_with_packets refLib 10
      (createFromFilePath refLib unsortedContainer).2 unsortedContainer.packets
      (by decide) (by rfl) (by decide)⟩

/-! ## Lemmas on the decode pump -/

theorem LoopFrame.refl {σ : Type} (d : VideoDecoder σ) : LoopFrame d d :=
  ⟨rfl, rfl, rfl, fun _ => rfl, fun _ h => h, rfl, rfl, rfl⟩

theorem LoopFrame.trans {σ : Type} {d1 d2 d3 : VideoDecoder σ} (h12 : LoopFrame d1 d2)
    (h23 : LoopFrame d2 d3) : LoopFrame d1 d3 :=
  ⟨h23.active.trans h12.active, h23.metadata.trans h12.metadata, h23.desired.trans h12.desired,
   fun k => (h23.entry k).trans (h12.entry k), fun k h => h23.count k (h12.count k h),
   h23.seeksAttempted.trans h12.seeksAttempted, h23.seeksSkipped.trans h12.seeksSkipped,
   h23.flushes.trans h12.flushes⟩

theorem LoopFrame.touch {σ : Type} (d : VideoDecoder σ) (k : Int) (lib : σ) :
    LoopFrame d { d with lib := lib, streams_ := mapTouch d.streams_ k } :=
  ⟨rfl, rfl, rfl, fun j => mapAt_mapTouch d.streams_ k j,
   fun j h => (mapCount_mapTouch_ne_zero d.streams_ k j).2 (Or.inr h), rfl, rfl, rfl⟩

theorem receiveFromActiveStreams_frame {σ : Type} (L : Lib σ) (l : List Int) (st : Int)
    (fr : AVFrame) (d : VideoDecoder σ) :
    LoopFrame d (receiveFromActiveStreams L l st fr d).2 := by
  induction l generalizing st fr d with
  | nil => exact LoopFrame.refl d
  | cons s rest ih =>
    unfold receiveFromActiveStreams
    simp only []
    split
    · exact LoopFrame.touch d s _
    · split
      · exact LoopFrame.touch d s _
      · exact (LoopFrame.touch d s _).trans (ih _ _ _)

theorem sendNullPackets_frame {σ : Type} (L : Lib σ) (l : List Int) (st : Int)
    (d : VideoDecoder σ) : LoopFrame d (sendNullPackets L l st d).2 := by
  induction l generalizing st d with
  | nil => exact LoopFrame.refl d
  | cons s rest ih =>
    unfold sendNullPackets
    simp only []
    split
    · exact LoopFrame.touch d s _
    · exact (LoopFrame.touch d s _).trans (ih _ _)

theorem LoopFrame.stats {σ : Type} (d : VideoDecoder σ) (lib : σ) (a b c : Int) :
    LoopFrame d { d with lib := lib, decodeStats_ := { d.decodeStats_ with
      numFramesReceivedByDecoder := a, numPacketsRead := b, numPacketsSentToDecoder := c } } :=
  ⟨rfl, rfl, rfl, fun _ => rfl, fun _ h => h, rfl, rfl, rfl⟩

theorem decodeLoop_frame {σ : Type} (L : Lib σ) (f : VideoDecoder σ → Int → AVFrame → Bool)
    (fuel : Nat) (st : Int) (eof : Bool) (fr : AVFrame) (d : VideoDecoder σ) :
    LoopFrame d (decodeLoop L f fuel st eof fr d).2 := by
  induction fuel generalizing st eof fr d with
  | zero => exact LoopFrame.refl d
  | succ n ih =>
    unfold decodeLoop
    simp only []
    have hrc := receiveFromActiveStreams_frame L d.activeStreamIndices_ st fr d
    generalize receiveFromActiveStreams L d.activeStreamIndices_ st fr d = rc at hrc ⊢
    have h2 : LoopFrame d { rc.2 with
        decodeStats_ := { rc.2.decodeStats_ with
          numFramesReceivedByDecoder := rc.2.decodeStats_.numFramesReceivedByDecoder + 1 } } :=
      hrc.trans (LoopFrame.stats rc.2 rc.2.lib _ _ _)
    split
    · exact hrc
    · split
      · exact h2
      · split
        · exact h2.trans (ih _ _ _ _)
        · split
          · exact h2.trans (ih _ _ _ _)
          · have h3 : LoopFrame d { rc.2 with
                lib := (L.readFrame rc.2.lib).2.2
                decodeStats_ := { rc.2.decodeStats_ with
                  numFramesReceivedByDecoder := rc.2.decodeStats_.numFramesReceivedByDecoder + 1
                  numPacketsRead := rc.2.decodeStats_.numPacketsRead + 1 } } :=
              hrc.trans (LoopFrame.stats rc.2 _ _ _ _)
            split
            · have h4 := sendNullPackets_frame L rc.2.activeStreamIndices_
                (L.readFrame rc.2.lib).1 { rc.2 with
                  lib := (L.readFrame rc.2.lib).2.2
                  decodeStats_ := { rc.2.decodeStats_ with
                    numFramesReceivedByDecoder := rc.2.decodeStats_.numFramesReceivedByDecoder + 1
                    numPacketsRead := rc.2.decodeStats_.numPacketsRead + 1 } }
              split
              · exact h3.trans h4
              · exact (h3.trans h4).trans (ih _ _ _ _)
            · split
              · exact h3
              · split
                · exact h3.trans (ih _ _ _ _)
                · have h5 : LoopFrame d
                      { lib := (L.sendPacket (L.readFrame rc.2.lib).2.2
                          (L.readFrame rc.2.lib).2.1.stream_index
                          (some (L.readFrame rc.2.lib).2.1)).2
                        containerMetadata := rc.2.containerMetadata
                        streams_ := mapTouch rc.2.streams_ (L.readFrame rc.2.lib).2.1.stream_index
                        activeStreamIndices_ := rc.2.activeStreamIndices_
                        maybeDesiredPts_ := rc.2.maybeDesiredPts_
                        decodeStats_ := { rc.2.decodeStats_ with
                          numFramesReceivedByDecoder :=
                            rc.2.decodeStats_.numFramesReceivedByDecoder + 1
                          numPacketsRead := rc.2.decodeStats_.numPacketsRead + 1
                          numPacketsSentToDecoder :=
                            rc.2.decodeStats_.numPacketsSentToDecoder + 1 } } :=
                    hrc.trans ⟨rfl, rfl, rfl, fun j => mapAt_mapTouch _ _ j,
                      fun j h => (mapCount_mapTouch_ne_zero _ _ j).2 (Or.inr h), rfl, rfl, rfl⟩
                  split
                  · exact h5
                  · exact h5.trans (ih _ _ _ _)

theorem convertFrameToTensorUsingFilterGraph_frame {σ : Type} (L : Lib σ) (idx : Int)
    (fr : AVFrame) (d : VideoDecoder σ) :
    LoopFrame d (convertFrameToTensorUsingFilterGraph L idx fr d).2 := by
  unfold convertFrameToTensorUsingFilterGraph
  simp only []
  split
  · exact LoopFrame.touch d idx _
  · split
    · exact LoopFrame.touch d idx _
    · split
      · exact LoopFrame.touch d idx _
      · exact LoopFrame.touch d idx _

theorem convertAVFrameToDecodedOutput_frame {σ : Type} (L : Lib σ) (idx : Int)
    (fr : AVFrame) (d : VideoDecoder σ) :
    LoopFrame d (convertAVFrameToDecodedOutput L idx fr d).2 := by
  unfold convertAVFrameToDecodedOutput
  simp only []
  have ht : LoopFrame d { d with streams_ := mapTouch d.streams_ idx } :=
    LoopFrame.touch d idx d.lib
  have hc := convertFrameToTensorUsingFilterGraph_frame L idx fr
    { d with streams_ := mapTouch d.streams_ idx }
  split
  · split
    · rename_i heq
      rw [heq] at hc
      exact ht.trans hc
    · rename_i heq
      rw [heq] at hc
      exact ht.trans hc
    · rename_i heq
      rw [heq] at hc
      exact ht.trans hc
  · exact ht
  · exact ht

theorem CallFrame.same {σ : Type} (d : VideoDecoder σ) : CallFrame d d :=
  ⟨rfl, rfl, fun _ h => h, fun _ => rfl, fun _ => rfl, fun _ => rfl, fun _ => rfl⟩

theorem CallFrame.andThen {σ : Type} {d1 d2 d3 : VideoDecoder σ} (h12 : CallFrame d1 d2)
    (h23 : CallFrame d2 d3) : CallFrame d1 d3 :=
  ⟨h23.active.trans h12.active, h23.metadata.trans h12.metadata,
   fun k h => h23.count k (h12.count k h),
   fun k => (h23.timeBase k).trans (h12.timeBase k),
   fun k => (h23.allFrames k).trans (h12.allFrames k),
   fun k => (h23.keyFrames k).trans (h12.keyFrames k),
   fun k => (h23.options k).trans (h12.options k)⟩

theorem LoopFrame.toCallFrame {σ : Type} {d d' : VideoDecoder σ} (h : LoopFrame d d') :
    CallFrame d d' :=
  ⟨h.active, h.metadata, h.count, fun k => by rw [h.entry k], fun k => by rw [h.entry k],
   fun k => by rw [h.entry k], fun k => by rw [h.entry k]⟩

theorem finishDecode_frame {σ : Type} (L : Lib σ) (ex : LoopExit) (d : VideoDecoder σ) :
    CallFrame d (finishDecode L ex d).2 ∧
    (finishDecode L ex d).2.maybeDesiredPts_ = d.maybeDesiredPts_ ∧
    (finishDecode L ex d).2.decodeStats_.numSeeksAttempted = d.decodeStats_.numSeeksAttempted ∧
    (finishDecode L ex d).2.decodeStats_.numSeeksSkipped = d.decodeStats_.numSeeksSkipped ∧
    (finishDecode L ex d).2.decodeStats_.numFlushes = d.decodeStats_.numFlushes ∧
    ∀ k, (mapAt (finishDecode L ex d).2.streams_ k).discardFramesBeforePts =
      (mapAt d.streams_ k).discardFramesBeforePts := by
  unfold finishDecode
  split
  · exact ⟨CallFrame.same d, rfl, rfl, rfl, rfl, fun _ => rfl⟩
  · have hc := convertAVFrameToDecodedOutput_frame L ex.frameStreamIndex ex.frame
      { d with streams_ := mapModify d.streams_ ex.frameStreamIndex (setCurrentFrame ex.frame) }
    have hm : CallFrame d
        { d with streams_ := mapModify d.streams_ ex.frameStreamIndex (setCurrentFrame ex.frame) } := by
      refine ⟨rfl, rfl, fun k h => (mapCount_mapModify_ne_zero _ _ _ _).2 (Or.inr h), ?_, ?_, ?_, ?_⟩
      all_goals
        intro k
        simp only [mapAt_mapModify]
        split
        · rename_i hk; subst hk; rfl
        · rfl
    refine ⟨hm.andThen hc.toCallFrame, hc.desired, hc.seeksAttempted, hc.seeksSkipped, hc.flushes, ?_⟩
    intro k
    rw [hc.entry k]
    simp only [mapAt_mapModify]
    split
    · rename_i hk; subst hk; rfl
    · rfl

theorem withDiscard_withDiscard (s : Dbl) (e : StreamInfo) :
    withDiscard s (withDiscard s e) = withDiscard s e := rfl

theorem mapAt_setDiscardFramesBeforePts (s : Dbl) (l : List Int) (m : List (Int × StreamInfo))
    (k : Int) :
    mapAt (setDiscardFramesBeforePts s l m) k =
      if k ∈ l then withDiscard s (mapAt m k) else mapAt m k := by
  induction l generalizing m with
  | nil => simp [setDiscardFramesBeforePts]
  | cons x rest ih =>
    unfold setDiscardFramesBeforePts
    rw [ih, mapAt_mapModify]
    by_cases hkx : k = x
    · subst hkx
      by_cases hr : k ∈ rest
      · simp [hr, withDiscard_withDiscard]
      · simp [hr]
    · by_cases hr : k ∈ rest
      · simp [hr, hkx]
      · simp [hr, hkx]

theorem mapCount_setDiscardFramesBeforePts (s : Dbl) (l : List Int)
    (m : List (Int × StreamInfo)) (k : Int) (h : mapCount m k ≠ 0) :
    mapCount (setDiscardFramesBeforePts s l m) k ≠ 0 := by
  induction l generalizing m with
  | nil => exact h
  | cons x rest ih =>
    unfold setDiscardFramesBeforePts
    exact ih _ ((mapCount_mapModify_ne_zero m x k _).2 (Or.inr h))

theorem canWeAvoidSeekingForStream_withDiscard {σ : Type} (L : Lib σ) (lib : σ) (s : Dbl)
    (e : StreamInfo) (c t : Int) :
    canWeAvoidSeekingForStream L lib (withDiscard s e) c t =
      canWeAvoidSeekingForStream L lib e c t := rfl

theorem desiredPtsForStream_withDiscard (s s' : Dbl) (e : StreamInfo) :
    desiredPtsForStream s (withDiscard s' e) = desiredPtsForStream s e := rfl

theorem mustSeek_eq_needSeek {σ : Type} (L : Lib σ) (s : Dbl) (d d2 : VideoDecoder σ)
    (hlib : d2.lib = d.lib) (hactive : d2.activeStreamIndices_ = d.activeStreamIndices_)
    (hstreams : d2.streams_ = setDiscardFramesBeforePts s d.activeStreamIndices_ d.streams_) :
    mustSeek L s d2 = needSeek L s d := by
  unfold mustSeek needSeek
  rw [hlib, hactive, hstreams]
  have key : ∀ (l : List Int), (∀ k ∈ l, k ∈ d.activeStreamIndices_) →
      l.any (fun streamIndex =>
        !canWeAvoidSeekingForStream L d.lib
          (mapAt (setDiscardFramesBeforePts s d.activeStreamIndices_ d.streams_) streamIndex)
          (mapAt (setDiscardFramesBeforePts s d.activeStreamIndices_ d.streams_)
            streamIndex).currentPts
          (desiredPtsForStream s
            (mapAt (setDiscardFramesBeforePts s d.activeStreamIndices_ d.streams_) streamIndex))) =
      l.any (fun streamIndex =>
        !canWeAvoidSeekingForStream L d.lib (mapAt d.streams_ streamIndex)
          (mapAt d.streams_ streamIndex).currentPts
          (desiredPtsForStream s (mapAt d.streams_ streamIndex))) := by
    intro l
    induction l with
    | nil => intro _; rfl
    | cons x rest ih =>
      intro hl
      simp only [List.any_cons]
      rw [ih (fun k hk => hl k (List.mem_cons_of_mem _ hk)),
        mapAt_setDiscardFramesBeforePts, if_pos (hl x (List.mem_cons_self _ _))]
      rfl
  exact key _ (fun _ h => h)

theorem headD_mem {l : List Int} (h : l ≠ []) : l.headD 0 ∈ l := by
  cases l with
  | nil => exact absurd rfl h
  | cons x xs => simp

theorem maybeSeek_eq {σ : Type} (L : Lib σ) (d : VideoDecoder σ) (s : Dbl)
    (hs : d.maybeDesiredPts_ = some s) (hact : d.activeStreamIndices_ ≠ []) :
    maybeSeekToBeforeDesiredPts L d =
      if needSeek L s d = false then
        (Result.ok (), { afterDiscard s d with
          decodeStats_ := { (afterDiscard s d).decodeStats_ with
            numSeeksSkipped := d.decodeStats_.numSeeksSkipped + 1 } })
      else if plannedSeekStatus L s d < 0 then
        (Result.error ErrorKind.runtime_error "Could not seek file to pts",
          { afterDiscard s d with lib := plannedSeekLib L s d })
      else
        (Result.ok (), { afterDiscard s d with
          lib := flushAll L d.activeStreamIndices_ (plannedSeekLib L s d)
          decodeStats_ := { (afterDiscard s d).decodeStats_ with
            numFlushes := d.decodeStats_.numFlushes + 1 } }) := by
  have hlen : ¬ d.activeStreamIndices_.length = 0 := by
    intro h; exact hact (List.length_eq_zero.1 h)
  have hfirst : mapAt (setDiscardFramesBeforePts s d.activeStreamIndices_ d.streams_)
      (d.activeStreamIndices_.headD 0) =
        withDiscard s (mapAt d.streams_ (d.activeStreamIndices_.headD 0)) := by
    rw [mapAt_setDiscardFramesBeforePts, if_pos (headD_mem hact)]
  unfold maybeSeekToBeforeDesiredPts
  rw [if_neg hlen]
  split
  · rename_i hnone
    rw [hs] at hnone
    cases hnone
  · rename_i desired hsome
    have hds : desired = s := by
      rw [hs] at hsome; injection hsome with h; exact h.symm
    subst hds
    simp only []
    rw [mustSeek_eq_needSeek L desired d, hfirst]
    · by_cases hn : needSeek L desired d = true
      · simp only [hn, Bool.not_true, Bool.false_eq_true, if_false, Bool.true_eq_false]
        rfl
      · have hn' : needSeek L desired d = false := by simpa using hn
        simp only [hn', Bool.not_false, if_true]
        rfl
    · rfl
    · rfl
    · rfl

theorem CallFrame.congr {σ : Type} {d d1 d2 : VideoDecoder σ} (h : CallFrame d d1)
    (ha : d2.activeStreamIndices_ = d1.activeStreamIndices_)
    (hm : d2.containerMetadata = d1.containerMetadata) (hs : d2.streams_ = d1.streams_) :
    CallFrame d d2 :=
  ⟨ha.trans h.active, hm.trans h.metadata, fun k hk => by rw [hs]; exact h.count k hk,
   fun k => by rw [hs]; exact h.timeBase k, fun k => by rw [hs]; exact h.allFrames k,
   fun k => by rw [hs]; exact h.keyFrames k, fun k => by rw [hs]; exact h.options k⟩

theorem afterDiscard_callFrame {σ : Type} (s : Dbl) (d : VideoDecoder σ) :
    CallFrame d (afterDiscard s d) := by
  refine ⟨rfl, rfl, fun k h => mapCount_setDiscardFramesBeforePts s _ _ k h, ?_, ?_, ?_, ?_⟩
  all_goals
    intro k
    simp only [afterDiscard, mapAt_setDiscardFramesBeforePts]
    split <;> rfl

theorem consumePendingSeek_none {σ : Type} (L : Lib σ) (d : VideoDecoder σ)
    (h : d.maybeDesiredPts_ = none) : consumePendingSeek L d = (Result.ok (), d) := by
  unfold consumePendingSeek
  simp [h]

theorem consumePendingSeek_eq {σ : Type} (L : Lib σ) (d : VideoDecoder σ) (s : Dbl)
    (hs : d.maybeDesiredPts_ = some s) (hact : d.activeStreamIndices_ ≠ []) :
    consumePendingSeek L d =
      if needSeek L s d = false then
        (Result.ok (), { afterDiscard s d with
          maybeDesiredPts_ := none
          decodeStats_ := { (afterDiscard s d).decodeStats_ with
            numSeeksSkipped := d.decodeStats_.numSeeksSkipped + 1 } })
      else if plannedSeekStatus L s d < 0 then
        (Result.error ErrorKind.runtime_error "Could not seek file to pts",
          { afterDiscard s d with lib := plannedSeekLib L s d })
      else
        (Result.ok (), { afterDiscard s d with
          lib := flushAll L d.activeStreamIndices_ (plannedSeekLib L s d)
          maybeDesiredPts_ := none
          decodeStats_ := { (afterDiscard s d).decodeStats_ with
            numFlushes := d.decodeStats_.numFlushes + 1 } }) := by
  unfold consumePendingSeek
  rw [maybeSeek_eq L d s hs hact]
  have hsome : d.maybeDesiredPts_.isSome = true := by rw [hs]; rfl
  rw [if_pos hsome]
  by_cases hn : needSeek L s d = false
  · rw [if_pos hn, if_pos hn]
  · rw [if_neg hn, if_neg hn]
    by_cases hst : plannedSeekStatus L s d < 0
    · rw [if_pos hst, if_pos hst]
    · rw [if_neg hst, if_neg hst]

theorem consumePendingSeek_callFrame {σ : Type} (L : Lib σ) (d : VideoDecoder σ)
    (hact : d.activeStreamIndices_ ≠ []) :
    CallFrame d (consumePendingSeek L d).2 := by
  cases hs : d.maybeDesiredPts_ with
  | none => rw [consumePendingSeek_none L d hs]; exact CallFrame.same d
  | some s =>
    rw [consumePendingSeek_eq L d s hs hact]
    split
    · exact (afterDiscard_callFrame s d).congr rfl rfl rfl
    · split
      · exact (afterDiscard_callFrame s d).congr rfl rfl rfl
      · exact (afterDiscard_callFrame s d).congr rfl rfl rfl

theorem consumePendingSeek_not_outOfFuel {σ : Type} (L : Lib σ) (d : VideoDecoder σ)
    (hact : d.activeStreamIndices_ ≠ []) :
    (consumePendingSeek L d).1 ≠ Result.outOfFuel := by
  cases hs : d.maybeDesiredPts_ with
  | none => rw [consumePendingSeek_none L d hs]; simp
  | some s =>
    rw [consumePendingSeek_eq L d s hs hact]
    split
    · simp
    · split <;> simp

theorem getDecodedOutputWithFilter_callFrame {σ : Type} (L : Lib σ) (fuel : Nat)
    (f : VideoDecoder σ → Int → AVFrame → Bool) (d : VideoDecoder σ) :
    CallFrame d (getDecodedOutputWithFilter L fuel f d).2 := by
  unfold getDecodedOutputWithFilter
  split
  · exact CallFrame.same d
  · rename_i hlen
    have hact : (resetDecodeStats d).activeStreamIndices_ ≠ [] := by
      intro h
      apply hlen
      have : d.activeStreamIndices_ = [] := h
      rw [this]; rfl
    have h0 : CallFrame d (resetDecodeStats d) := (CallFrame.same d).congr rfl rfl rfl
    have h1 : CallFrame d (consumePendingSeek L (resetDecodeStats d)).2 :=
      h0.andThen (consumePendingSeek_callFrame L (resetDecodeStats d) hact)
    split
    · rename_i heq; rw [heq] at h1; exact h1
    · rename_i heq; rw [heq] at h1; exact h1
    · rename_i u d1 heq
      rw [heq] at h1
      have h2 := (decodeLoop_frame L f fuel AVSUCCESS false allocatedFrame d1).toCallFrame
      split
      · rename_i heq2; rw [heq2] at h2; exact h1.andThen h2
      · rename_i heq2; rw [heq2] at h2; exact h1.andThen h2
      · rename_i ex d2 heq2
        rw [heq2] at h2
        exact (h1.andThen h2).andThen (finishDecode_frame L ex d2).1

theorem consumePendingSeek_ok_desired {σ : Type} (L : Lib σ) (d : VideoDecoder σ)
    (hact : d.activeStreamIndices_ ≠ []) (u : Unit)
    (h : (consumePendingSeek L d).1 = Result.ok u) :
    (consumePendingSeek L d).2.maybeDesiredPts_ = none := by
  cases hs : d.maybeDesiredPts_ with
  | none => rw [consumePendingSeek_none L d hs]; exact hs
  | some s =>
    rw [consumePendingSeek_eq L d s hs hact] at h ⊢
    split
    · rfl
    · rename_i hn
      rw [if_neg hn] at h
      split
      · rename_i hst
        rw [if_pos hst] at h
        simp at h
      · rfl

theorem active_ne_nil_of_length {σ : Type} {d : VideoDecoder σ}
    (h : ¬ d.activeStreamIndices_.length = 0) : d.activeStreamIndices_ ≠ [] := by
  intro hnil
  apply h
  rw [hnil]
  rfl

theorem LoopFrame.seekCounters {σ : Type} {d d' : VideoDecoder σ} (h : LoopFrame d d') :
    seekCounters d'.decodeStats_ = seekCounters d.decodeStats_ := by
  unfold TorchCodec.seekCounters
  rw [h.seeksAttempted, h.seeksSkipped, h.flushes]

theorem getDecodedOutputWithFilter_seekCounters {σ : Type} (L : Lib σ) (fuel : Nat)
    (f : VideoDecoder σ → Int → AVFrame → Bool) (d : VideoDecoder σ)
    (hact : d.activeStreamIndices_ ≠ []) :
    seekCounters (getDecodedOutputWithFilter L fuel f d).2.decodeStats_ =
      seekCounters (consumePendingSeek L (resetDecodeStats d)).2.decodeStats_ := by
  have hlen : ¬ d.activeStreamIndices_.length = 0 := by
    intro h; exact hact (List.length_eq_zero.1 h)
  unfold getDecodedOutputWithFilter
  rw [if_neg hlen]
  split
  · rename_i heq; rw [heq]
  · rename_i heq; rw [heq]
  · rename_i u d1 heq
    rw [heq]
    have h2 := (decodeLoop_frame L f fuel AVSUCCESS false allocatedFrame d1).seekCounters
    split
    · rename_i heq2; rw [heq2] at h2; exact h2
    · rename_i heq2; rw [heq2] at h2; exact h2
    · rename_i ex d2 heq2
      rw [heq2] at h2
      have h3 := finishDecode_frame L ex d2
      rw [← h2]
      unfold seekCounters
      rw [h3.2.2.1, h3.2.2.2.1, h3.2.2.2.2.1]

theorem getDecodedOutputWithFilter_ok_state {σ : Type} (L : Lib σ) (fuel : Nat)
    (f : VideoDecoder σ → Int → AVFrame → Bool) (d d' : VideoDecoder σ) (o : DecodedOutput)
    (h : getDecodedOutputWithFilter L fuel f d = (Result.ok o, d')) :
    d'.maybeDesiredPts_ = none ∧ d'.activeStreamIndices_ ≠ [] := by
  have hcf := getDecodedOutputWithFilter_callFrame L fuel f d
  rw [h] at hcf
  unfold getDecodedOutputWithFilter at h
  split at h
  · simp at h
  · rename_i hlen
    have hact := active_ne_nil_of_length hlen
    refine ⟨?_, by rw [hcf.active]; exact hact⟩
    have hc := consumePendingSeek_ok_desired L (resetDecodeStats d) hact
    split at h
    · simp at h
    · simp at h
    · rename_i u d1 heq
      rw [heq] at hc
      have hd1 : d1.maybeDesiredPts_ = none := hc u rfl
      have h2 := decodeLoop_frame L f fuel AVSUCCESS false allocatedFrame d1
      split at h
      · simp at h
      · simp at h
      · rename_i ex d2 heq2
        rw [heq2] at h2
        have h3 := (finishDecode_frame L ex d2).2.1
        rw [h] at h3
        rw [h3, h2.desired, hd1]

/-! ## Claims on the decode stats -/

/-- C9: a decode call on a decoder with an active stream and a pending desired
PTS ends, whatever its outcome and fuel, with `numSeeksAttempted = 1`, and with
`(numSeeksSkipped, numFlushes) = (1, 0)` when `canWeAvoidSeekingForStream` holds
for every active stream, and `(0, 1)` when it fails for an active stream and the
library seek returns a non-negative status. -/
theorem decode_call_seek_stats {σ : Type} (L : Lib σ) (fuel : Nat)
    (f : VideoDecoder σ → Int → AVFrame → Bool) (d : VideoDecoder σ) (s : Dbl)
    (hact : d.activeStreamIndices_ ≠ []) (hs : d.maybeDesiredPts_ = some s) :
    ((∀ k ∈ d.activeStreamIndices_,
        canWeAvoidSeekingForStream L d.lib (mapAt d.streams_ k) (mapAt d.streams_ k).currentPts
          (desiredPtsForStream s (mapAt d.streams_ k)) = true) →
      (getDecodedOutputWithFilter L fuel f d).2.decodeStats_.numSeeksAttempted = 1 ∧
      (getDecodedOutputWithFilter L fuel f d).2.decodeStats_.numSeeksSkipped = 1 ∧
      (getDecodedOutputWithFilter L fuel f d).2.decodeStats_.numFlushes = 0) ∧
    ((∃ k ∈ d.activeStreamIndices_,
        canWeAvoidSeekingForStream L d.lib (mapAt d.streams_ k) (mapAt d.streams_ k).currentPts
          (desiredPtsForStream s (mapAt d.streams_ k)) = false) →
      0 ≤ plannedSeekStatus L s d →
      (getDecodedOutputWithFilter L fuel f d).2.decodeStats_.numSeeksAttempted = 1 ∧
      (getDecodedOutputWithFilter L fuel f d).2.decodeStats_.numSeeksSkipped = 0 ∧
      (getDecodedOutputWithFilter L fuel f d).2.decodeStats_.numFlushes = 1) := by
  have hcnt := getDecodedOutputWithFilter_seekCounters L fuel f d hact
  have heq := consumePendingSeek_eq L (resetDecodeStats d) s hs hact
  have hns : needSeek L s (resetDecodeStats d) = needSeek L s d := rfl
  have hps : plannedSeekStatus L s (resetDecodeStats d) = plannedSeekStatus L s d := rfl
  rw [hns, hps] at heq
  constructor
  · intro hall
    have hn : needSeek L s d = false := by
      unfold needSeek
      rw [List.any_eq_false]
      intro k hk
      simp [hall k hk]
    rw [if_pos hn] at heq
    rw [heq] at hcnt
    have e1 := congrArg Prod.fst hcnt
    have e2 := congrArg (fun t => t.2.1) hcnt
    have e3 := congrArg (fun t => t.2.2) hcnt
    exact ⟨e1, e2, e3⟩
  · rintro ⟨k, hk, hfail⟩ hst
    have hn : ¬ needSeek L s d = false := by
      intro hn
      unfold needSeek at hn
      rw [List.any_eq_false] at hn
      have := hn k hk
      simp [hfail] at this
    have hst' : ¬ plannedSeekStatus L s d < 0 := by omega
    rw [if_neg hn, if_neg hst'] at heq
    rw [heq] at hcnt
    have e1 := congrArg Prod.fst hcnt
    have e2 := congrArg (fun t => t.2.1) hcnt
    have e3 := congrArg (fun t => t.2.2) hcnt
    exact ⟨e1, e2, e3⟩

/-- Witness of C9: on `sixFrameDecoder`, `seekToPts(1)` stays under the keyframe
of the current position and the call ends with stats `(1, 1, 0)`. -/
theorem decode_call_seek_stats_witness :
    (getDecodedOutputWithFilter refLib 20 nextFrameFilter
      (setCursorPtsInSeconds ⟨1, 1⟩ sixFrameDecoder)).2.decodeStats_.numSeeksAttempted = 1 ∧
    (getDecodedOutputWithFilter refLib 20 nextFrameFilter
      (setCursorPtsInSeconds ⟨1, 1⟩ sixFrameDecoder)).2.decodeStats_.numSeeksSkipped = 1 ∧
    (getDecodedOutputWithFilter refLib 20 nextFrameFilter
      (setCursorPtsInSeconds ⟨1, 1⟩ sixFrameDecoder)).2.decodeStats_.numFlushes = 0 :=
  (decode_call_seek_stats refLib 20 nextFrameFilter
    (setCursorPtsInSeconds ⟨1, 1⟩ sixFrameDecoder) ⟨1, 1⟩ (by decide) (by rfl)).1 (by decide)

/-- C10, counterexample: on `sixFrameDecoder`, `seekToPts(4)` followed by two
`getNextDecodedOutput` calls returns the frames at `pts` 4 and 5, and the second
call ends with `numSeeksSkipped = 0`, not 1. -/
theorem next_call_after_seek_has_no_skipped_seek :
    (getNextDecodedOutput refLib 20 (setCursorPtsInSeconds ⟨4, 1⟩ sixFrameDecoder)).1.value?.map
      (fun o => o.pts) = some 4 ∧
    (getNextDecodedOutput refLib 20 (getNextDecodedOutput refLib 20
      (setCursorPtsInSeconds ⟨4, 1⟩ sixFrameDecoder)).2).1.value?.map (fun o => o.pts) = some 5 ∧
    (getNextDecodedOutput refLib 20 (getNextDecodedOutput refLib 20
      (setCursorPtsInSeconds ⟨4, 1⟩ sixFrameDecoder)).2).2.decodeStats_.numSeeksSkipped = 0 ∧
    ¬ ((getNextDecodedOutput refLib 20 (getNextDecodedOutput refLib 20
        (setCursorPtsInSeconds ⟨4, 1⟩ sixFrameDecoder)).2).2.decodeStats_.numSeeksSkipped = 1 ∧
      (getNextDecodedOutput refLib 20 (getNextDecodedOutput refLib 20
        (setCursorPtsInSeconds ⟨4, 1⟩ sixFrameDecoder)).2).2.decodeStats_.numFlushes = 0) := by
  decide

/-- C10, amended: after a decode call that returned a frame, a following
`getNextDecodedOutput` call with no `seekToPts` in between ends, whatever its
outcome and fuel, with `numSeeksAttempted = 0`, `numSeeksSkipped = 0` and
`numFlushes = 0`. -/
theorem next_call_after_decode_has_zero_seek_stats {σ : Type} (L : Lib σ) (fuel fuel' : Nat)
    (f : VideoDecoder σ → Int → AVFrame → Bool) (d d1 : VideoDecoder σ) (o : DecodedOutput)
    (h : getDecodedOutputWithFilter L fuel f d = (Result.ok o, d1)) :
    (getNextDecodedOutput L fuel' d1).2.decodeStats_.numSeeksAttempted = 0 ∧
    (getNextDecodedOutput L fuel' d1).2.decodeStats_.numSeeksSkipped = 0 ∧
    (getNextDecodedOutput L fuel' d1).2.decodeStats_.numFlushes = 0 := by
  obtain ⟨hnone, hact⟩ := getDecodedOutputWithFilter_ok_state L fuel f d d1 o h
  have hcnt := getDecodedOutputWithFilter_seekCounters L fuel' nextFrameFilter d1 hact
  rw [consumePendingSeek_none L (resetDecodeStats d1) hnone] at hcnt
  have e1 := congrArg Prod.fst hcnt
  have e2 := congrArg (fun t => t.2.1) hcnt
  have e3 := congrArg (fun t => t.2.2) hcnt
  exact ⟨e1, e2, e3⟩

/-- Witness of C10, amended: the call after `seekToPts(4); getNextDecodedOutput()`
on `sixFrameDecoder`. -/
theorem next_call_after_decode_has_zero_seek_stats_witness :
    (getNextDecodedOutput refLib 20 (getNextDecodedOutput refLib 20
      (setCursorPtsInSeconds ⟨4, 1⟩ sixFrameDecoder)).2).2.decodeStats_.numSeeksAttempted = 0 ∧
    (getNextDecodedOutput refLib 20 (getNextDecodedOutput refLib 20
      (setCursorPtsInSeconds ⟨4, 1⟩ sixFrameDecoder)).2).2.decodeStats_.numSeeksSkipped = 0 ∧
    (getNextDecodedOutput refLib 20 (getNextDecodedOutput refLib 20
      (setCursorPtsInSeconds ⟨4, 1⟩ sixFrameDecoder)).2).2.decodeStats_.numFlushes = 0 :=
  next_call_after_decode_has_zero_seek_stats refLib 20 20 nextFrameFilter
    (setCursorPtsInSeconds ⟨4, 1⟩ sixFrameDecoder) _
    ⟨0, AVMediaType.video, 4, ⟨4, 1⟩, some ⟨[3, 2, 4], ⟨4, 1⟩⟩⟩ (by rfl)

/-! ## Claims on the next-frame filter -/

theorem DiscardInv.finishDecode {σ : Type} {s : Dbl} {tb : Int → Int} {act : List Int}
    {d : VideoDecoder σ} (L : Lib σ) (ex : LoopExit) (h : DiscardInv s tb act d) :
    DiscardInv s tb act (finishDecode L ex d).2 := by
  obtain ⟨ha, htb, hp⟩ := h
  obtain ⟨hcf, hdes, _, _, _, hdisc⟩ := finishDecode_frame L ex d
  refine ⟨hcf.active.trans ha, fun k => by rw [hcf.timeBase k]; exact htb k, ?_⟩
  rcases hp with hp | hp
  · exact Or.inl (hdes.trans hp)
  · exact Or.inr ⟨hdes.trans hp.1, fun k hk => by rw [hdisc k]; exact hp.2 k hk⟩

theorem refLib_receiveFrame_nonpos (lib : RefState) (i : Int) :
    (refLib.receiveFrame lib i).1 ≤ 0 := by
  unfold refLib
  simp only []
  split
  · show (-22 : Int) ≤ 0
    decide
  · split
    · show AVSUCCESS ≤ 0
      decide
    · split
      · show AVERROR_EOF ≤ 0
        decide
      · show AVERROR_EAGAIN ≤ 0
        decide

theorem set_append_replicate {α : Type} (pre : List α) (n : Nat) (x y : α) :
    (pre ++ List.replicate (n + 1) y).set pre.length x = (pre ++ [x]) ++ List.replicate n y := by
  induction pre with
  | nil => simp [List.replicate_succ]
  | cons a as ih => simpa using ih

theorem getNextDecodedOutput_callFrame {σ : Type} (L : Lib σ) (fuel : Nat) (s : Dbl)
    (d : VideoDecoder σ) :
    CallFrame d (getNextDecodedOutput L fuel (setCursorPtsInSeconds s d)).2 := by
  have h := getDecodedOutputWithFilter_callFrame L fuel nextFrameFilter (setCursorPtsInSeconds s d)
  have h0 : CallFrame d (setCursorPtsInSeconds s d) := (CallFrame.same d).congr rfl rfl rfl
  exact h0.andThen h

theorem getFrameAtIndex_of_valid {σ : Type} (L : Lib σ) (fuel : Nat) (s i : Int)
    (d : VideoDecoder σ)
    (hrange : ¬ (s < 0 ∨ (d.containerMetadata.streams.length : Int) ≤ s))
    (hcount : mapCount d.streams_ s ≠ 0)
    (hidx : ¬ (i < 0 ∨ ((mapAt d.streams_ s).allFrames.length : Int) ≤ i)) :
    getFrameAtIndex L fuel s i d =
      getNextDecodedOutput L fuel
        (setCursorPtsInSeconds
          (Dbl.ofRatio ((mapAt d.streams_ s).allFrames.getD i.toNat ⟨0⟩).pts
            (mapAt d.streams_ s).timeBase.den) d) := by
  unfold getFrameAtIndex
  rw [if_neg hrange, if_neg hcount, if_neg hidx]

theorem getFrameAtIndex_of_invalid {σ : Type} (L : Lib σ) (fuel : Nat) (s i : Int)
    (d : VideoDecoder σ)
    (hrange : ¬ (s < 0 ∨ (d.containerMetadata.streams.length : Int) ≤ s))
    (hcount : mapCount d.streams_ s ≠ 0)
    (hidx : i < 0 ∨ ((mapAt d.streams_ s).allFrames.length : Int) ≤ i) :
    getFrameAtIndex L fuel s i d =
      (Result.error ErrorKind.runtime_error "Invalid frame index", d) := by
  unfold getFrameAtIndex
  rw [if_neg hrange, if_neg hcount, if_pos hidx]

theorem length_getFrameAtIndexSequence {σ : Type} (L : Lib σ) (fuel : Nat) (s : Int)
    (l : List Int) (d : VideoDecoder σ) (outs : List DecodedOutput)
    (h : (getFrameAtIndexSequence L fuel s l d).1 = Result.ok outs) :
    outs.length = l.length := by
  induction l generalizing d outs with
  | nil =>
    unfold getFrameAtIndexSequence at h
    injection h with h
    subst h
    rfl
  | cons i rest ih =>
    unfold getFrameAtIndexSequence at h
    split at h
    · rename_i o d1 hcall
      split at h
      · rename_i os d2 hseq
        injection h with h
        rw [← h, List.length_cons, List.length_cons, ih d1 os (by rw [hseq])]
      · cases h
      · cases h
    · cases h
    · cases h

theorem getFramesAtIndexesLoop_eq {σ : Type} (L : Lib σ) (fuel : Nat) (s : Int)
    (sz : List Int) (rest : List Int) (pre : List (Option Tensor)) (d : VideoDecoder σ)
    (hrange : ¬ (s < 0 ∨ (d.containerMetadata.streams.length : Int) ≤ s))
    (hcount : mapCount d.streams_ s ≠ 0)
    (hfit : framesFitSlots L fuel s (sz.drop 1) rest d = true) :
    getFramesAtIndexesLoop L fuel s rest pre.length
        ⟨sz, pre ++ List.replicate rest.length none⟩ d =
      match getFrameAtIndexSequence L fuel s rest d with
      | (Result.ok outs, d') => (Result.ok ⟨sz, pre ++ outs.map (fun o => o.frame)⟩, d')
      | (Result.error kind what, d') => (Result.error kind what, d')
      | (Result.outOfFuel, d') => (Result.outOfFuel, d') := by
  induction rest generalizing pre d with
  | nil =>
    unfold getFramesAtIndexesLoop getFrameAtIndexSequence
    simp
  | cons i rest ih =>
    unfold getFramesAtIndexesLoop getFrameAtIndexSequence
    unfold framesFitSlots at hfit
    by_cases hidx : i < 0 ∨ ((mapAt d.streams_ s).allFrames.length : Int) ≤ i
    · rw [if_pos hidx, getFrameAtIndex_of_invalid L fuel s i d hrange hcount hidx]
    · rw [if_neg hidx, getFrameAtIndex_of_valid L fuel s i d hrange hcount hidx]
      rw [getFrameAtIndex_of_valid L fuel s i d hrange hcount hidx] at hfit
      have hcf := getNextDecodedOutput_callFrame L fuel
        (Dbl.ofRatio ((mapAt d.streams_ s).allFrames.getD i.toNat ⟨0⟩).pts
          (mapAt d.streams_ s).timeBase.den) d
      simp only []
      generalize hcall : getNextDecodedOutput L fuel
        (setCursorPtsInSeconds (Dbl.ofRatio ((mapAt d.streams_ s).allFrames.getD i.toNat ⟨0⟩).pts
          (mapAt d.streams_ s).timeBase.den) d) = call at hfit hcf ⊢
      obtain ⟨r, d1⟩ := call
      cases r with
      | error kind what => rfl
      | outOfFuel => rfl
      | ok decoded =>
        simp only [Bool.and_eq_true] at hfit
        obtain ⟨hslot, hfit1⟩ := hfit
        cases hframe : decoded.frame with
        | none => rw [hframe] at hslot; simp at hslot
        | some frame =>
          rw [hframe] at hslot
          simp only [] at hslot
          simp only [hframe]
          rw [if_pos hslot]
          have hset := set_append_replicate pre rest.length (some frame) (none : Option Tensor)
          have hlen : pre.length + 1 = (pre ++ [some frame]).length := by simp
          simp only [List.length_cons]
          rw [hset, hlen]
          have hrange1 : ¬ (s < 0 ∨ (d1.containerMetadata.streams.length : Int) ≤ s) := by
            rw [hcf.metadata]; exact hrange
          rw [ih (pre ++ [some frame]) d1 hrange1 (hcf.count s hcount) hfit1]
          generalize getFrameAtIndexSequence L fuel s rest d1 = sq
          obtain ⟨q, d2⟩ := sq
          cases q with
          | ok outs => simp [hframe]
          | error kind what => rfl
          | outOfFuel => rfl

theorem getFramesAtIndexes_eq {σ : Type} (L : Lib σ) (fuel : Nat) (s : Int)
    (frameIndexes : List Int) (d : VideoDecoder σ)
    (hrange : 0 ≤ s ∧ s < (d.containerMetadata.streams.length : Int))
    (hentry : mapCount d.streams_ s ≠ 0)
    (hshape : (mapAt d.streams_ s).options.shape = "NHWC" ∨
      (mapAt d.streams_ s).options.shape = "NCHW")
    (halloc : L.tensorEmpty (batchSizes d s frameIndexes.length) = true)
    (hfit : framesFitSlots L fuel s ((batchSizes d s frameIndexes.length).drop 1)
      frameIndexes d = true) :
    getFramesAtIndexes L fuel s frameIndexes d =
      match getFrameAtIndexSequence L fuel s frameIndexes d with
      | (Result.ok outs, d') =>
        (Result.ok ⟨batchSizes d s frameIndexes.length, outs.map (fun o => o.frame)⟩, d')
      | (Result.error kind what, d') => (Result.error kind what, d')
      | (Result.outOfFuel, d') => (Result.outOfFuel, d') := by
  have hr : ¬ (s < 0 ∨ (d.containerMetadata.streams.length : Int) ≤ s) := by omega
  have hloop := getFramesAtIndexesLoop_eq L fuel s (batchSizes d s frameIndexes.length)
    frameIndexes [] d hr hentry hfit
  simp only [List.length_nil, List.nil_append] at hloop
  unfold getFramesAtIndexes
  rw [if_neg hr]
  simp only [mapTouch_of_count_ne_zero hentry]
  rcases hshape with hs | hs
  · have hb : batchSizes d s frameIndexes.length =
        [(frameIndexes.length : Int),
          (mapAt d.streams_ s).options.height.getD
            ((d.containerMetadata.streams.getD s.toNat {}).height.getD 0),
          (mapAt d.streams_ s).options.width.getD
            ((d.containerMetadata.streams.getD s.toNat {}).width.getD 0), 3] := by
      unfold batchSizes
      rw [if_pos hs]
    rw [hs]
    simp only [if_true]
    rw [← hb, halloc]
    simp only [Bool.not_true, Bool.false_eq_true, if_false, if_neg hentry]
    exact hloop
  · have hne : ¬ ("NCHW" = "NHWC") := by decide
    have hb : batchSizes d s frameIndexes.length =
        [(frameIndexes.length : Int), 3,
          (mapAt d.streams_ s).options.height.getD
            ((d.containerMetadata.streams.getD s.toNat {}).height.getD 0),
          (mapAt d.streams_ s).options.width.getD
            ((d.containerMetadata.streams.getD s.toNat {}).width.getD 0)] := by
      unfold batchSizes
      rw [hs, if_neg hne]
    rw [hs]
    simp only [if_neg hne, if_true]
    rw [← hb, halloc]
    simp only [Bool.not_true, Bool.false_eq_true, if_false, if_neg hentry]
    exact hloop

/-- C3, amended: on a stream `s` of the container that has an entry in the
per-stream table and whose `shape` option is `NHWC` or `NCHW`, when the
batched tensor can be allocated and every frame that the calls
`getFrameAtIndex(s, i1)`, ..., `getFrameAtIndex(s, in)` return can be assigned
to one of its slots, `getFramesAtIndexes(s, [i1..in])` ends in the state in
which the sequence of calls ends; it returns a batch exactly when all the
calls return, and slot `k` of the batch then holds the frame of the `k`-th
call, in the given order and with one slot for each index. -/
theorem getFramesAtIndexes_equals_getFrameAtIndex_sequence {σ : Type} (L : Lib σ) (fuel : Nat)
    (s : Int) (frameIndexes : List Int) (d : VideoDecoder σ)
    (hrange : 0 ≤ s ∧ s < (d.containerMetadata.streams.length : Int))
    (hentry : mapCount d.streams_ s ≠ 0)
    (hshape : (mapAt d.streams_ s).options.shape = "NHWC" ∨
      (mapAt d.streams_ s).options.shape = "NCHW")
    (halloc : L.tensorEmpty (batchSizes d s frameIndexes.length) = true)
    (hfit : framesFitSlots L fuel s ((batchSizes d s frameIndexes.length).drop 1)
      frameIndexes d = true) :
    (getFramesAtIndexes L fuel s frameIndexes d).2 =
      (getFrameAtIndexSequence L fuel s frameIndexes d).2 ∧
    (∀ outs, (getFrameAtIndexSequence L fuel s frameIndexes d).1 = Result.ok outs →
      (getFramesAtIndexes L fuel s frameIndexes d).1 =
        Result.ok ⟨batchSizes d s frameIndexes.length, outs.map (fun o => o.frame)⟩ ∧
      outs.length = frameIndexes.length) ∧
    ((∀ outs, (getFrameAtIndexSequence L fuel s frameIndexes d).1 ≠ Result.ok outs) →
      ∀ out, (getFramesAtIndexes L fuel s frameIndexes d).1 ≠ Result.ok out) := by
  have heq := getFramesAtIndexes_eq L fuel s frameIndexes d hrange hentry hshape halloc hfit
  have hlen := length_getFrameAtIndexSequence L fuel s frameIndexes d
  generalize getFrameAtIndexSequence L fuel s frameIndexes d = sq at heq hlen ⊢
  obtain ⟨q, d2⟩ := sq
  rw [heq]
  cases q with
  | ok outs =>
    refine ⟨rfl, fun outs1 h => ?_, fun h => absurd rfl (h outs)⟩
    injection h with h
    rw [← h]
    exact ⟨rfl, hlen outs rfl⟩
  | error kind what =>
    refine ⟨rfl, fun outs1 h => ?_, fun _ out h => ?_⟩
    · cases h
    · cases h
  | outOfFuel =>
    refine ⟨rfl, fun outs1 h => ?_, fun _ out h => ?_⟩
    · cases h
    · cases h

/-- C3, counterexample: (i) on a stream activated with `shape = "HWC"`,
`getFramesAtIndexes(0, [0])` throws while `getFrameAtIndex(0, 0)` returns the
frame at `pts` 0, and the two end in different states; (ii) after the scan of
`unsortedContainer`, whose stream 1 has no entry in the per-stream table,
`getFramesAtIndexes(1, [])` leaves an entry for stream 1 and the empty sequence
of `getFrameAtIndex` calls leaves none; (iii) on a stream activated with only
the `height` option set, `getFramesAtIndexes(0, [0])` throws when it writes the
frame into its slot while `getFrameAtIndex(0, 0)` returns the frame; (iv) on a
stream activated with negative `width` and `height` options,
`getFramesAtIndexes(0, [])` throws when it allocates the batched tensor while
the empty sequence of calls returns. -/
theorem batch_differs_from_sequence :
    (getFramesAtIndexes refLib 20 0 [0] sixFrameDecoderHWC).1 =
      Result.error ErrorKind.runtime_error "Unsupported frame shape" ∧
    (getFrameAtIndexSequence refLib 20 0 [0] sixFrameDecoderHWC).1.value?.map
      (fun os => os.map (fun o => o.pts)) = some [0] ∧
    (getFramesAtIndexes refLib 20 0 [0] sixFrameDecoderHWC).2 ≠
      (getFrameAtIndexSequence refLib 20 0 [0] sixFrameDecoderHWC).2 ∧
    mapCount (getFramesAtIndexes refLib 20 1 []
      (create_from_file refLib 10 unsortedContainer).2).2.streams_ 1 = 1 ∧
    mapCount (getFrameAtIndexSequence refLib 20 1 []
      (create_from_file refLib 10 unsortedContainer).2).2.streams_ 1 = 0 ∧
    (getFramesAtIndexes refLib 20 0 [0] sixFrameDecoderHeightOnly).1 =
      Result.error ErrorKind.check_failed "tensor sizes do not match the slot" ∧
    (getFrameAtIndexSequence refLib 20 0 [0] sixFrameDecoderHeightOnly).1.value?.map
      (fun os => os.map (fun o => o.pts)) = some [0] ∧
    (getFramesAtIndexes refLib 20 0 [] sixFrameDecoderNegativeSizes).1 =
      Result.error ErrorKind.check_failed "torch::empty rejected the sizes" ∧
    (getFrameAtIndexSequence refLib 20 0 [] sixFrameDecoderNegativeSizes).1 = Result.ok [] := by
  decide

/-- Witness of C3, amended: on `sixFrameDecoder` the three calls
`getFrameAtIndex(0, 3)`, `getFrameAtIndex(0, 3)`, `getFrameAtIndex(0, 1)` return
the frames at `pts` 3, 3 and 1, and `getFramesAtIndexes(0, [3, 3, 1])` returns
the batch of these three frames and ends in the same state. -/
theorem getFramesAtIndexes_equals_getFrameAtIndex_sequence_witness :
    ((0 : Int) ≤ 0 ∧ (0 : Int) < (sixFrameDecoder.containerMetadata.streams.length : Int)) ∧
    mapCount sixFrameDecoder.streams_ 0 ≠ 0 ∧
    ((mapAt sixFrameDecoder.streams_ 0).options.shape = "NHWC" ∨
      (mapAt sixFrameDecoder.streams_ 0).options.shape = "NCHW") ∧
    refLib.tensorEmpty (batchSizes sixFrameDecoder 0 [3, 3, 1].length) = true ∧
    framesFitSlots refLib 20 0 ((batchSizes sixFrameDecoder 0 [3, 3, 1].length).drop 1)
      [3, 3, 1] sixFrameDecoder = true ∧
    (getFrameAtIndexSequence refLib 20 0 [3, 3, 1] sixFrameDecoder).1.value?.map
      (fun os => os.map (fun o => o.pts)) = some [3, 3, 1] ∧
    (getFramesAtIndexes refLib 20 0 [3, 3, 1] sixFrameDecoder).1 =
      Result.ok ⟨[3, 3, 2, 4],
        [some ⟨[3, 2, 4], ⟨3, 1⟩⟩, some ⟨[3, 2, 4], ⟨3, 1⟩⟩, some ⟨[3, 2, 4], ⟨1, 1⟩⟩]⟩ ∧
    ((getFramesAtIndexes refLib 20 0 [3, 3, 1] sixFrameDecoder).2 =
      (getFrameAtIndexSequence refLib 20 0 [3, 3, 1] sixFrameDecoder).2 ∧
    (∀ outs, (getFrameAtIndexSequence refLib 20 0 [3, 3, 1] sixFrameDecoder).1 = Result.ok outs →
      (getFramesAtIndexes refLib 20 0 [3, 3, 1] sixFrameDecoder).1 =
        Result.ok ⟨batchSizes sixFrameDecoder 0 [3, 3, 1].length, outs.map (fun o => o.frame)⟩ ∧
      outs.length = [3, 3, 1].length) ∧
    ((∀ outs, (getFrameAtIndexSequence refLib 20 0 [3, 3, 1] sixFrameDecoder).1 ≠
        Result.ok outs) →
      ∀ out, (getFramesAtIndexes refLib 20 0 [3, 3, 1] sixFrameDecoder).1 ≠ Result.ok out)) :=
  ⟨by decide, by decide, by decide, by decide, by decide, by decide, by decide,
    getFramesAtIndexes_equals_getFrameAtIndex_sequence refLib 20 0 [3, 3, 1] sixFrameDecoder
      (by decide) (by decide) (by decide) (by decide) (by decide)⟩

/-! ## Claims on the index checks -/

/-- C11: `getFrameAtIndex(streamIndex, frameIndex)` throws whenever `streamIndex`
is outside `[0, containerMetadata_.streams.size())` or `frameIndex` is outside
`[0, streams_[streamIndex].allFrames.size())`, and the decoder is then exactly
as before the call: no desired PTS recorded, decode stats not reset, library
state untouched. -/
theorem getFrameAtIndex_rejects_invalid_indices {σ : Type} (L : Lib σ) (fuel : Nat)
    (streamIndex frameIndex : Int) (d : VideoDecoder σ)
    (h : (streamIndex < 0 ∨ (d.containerMetadata.streams.length : Int) ≤ streamIndex) ∨
      (frameIndex < 0 ∨
        ((mapAt d.streams_ streamIndex).allFrames.length : Int) ≤ frameIndex)) :
    ∃ kind what, getFrameAtIndex L fuel streamIndex frameIndex d = (Result.error kind what, d) := by
  unfold getFrameAtIndex
  by_cases h1 : streamIndex < 0 ∨ (d.containerMetadata.streams.length : Int) ≤ streamIndex
  · rw [if_pos h1]
    exact ⟨_, _, rfl⟩
  · rw [if_neg h1]
    by_cases h2 : mapCount d.streams_ streamIndex = 0
    · rw [if_pos h2]
      exact ⟨_, _, rfl⟩
    · rw [if_neg h2]
      have h3 : frameIndex < 0 ∨
          ((mapAt d.streams_ streamIndex).allFrames.length : Int) ≤ frameIndex := by
        rcases h with h | h
        · exact absurd h h1
        · exact h
      rw [if_pos h3]
      exact ⟨_, _, rfl⟩

/-- Witness of C11: `getFrameAtIndex(0, 6)` on `sixFrameDecoder`, whose stream 0
has six frames, with a seek to 2 seconds pending. -/
theorem getFrameAtIndex_rejects_invalid_indices_witness :
    (((0 : Int) < 0 ∨
        ((setCursorPtsInSeconds ⟨2, 1⟩ sixFrameDecoder).containerMetadata.streams.length : Int)
          ≤ 0) ∨
      ((6 : Int) < 0 ∨
        ((mapAt (setCursorPtsInSeconds ⟨2, 1⟩ sixFrameDecoder).streams_ 0).allFrames.length : Int)
          ≤ 6)) ∧
    ∃ kind what, getFrameAtIndex refLib 20 0 6 (setCursorPtsInSeconds ⟨2, 1⟩ sixFrameDecoder) =
      (Result.error kind what, setCursorPtsInSeconds ⟨2, 1⟩ sixFrameDecoder) :=
  ⟨by decide,
    getFrameAtIndex_rejects_invalid_indices refLib 20 0 6
      (setCursorPtsInSeconds ⟨2, 1⟩ sixFrameDecoder) (by decide)⟩

/-! ## Lemmas and claims on the options string -/

theorem splitPieces_cons (delims : List Char) (c : Char) (rest piece : List Char) :
    splitPieces delims (c :: rest) piece =
      if delims.contains c = true then piece :: splitPieces delims rest []
      else splitPieces delims rest (piece ++ [c]) := rfl

theorem splitPieces_ne_nil (delims s piece : List Char) : splitPieces delims s piece ≠ [] := by
  induction s generalizing piece with
  | nil => simp [splitPieces]
  | cons c rest ih =>
    rw [splitPieces_cons]
    split
    · simp
    · exact ih _

theorem splitPieces_no_delim (delims s piece : List Char)
    (h : ∀ c ∈ s, delims.contains c = false) : splitPieces delims s piece = [piece ++ s] := by
  induction s generalizing piece with
  | nil => simp [splitPieces]
  | cons c rest ih =>
    rw [splitPieces_cons, if_neg (by rw [h c (List.mem_cons_self _ _)]; exact Bool.false_ne_true)]
    rw [ih _ (fun x hx => h x (List.mem_cons_of_mem _ hx))]
    simp

theorem splitPieces_append_delim (delims a b piece : List Char) (x : Char)
    (ha : ∀ c ∈ a, delims.contains c = false) (hx : delims.contains x = true) :
    splitPieces delims (a ++ x :: b) piece = (piece ++ a) :: splitPieces delims b [] := by
  induction a generalizing piece with
  | nil => rw [List.nil_append, splitPieces_cons, if_pos hx, List.append_nil]
  | cons c rest ih =>
    rw [List.cons_append, splitPieces_cons,
      if_neg (by rw [ha c (List.mem_cons_self _ _)]; exact Bool.false_ne_true)]
    rw [ih _ (fun y hy => ha y (List.mem_cons_of_mem _ hy))]
    simp

theorem splitPieces_after_delim (delims a b piece : List Char) (x : Char)
    (hx : delims.contains x = true) :
    ∀ t ∈ splitPieces delims b [], t ∈ splitPieces delims (a ++ x :: b) piece := by
  induction a generalizing piece with
  | nil =>
    intro t ht
    rw [List.nil_append, splitPieces_cons, if_pos hx]
    exact List.mem_cons_of_mem _ ht
  | cons c rest ih =>
    intro t ht
    rw [List.cons_append, splitPieces_cons]
    split
    · exact List.mem_cons_of_mem _ (ih [] t ht)
    · exact ih _ t ht

theorem splitPieces_singleton (x : Char) (s piece v : List Char)
    (h : splitPieces [x] s piece = [v]) : v = piece ++ s ∧ x ∉ s := by
  induction s generalizing piece with
  | nil =>
    simp only [splitPieces, List.cons.injEq, and_true] at h
    simp [h]
  | cons c rest ih =>
    rw [splitPieces_cons] at h
    by_cases hc : [x].contains c = true
    · rw [if_pos hc] at h
      simp only [List.cons.injEq] at h
      exact absurd h.2 (splitPieces_ne_nil _ _ _)
    · rw [if_neg hc] at h
      obtain ⟨h1, h2⟩ := ih _ h
      refine ⟨by simpa using h1, ?_⟩
      intro hmem
      simp only [List.mem_cons] at hmem
      rcases hmem with rfl | hmem
      · exact hc (by simp)
      · exact h2 hmem

theorem splitPieces_pair (x : Char) (s piece k v : List Char)
    (h : splitPieces [x] s piece = [k, v]) :
    ∃ a, k = piece ++ a ∧ s = a ++ x :: v ∧ x ∉ a ∧ x ∉ v := by
  induction s generalizing piece with
  | nil => simp [splitPieces] at h
  | cons c rest ih =>
    rw [splitPieces_cons] at h
    by_cases hc : [x].contains c = true
    · rw [if_pos hc] at h
      simp only [List.cons.injEq] at h
      obtain ⟨h1, h2⟩ := splitPieces_singleton x rest [] v h.2
      have hcx : c = x := by simpa using hc
      refine ⟨[], by simp [h.1], ?_, by simp, ?_⟩
      · simp [hcx, h1]
      · rw [h1]; simpa using h2
    · rw [if_neg hc] at h
      obtain ⟨a, h1, h2, h3, h4⟩ := ih _ h
      refine ⟨c :: a, by simpa using h1, by simp [h2], ?_, h4⟩
      intro hmem
      simp only [List.mem_cons] at hmem
      rcases hmem with rfl | hmem
      · exact hc (by simp)
      · exact h3 hmem

theorem contains_singleton_false (x : Char) (s : List Char) (h : x ∉ s) :
    ∀ c ∈ s, [x].contains c = false := by
  intro c hc
  simp only [List.contains_cons, List.contains_nil, Bool.or_false, beq_eq_false_iff_ne, ne_eq]
  rintro rfl
  exact h hc

theorem split_key_value (key value : List Char) (hk : '=' ∉ key) (hv : '=' ∉ value) :
    splitStringWithDelimiters (key ++ '=' :: value) ['='] = [key, value] := by
  unfold splitStringWithDelimiters
  rw [if_neg (by simp)]
  rw [splitPieces_append_delim _ _ _ _ _ (contains_singleton_false _ _ hk) (by decide),
    splitPieces_no_delim _ _ _ (contains_singleton_false _ _ hv)]
  simp

theorem split_single_token (token : List Char) (hne : token ≠ []) (h : ',' ∉ token) :
    splitStringWithDelimiters token [','] = [token] := by
  unfold splitStringWithDelimiters
  rw [if_neg (by simpa [List.isEmpty_iff] using hne)]
  rw [splitPieces_no_delim _ _ _ (contains_singleton_false _ _ h)]
  simp

theorem mem_split_of_isTokenOf (token str : List Char) (h : isTokenOf token str) :
    token ∈ splitStringWithDelimiters str [','] := by
  obtain ⟨hne, hcomma, pre, post, hstr, hpre, hpost⟩ := h
  unfold splitStringWithDelimiters
  rw [if_neg (by simpa [List.isEmpty_iff] using hne)]
  have hfirst : ∀ piece, piece ++ token ∈ splitPieces [','] (token ++ post) piece := by
    intro piece
    rcases hpost with rfl | ⟨post1, rfl⟩
    · rw [List.append_nil, splitPieces_no_delim _ _ _ (contains_singleton_false _ _ hcomma)]
      simp
    · rw [splitPieces_append_delim _ _ _ _ _ (contains_singleton_false _ _ hcomma) (by decide)]
      simp
  rcases hpre with rfl | ⟨pre1, rfl⟩
  · rw [hstr]
    simpa using hfirst []
  · rw [hstr]
    have := splitPieces_after_delim [','] pre1 (token ++ post) [] ',' (by decide) token
      (by simpa using hfirst [])
    simpa using this

theorem stoi_ne_outOfFuel (value : List Char) : stoi value ≠ Result.outOfFuel := by
  unfold stoi
  simp only []
  split
  · simp
  · split <;> split <;> simp

theorem applyOptionToken_ne_outOfFuel (token : List Char) (options : VideoStreamDecoderOptions) :
    applyOptionToken token options ≠ Result.outOfFuel := by
  unfold applyOptionToken
  split
  · rename_i key value _
    split
    · have := stoi_ne_outOfFuel value
      split
      · split <;> simp
      · simp
      · rename_i h; exact absurd h this
    · split
      · split <;> simp
      · split
        · unfold setFromStoi
          have := stoi_ne_outOfFuel value
          split
          · simp
          · simp
          · rename_i h; exact absurd h this
        · split
          · unfold setFromStoi
            have := stoi_ne_outOfFuel value
            split
            · simp
            · simp
            · rename_i h; exact absurd h this
          · simp
  · simp

theorem applyOptionTokens_fails (tokens : List (List Char)) (token : List Char)
    (hmem : token ∈ tokens)
    (hfail : ∀ options, ∃ kind what, applyOptionToken token options = Result.error kind what) :
    ∀ options, ∃ kind what, applyOptionTokens tokens options = Result.error kind what := by
  induction tokens with
  | nil => simp at hmem
  | cons t rest ih =>
    intro options
    unfold applyOptionTokens
    simp only [List.mem_cons] at hmem
    rcases hmem with rfl | hmem
    · obtain ⟨kind, what, h⟩ := hfail options
      rw [h]
      exact ⟨kind, what, rfl⟩
    · cases hres : applyOptionToken t options with
      | ok options1 => exact ih hmem options1
      | error kind what => exact ⟨kind, what, rfl⟩
      | outOfFuel => exact absurd hres (applyOptionToken_ne_outOfFuel t options)

theorem applyOptionToken_fails (token : List Char) (h : ¬ isOption token)
    (options : VideoStreamDecoderOptions) :
    ∃ kind what, applyOptionToken token options = Result.error kind what := by
  unfold applyOptionToken
  split
  · rename_i key value hsplit
    unfold splitStringWithDelimiters at hsplit
    split at hsplit
    · simp at hsplit
    · obtain ⟨a, h1, h2, h3, h4⟩ := splitPieces_pair '=' token [] key value hsplit
      simp only [List.nil_append] at h1
      subst h1
      have hkey : key ∉ optionKeys := fun hmem => h ⟨key, value, h2, h3, h4, hmem⟩
      simp only [optionKeys, List.mem_cons, List.mem_singleton, not_or, List.not_mem_nil,
        or_false] at hkey
      rw [if_neg hkey.1, if_neg hkey.2.1, if_neg hkey.2.2.1, if_neg hkey.2.2.2]
      exact ⟨_, _, rfl⟩
  · exact ⟨_, _, rfl⟩

/-- C14: an options string with a comma-separated token that does not split on
`=` into exactly a key and a value, or whose key is not one of
`ffmpeg_thread_count`, `shape`, `width`, `height`, is rejected by the
constructor; the empty string is accepted and leaves every option at its
default. -/
theorem options_string_with_malformed_token_is_rejected :
    (∀ optionsString token : List Char, isTokenOf token optionsString → ¬ isOption token →
      ∃ kind what,
        VideoStreamDecoderOptions.fromOptionsString optionsString = Result.error kind what) ∧
    VideoStreamDecoderOptions.fromOptionsString [] = Result.ok {} := by
  refine ⟨?_, by rfl⟩
  intro optionsString token htoken hbad
  unfold VideoStreamDecoderOptions.fromOptionsString
  exact applyOptionTokens_fails _ token (mem_split_of_isTokenOf _ _ htoken)
    (applyOptionToken_fails token hbad) {}

theorem isTokenOf_example : isTokenOf "zoom=2".toList "shape=NHWC,zoom=2".toList :=
  ⟨by decide, by decide, "shape=NHWC,".toList, [], by rfl, Or.inr ⟨"shape=NHWC".toList, by rfl⟩,
    Or.inl rfl⟩

theorem not_isOption_example : ¬ isOption "zoom=2".toList := by
  rintro ⟨key, value, h, -, -, hmem⟩
  simp only [optionKeys, List.mem_cons, List.mem_singleton, List.not_mem_nil, or_false] at hmem
  rcases hmem with rfl | rfl | rfl | rfl <;> exact absurd (congrArg List.head? h) (by simp)

/-- Witness of C14: the string `shape=NHWC,zoom=2`, whose second token has the
unknown key `zoom`. -/
theorem options_string_with_malformed_token_is_rejected_witness :
    isTokenOf "zoom=2".toList "shape=NHWC,zoom=2".toList ∧ ¬ isOption "zoom=2".toList ∧
    ∃ kind what, VideoStreamDecoderOptions.fromOptionsString "shape=NHWC,zoom=2".toList =
      Result.error kind what :=
  ⟨isTokenOf_example, not_isOption_example,
    options_string_with_malformed_token_is_rejected.1 _ _ isTokenOf_example
      not_isOption_example⟩

theorem applyOptionTokens_singleton (token : List Char) (options : VideoStreamDecoderOptions) :
    applyOptionTokens [token] options = applyOptionToken token options := by
  unfold applyOptionTokens
  cases applyOptionToken token options <;> rfl

theorem fromOptionsString_single (key value : List Char) (hk : ',' ∉ key) (hv : ',' ∉ value) :
    VideoStreamDecoderOptions.fromOptionsString (key ++ '=' :: value) =
      applyOptionToken (key ++ '=' :: value) {} := by
  unfold VideoStreamDecoderOptions.fromOptionsString
  rw [split_single_token _ (by simp), applyOptionTokens_singleton]
  intro hmem
  simp only [List.mem_append, List.mem_cons] at hmem
  rcases hmem with h | h | h
  · exact hk h
  · exact absurd h (by decide)
  · exact hv h

theorem applyOptionToken_shape (value : List Char) (hv : '=' ∉ value)
    (options : VideoStreamDecoderOptions) :
    applyOptionToken ("shape".toList ++ '=' :: value) options =
      if value ≠ "NHWC".toList ∧ value ≠ "NCHW".toList then
        Result.error ErrorKind.runtime_error "Invalid shape"
      else Result.ok { options with shape := String.mk value } := by
  unfold applyOptionToken
  rw [split_key_value _ _ (by decide) hv]
  simp only []
  rfl

theorem applyOptionToken_thread_count (value : List Char) (hv : '=' ∉ value)
    (options : VideoStreamDecoderOptions) :
    applyOptionToken ("ffmpeg_thread_count".toList ++ '=' :: value) options =
      match stoi value with
      | Result.ok n =>
        if n < 0 then Result.error ErrorKind.runtime_error "Invalid ffmpeg_thread_count"
        else Result.ok { options with ffmpegThreadCount := some n }
      | Result.error kind what => Result.error kind what
      | Result.outOfFuel => Result.outOfFuel := by
  unfold applyOptionToken
  rw [split_key_value _ _ (by decide) hv]
  simp only []
  rfl

/-- C15, amended: for a value `v` with neither `,` nor `=`, the options string
`shape=v` is accepted exactly when `v` is `NHWC` or `NCHW`, and the options
made then have `shape` equal to `v` and every other option at its default. -/
theorem shape_option_accepts_NHWC_and_NCHW (v : List Char) (hcomma : ',' ∉ v) (heq : '=' ∉ v) :
    ((∃ options, VideoStreamDecoderOptions.fromOptionsString ("shape=".toList ++ v) =
          Result.ok options) ↔
      (v = "NHWC".toList ∨ v = "NCHW".toList)) ∧
    ∀ options, VideoStreamDecoderOptions.fromOptionsString ("shape=".toList ++ v) =
        Result.ok options →
      options = { shape := String.mk v } := by
  have hrw : "shape=".toList ++ v = "shape".toList ++ '=' :: v := rfl
  rw [hrw, fromOptionsString_single _ _ (by decide) hcomma, applyOptionToken_shape _ heq]
  by_cases h : v ≠ "NHWC".toList ∧ v ≠ "NCHW".toList
  · rw [if_pos h]
    refine ⟨⟨?_, ?_⟩, ?_⟩
    · rintro ⟨o, ho⟩; cases ho
    · rintro (h1 | h1)
      · exact absurd h1 h.1
      · exact absurd h1 h.2
    · intro o ho; cases ho
  · rw [if_neg h]
    refine ⟨⟨fun _ => ?_, fun _ => ⟨_, rfl⟩⟩, ?_⟩
    · by_cases h1 : v = "NHWC".toList
      · exact Or.inl h1
      · by_cases h2 : v = "NCHW".toList
        · exact Or.inr h2
        · exact absurd ⟨h1, h2⟩ h
    · intro o ho
      cases ho
      rfl

/-- Witness of C15, amended: the options string `shape=NHWC`. -/
theorem shape_option_accepts_NHWC_and_NCHW_witness :
    ',' ∉ "NHWC".toList ∧ '=' ∉ "NHWC".toList ∧
    (((∃ options, VideoStreamDecoderOptions.fromOptionsString ("shape=".toList ++ "NHWC".toList) =
          Result.ok options) ↔
      ("NHWC".toList = "NHWC".toList ∨ "NHWC".toList = "NCHW".toList)) ∧
    ∀ options, VideoStreamDecoderOptions.fromOptionsString ("shape=".toList ++ "NHWC".toList) =
        Result.ok options →
      options = { shape := String.mk "NHWC".toList }) :=
  ⟨by decide, by decide, shape_option_accepts_NHWC_and_NCHW "NHWC".toList (by decide) (by decide)⟩

/-- C15, counterexample: the options string `shape=HWC` is rejected and the
options string `shape=NHWC` is accepted with `shape` set to `NHWC`. -/
theorem shape_option_rejects_HWC :
    VideoStreamDecoderOptions.fromOptionsString "shape=HWC".toList =
      Result.error ErrorKind.runtime_error "Invalid shape" ∧
    VideoStreamDecoderOptions.fromOptionsString "shape=CHW".toList =
      Result.error ErrorKind.runtime_error "Invalid shape" ∧
    VideoStreamDecoderOptions.fromOptionsString "shape=NHWC".toList =
      Result.ok { shape := "NHWC" } ∧
    "NHWC".toList ≠ "HWC".toList ∧ "NHWC".toList ≠ "CHW".toList := by
  decide

theorem isdigit_ne (c : Char) (h : isdigit c = true) :
    isspace c = false ∧ c ≠ '-' ∧ c ≠ '+' ∧ c ≠ ',' ∧ c ≠ '=' := by
  have h48 : 48 ≤ c.toNat ∧ c.toNat ≤ 57 := by simpa [isdigit] using h
  refine ⟨?_, ?_, ?_, ?_, ?_⟩
  · simp only [isspace, Bool.or_eq_false_iff, beq_eq_false_iff_ne, Bool.and_eq_false_iff,
      decide_eq_false_iff_not, ne_eq]
    omega
  all_goals
    rintro rfl
    revert h
    decide

theorem stoi_digits (v : List Char) (hne : v ≠ []) (hdigits : ∀ c ∈ v, isdigit c = true) :
    stoi v =
      if 2147483647 < (digitsValue v : Int) then Result.error ErrorKind.out_of_range "stoi"
      else Result.ok (digitsValue v : Int) := by
  cases v with
  | nil => exact absurd rfl hne
  | cons c rest =>
    have hc := isdigit_ne c (hdigits c (List.mem_cons_self _ _))
    have htake : List.takeWhile isdigit (c :: rest) = c :: rest :=
      List.takeWhile_eq_self_iff.mpr hdigits
    unfold stoi
    simp only [List.dropWhile_cons, hc.1, Bool.false_eq_true, if_false, signAndBody,
      if_neg hc.2.1, if_neg hc.2.2.1, htake, List.isEmpty_cons]
    have hnn : ¬ ((digitsValue (c :: rest) : Int) < -2147483648) := by omega
    simp [hnn]

theorem stoi_minus_digits (digits : List Char) (hne : digits ≠ [])
    (hdigits : ∀ c ∈ digits, isdigit c = true) :
    stoi ('-' :: digits) =
      if (2147483648 : Int) < digitsValue digits then Result.error ErrorKind.out_of_range "stoi"
      else Result.ok (-(digitsValue digits : Int)) := by
  have htake : List.takeWhile isdigit digits = digits :=
    List.takeWhile_eq_self_iff.mpr hdigits
  have hempty : digits.isEmpty = false := by
    cases digits with
    | nil => exact absurd rfl hne
    | cons c rest => rfl
  have hsp : isspace '-' = false := by decide
  unfold stoi
  simp only [List.dropWhile_cons, hsp, Bool.false_eq_true, if_false, signAndBody, if_true, htake,
    hempty]
  have hnn : ¬ ((2147483647 : Int) < -(digitsValue digits : Int)) := by omega
  have hiff : (-(digitsValue digits : Int) < -2147483648) ↔
      ((2147483648 : Int) < digitsValue digits) := by omega
  simp [hnn, hiff]

/-- C16, amended: for a value `v` with neither `,` nor `=`, the options string
`ffmpeg_thread_count=v` is accepted exactly when `std::stoi(v)` returns an
`int` that is not negative, and the options made then have `ffmpegThreadCount`
equal to that `int`.  A non-empty run of decimal digits with a value of at most
`2^31 - 1` is accepted with that value, and a minus sign followed by decimal
digits of a value other than zero is rejected. -/
theorem thread_count_option_accepts_what_stoi_reads (v : List Char) (hcomma : ',' ∉ v)
    (heq : '=' ∉ v) :
    ((∃ options, VideoStreamDecoderOptions.fromOptionsString ("ffmpeg_thread_count=".toList ++ v) =
          Result.ok options) ↔
      ∃ n, stoi v = Result.ok n ∧ 0 ≤ n) ∧
    (∀ options n, VideoStreamDecoderOptions.fromOptionsString ("ffmpeg_thread_count=".toList ++ v) =
        Result.ok options → stoi v = Result.ok n →
      options = { ffmpegThreadCount := some n }) ∧
    (v ≠ [] → (∀ c ∈ v, isdigit c = true) → digitsValue v ≤ 2147483647 →
      VideoStreamDecoderOptions.fromOptionsString ("ffmpeg_thread_count=".toList ++ v) =
        Result.ok { ffmpegThreadCount := some (digitsValue v : Int) }) ∧
    (∀ digits, v = '-' :: digits → digits ≠ [] → (∀ c ∈ digits, isdigit c = true) →
      0 < digitsValue digits →
      ∃ kind what,
        VideoStreamDecoderOptions.fromOptionsString ("ffmpeg_thread_count=".toList ++ v) =
          Result.error kind what) := by
  have hrw : "ffmpeg_thread_count=".toList ++ v = "ffmpeg_thread_count".toList ++ '=' :: v := rfl
  rw [hrw, fromOptionsString_single _ _ (by decide) hcomma, applyOptionToken_thread_count _ heq]
  refine ⟨⟨?_, ?_⟩, ?_, ?_, ?_⟩
  · rintro ⟨o, ho⟩
    cases hst : stoi v with
    | ok n =>
      rw [hst] at ho
      simp only [] at ho
      by_cases hn : n < 0
      · rw [if_pos hn] at ho; cases ho
      · exact ⟨n, rfl, not_lt.mp hn⟩
    | error kind what => rw [hst] at ho; cases ho
    | outOfFuel => rw [hst] at ho; cases ho
  · rintro ⟨n, hst, hn⟩
    rw [hst]
    simp only []
    rw [if_neg (not_lt.mpr hn)]
    exact ⟨_, rfl⟩
  · intro o n ho hst
    rw [hst] at ho
    simp only [] at ho
    by_cases hn : n < 0
    · rw [if_pos hn] at ho; cases ho
    · rw [if_neg hn] at ho
      cases ho
      rfl
  · intro hne hdigits hle
    rw [stoi_digits v hne hdigits, if_neg (by omega)]
    simp only []
    rw [if_neg (by omega)]
  · intro digits hv hne hdigits hpos
    rw [hv, stoi_minus_digits digits hne hdigits]
    by_cases hbig : (2147483648 : Int) < digitsValue digits
    · rw [if_pos hbig]
      exact ⟨_, _, rfl⟩
    · rw [if_neg hbig]
      simp only []
      rw [if_pos (by omega)]
      exact ⟨_, _, rfl⟩

/-- Witness of C16, amended: the options string `ffmpeg_thread_count=12abc`,
for which `std::stoi` returns 12. -/
theorem thread_count_option_accepts_what_stoi_reads_witness :
    ',' ∉ "12abc".toList ∧ '=' ∉ "12abc".toList ∧ stoi "12abc".toList = Result.ok 12 ∧
    ((∃ options,
        VideoStreamDecoderOptions.fromOptionsString
          ("ffmpeg_thread_count=".toList ++ "12abc".toList) = Result.ok options) ↔
      ∃ n, stoi "12abc".toList = Result.ok n ∧ 0 ≤ n) :=
  ⟨by decide, by decide, by decide,
    (thread_count_option_accepts_what_stoi_reads "12abc".toList (by decide) (by decide)).1⟩

/-- C16, counterexample: the values `12abc`, ` 7` and `+7`, none of them the
decimal representation of an integer, are accepted with thread counts 12, 7
and 7, and the value `99999999999`, the decimal representation of a
non-negative integer, is rejected. -/
theorem thread_count_option_accepts_trailing_text :
    VideoStreamDecoderOptions.fromOptionsString "ffmpeg_thread_count=12abc".toList =
      Result.ok { ffmpegThreadCount := some 12 } ∧
    VideoStreamDecoderOptions.fromOptionsString "ffmpeg_thread_count= 7".toList =
      Result.ok { ffmpegThreadCount := some 7 } ∧
    VideoStreamDecoderOptions.fromOptionsString "ffmpeg_thread_count=+7".toList =
      Result.ok { ffmpegThreadCount := some 7 } ∧
    VideoStreamDecoderOptions.fromOptionsString "ffmpeg_thread_count=99999999999".toList =
      Result.error ErrorKind.out_of_range "stoi" ∧
    ("12abc".toList.all isdigit = false ∧ "99999999999".toList.all isdigit = true) := by
  decide

/-! ## Claims on the seek planner -/

theorem upperBound_eq_countP (keyFrames : List FrameInfo) (pts : Int)
    (hsorted : sortedByPts keyFrames) :
    upperBound keyFrames pts = keyFrames.countP (fun k => decide (k.pts ≤ pts)) := by
  induction keyFrames with
  | nil => rfl
  | cons a rest ih =>
    unfold sortedByPts at hsorted
    rw [List.pairwise_cons] at hsorted
    unfold upperBound
    by_cases hlt : pts < a.pts
    · rw [if_pos hlt]
      symm
      rw [List.countP_eq_zero]
      intro k hk
      simp only [List.mem_cons] at hk
      rcases hk with rfl | hk
      · simpa using hlt
      · have := hsorted.1 k hk
        simp only [decide_eq_true_eq, not_le]
        omega
    · rw [if_neg hlt, ih hsorted.2, List.countP_cons_of_pos]
      simpa using hlt

theorem countP_le_split (keyFrames : List FrameInfo) (a b : Int) (hab : a ≤ b) :
    keyFrames.countP (fun k => decide (k.pts ≤ b)) =
      keyFrames.countP (fun k => decide (k.pts ≤ a)) +
      keyFrames.countP (fun k => decide (a < k.pts) && decide (k.pts ≤ b)) := by
  induction keyFrames with
  | nil => rfl
  | cons x rest ih =>
    simp only [List.countP_cons, ih]
    by_cases h1 : x.pts ≤ a
    · have h2 : x.pts ≤ b := le_trans h1 hab
      have h3 : ¬ a < x.pts := not_lt.mpr h1
      simp [h1, h2, h3]
      omega
    · by_cases h2 : x.pts ≤ b
      · have h3 : a < x.pts := not_le.mp h1
        simp [h1, h2, h3]
        omega
      · simp [h1, h2]

theorem scannedIndex_nonneg_iff (keyFrames : List FrameInfo) (pts : Int)
    (hsorted : sortedByPts keyFrames) :
    0 ≤ getKeyFrameIndexForPtsUsingScannedIndex keyFrames pts ↔
      ∃ k ∈ keyFrames, k.pts ≤ pts := by
  unfold getKeyFrameIndexForPtsUsingScannedIndex
  rw [upperBound_eq_countP keyFrames pts hsorted]
  have hpos := List.countP_pos_iff (p := fun k : FrameInfo => decide (k.pts ≤ pts)) (l := keyFrames)
  simp only [decide_eq_true_eq] at hpos
  rw [← hpos]
  split
  · rename_i h0
    rw [h0]
    simp
  · rename_i h0
    constructor
    · intro _; omega
    · intro _; omega

theorem scannedIndex_eq_iff (keyFrames : List FrameInfo) (a b : Int) (hab : a ≤ b)
    (hsorted : sortedByPts keyFrames) (ha : ∃ k ∈ keyFrames, k.pts ≤ a) :
    getKeyFrameIndexForPtsUsingScannedIndex keyFrames a =
        getKeyFrameIndexForPtsUsingScannedIndex keyFrames b ↔
      ¬ ∃ k ∈ keyFrames, a < k.pts ∧ k.pts ≤ b := by
  unfold getKeyFrameIndexForPtsUsingScannedIndex
  rw [upperBound_eq_countP keyFrames a hsorted, upperBound_eq_countP keyFrames b hsorted,
    countP_le_split keyFrames a b hab]
  have hpos := (List.countP_pos_iff (p := fun k : FrameInfo => decide (k.pts ≤ a)) (l := keyFrames)).mpr
    (by simpa using ha)
  have hzero := List.countP_eq_zero (p := fun k : FrameInfo => decide (a < k.pts) && decide (k.pts ≤ b))
    (l := keyFrames)
  simp only [Bool.and_eq_true, decide_eq_true_eq] at hzero
  have hiff : (¬ ∃ k ∈ keyFrames, a < k.pts ∧ k.pts ≤ b) ↔
      List.countP (fun k : FrameInfo => decide (a < k.pts) && decide (k.pts ≤ b)) keyFrames = 0 := by
    rw [hzero]
    constructor
    · intro h k hk hc; exact h ⟨k, hk, hc⟩
    · rintro h ⟨k, hk, hc⟩; exact h k hk hc
  rw [hiff]
  have hne : List.countP (fun k : FrameInfo => decide (k.pts ≤ a)) keyFrames ≠ 0 := by omega
  rw [if_neg hne]
  split
  · omega
  · constructor
    · intro h; omega
    · intro h; omega

/-- C20: for a stream whose scanned keyframe list is not empty and is sorted
ascending by `pts`, `canWeAvoidSeekingForStream` returns true exactly when
`currentPts < targetPts`, some keyframe has `pts <= currentPts`, and no keyframe
has `pts` in `(currentPts, targetPts]`; it returns false whenever
`targetPts <= currentPts`. -/
theorem canWeAvoidSeekingForStream_iff_same_keyframe {σ : Type} (L : Lib σ) (lib : σ)
    (streamInfo : StreamInfo) (currentPts targetPts : Int)
    (hne : streamInfo.keyFrames ≠ []) (hsorted : sortedByPts streamInfo.keyFrames) :
    (canWeAvoidSeekingForStream L lib streamInfo currentPts targetPts = true ↔
      currentPts < targetPts ∧ (∃ k ∈ streamInfo.keyFrames, k.pts ≤ currentPts) ∧
        ¬ ∃ k ∈ streamInfo.keyFrames, currentPts < k.pts ∧ k.pts ≤ targetPts) ∧
    (targetPts ≤ currentPts →
      canWeAvoidSeekingForStream L lib streamInfo currentPts targetPts = false) := by
  have hidx : ∀ pts, getKeyFrameIndexForPts L lib streamInfo pts =
      getKeyFrameIndexForPtsUsingScannedIndex streamInfo.keyFrames pts := by
    intro pts
    unfold getKeyFrameIndexForPts
    rw [if_neg]
    simpa [List.isEmpty_iff] using hne
  unfold canWeAvoidSeekingForStream
  simp only [hidx]
  constructor
  · by_cases h1 : targetPts < currentPts
    · rw [if_pos h1]
      constructor
      · intro h; cases h
      · rintro ⟨h, _⟩; omega
    · rw [if_neg h1]
      by_cases h2 : currentPts = targetPts
      · rw [if_pos h2]
        constructor
        · intro h; cases h
        · rintro ⟨h, _⟩; omega
      · rw [if_neg h2]
        have hlt : currentPts < targetPts := by omega
        simp only [Bool.and_eq_true, decide_eq_true_eq]
        constructor
        · rintro ⟨⟨hc, _⟩, heq⟩
          have hk := (scannedIndex_nonneg_iff _ _ hsorted).mp hc
          exact ⟨hlt, hk, (scannedIndex_eq_iff _ _ _ (le_of_lt hlt) hsorted hk).mp heq⟩
        · rintro ⟨_, hk, hno⟩
          have hc := (scannedIndex_nonneg_iff _ _ hsorted).mpr hk
          have heq := (scannedIndex_eq_iff _ _ _ (le_of_lt hlt) hsorted hk).mpr hno
          exact ⟨⟨hc, heq ▸ hc⟩, heq⟩
  · intro hle
    by_cases h1 : targetPts < currentPts
    · rw [if_pos h1]
    · rw [if_neg h1, if_pos (by omega)]

/-- Witness of C20: stream 0 of `sixFrameDecoder`, with keyframes at `pts` 0
and 3, for `currentPts = 1` and `targetPts = 2`. -/
theorem canWeAvoidSeekingForStream_iff_same_keyframe_witness :
    (mapAt sixFrameDecoder.streams_ 0).keyFrames ≠ [] ∧
    sortedByPts (mapAt sixFrameDecoder.streams_ 0).keyFrames ∧
    ((canWeAvoidSeekingForStream refLib sixFrameDecoder.lib (mapAt sixFrameDecoder.streams_ 0) 1 2
        = true ↔
      (1 : Int) < 2 ∧ (∃ k ∈ (mapAt sixFrameDecoder.streams_ 0).keyFrames, k.pts ≤ 1) ∧
        ¬ ∃ k ∈ (mapAt sixFrameDecoder.streams_ 0).keyFrames, 1 < k.pts ∧ k.pts ≤ 2) ∧
    ((2 : Int) ≤ 1 →
      canWeAvoidSeekingForStream refLib sixFrameDecoder.lib (mapAt sixFrameDecoder.streams_ 0) 1 2
        = false)) :=
  ⟨by decide, by unfold sortedByPts; decide,
    canWeAvoidSeekingForStream_iff_same_keyframe refLib sixFrameDecoder.lib
      (mapAt sixFrameDecoder.streams_ 0) 1 2 (by decide) (by unfold sortedByPts; decide)⟩

/-! ## Claims on the keyframe lookup -/

theorem upperBound_le_length (keyFrames : List FrameInfo) (pts : Int) :
    upperBound keyFrames pts ≤ keyFrames.length := by
  induction keyFrames with
  | nil => simp [upperBound]
  | cons a rest ih =>
    unfold upperBound
    split
    · exact Nat.zero_le _
    · simpa using ih

theorem upperBound_before (keyFrames : List FrameInfo) (pts : Int) (j : Nat) (k : FrameInfo)
    (hj : j < upperBound keyFrames pts) (hk : keyFrames[j]? = some k) : k.pts ≤ pts := by
  induction keyFrames generalizing j with
  | nil => simp [upperBound] at hj
  | cons a rest ih =>
    unfold upperBound at hj
    by_cases hlt : pts < a.pts
    · rw [if_pos hlt] at hj
      exact absurd hj (Nat.not_lt_zero _)
    · rw [if_neg hlt] at hj
      cases j with
      | zero =>
        simp only [List.getElem?_cons_zero, Option.some.injEq] at hk
        subst hk
        exact not_lt.mp hlt
      | succ j =>
        simp only [List.getElem?_cons_succ] at hk
        exact ih j (by omega) hk

theorem upperBound_from (keyFrames : List FrameInfo) (pts : Int) (j : Nat) (k : FrameInfo)
    (hsorted : sortedByPts keyFrames) (hj : upperBound keyFrames pts ≤ j)
    (hk : keyFrames[j]? = some k) : pts < k.pts := by
  induction keyFrames generalizing j with
  | nil => simp at hk
  | cons a rest ih =>
    unfold sortedByPts at hsorted
    rw [List.pairwise_cons] at hsorted
    unfold upperBound at hj
    by_cases hlt : pts < a.pts
    · cases j with
      | zero =>
        simp only [List.getElem?_cons_zero, Option.some.injEq] at hk
        subst hk
        exact hlt
      | succ j =>
        simp only [List.getElem?_cons_succ] at hk
        have := hsorted.1 k (List.getElem?_mem hk)
        omega
    · rw [if_neg hlt] at hj
      cases j with
      | zero => omega
      | succ j =>
        simp only [List.getElem?_cons_succ] at hk
        exact ih j hsorted.2 (by omega) hk

/-- C21: on a keyframe list sorted ascending by `pts`, duplicates allowed,
`getKeyFrameIndexForPtsUsingScannedIndex` returns -1 when no keyframe has
`pts <= x`, and otherwise the index `r` with `0 <= r < keyFrames.size()`,
`keyFrames[r].pts <= x` and `keyFrames[j].pts > x` for every `j > r`. -/
theorem getKeyFrameIndexForPtsUsingScannedIndex_is_last_at_or_before
    (keyFrames : List FrameInfo) (x : Int) (hsorted : sortedByPts keyFrames) :
    ((¬ ∃ k ∈ keyFrames, k.pts ≤ x) →
      getKeyFrameIndexForPtsUsingScannedIndex keyFrames x = -1) ∧
    ((∃ k ∈ keyFrames, k.pts ≤ x) →
      ∃ r : Nat, getKeyFrameIndexForPtsUsingScannedIndex keyFrames x = (r : Int) ∧
        r < keyFrames.length ∧ (∃ k, keyFrames[r]? = some k ∧ k.pts ≤ x) ∧
        ∀ j k, r < j → keyFrames[j]? = some k → x < k.pts) := by
  have hnn := scannedIndex_nonneg_iff keyFrames x hsorted
  constructor
  · intro hno
    have hneg : ¬ 0 ≤ getKeyFrameIndexForPtsUsingScannedIndex keyFrames x := fun h => hno (hnn.mp h)
    unfold getKeyFrameIndexForPtsUsingScannedIndex at hneg ⊢
    split
    · rfl
    · rename_i h0
      rw [if_neg h0] at hneg
      omega
  · intro hsome
    have hpos := hnn.mpr hsome
    unfold getKeyFrameIndexForPtsUsingScannedIndex at hpos ⊢
    by_cases h0 : upperBound keyFrames x = 0
    · rw [if_pos h0] at hpos
      omega
    · rw [if_neg h0]
      have hle := upperBound_le_length keyFrames x
      have hlt : upperBound keyFrames x - 1 < keyFrames.length := by omega
      refine ⟨upperBound keyFrames x - 1, by omega, hlt, ?_, ?_⟩
      · refine ⟨keyFrames[upperBound keyFrames x - 1], List.getElem?_eq_getElem hlt, ?_⟩
        exact upperBound_before keyFrames x _ _ (by omega) (List.getElem?_eq_getElem hlt)
      · intro j k hj hk
        exact upperBound_from keyFrames x j k hsorted (by omega) hk

/-- Witness of C21: the keyframe list with `pts` 0, 3, 3, 7 and `x = 4`, for
which the index is 2. -/
theorem getKeyFrameIndexForPtsUsingScannedIndex_is_last_at_or_before_witness :
    sortedByPts [⟨0⟩, ⟨3⟩, ⟨3⟩, ⟨7⟩] ∧
    getKeyFrameIndexForPtsUsingScannedIndex [⟨0⟩, ⟨3⟩, ⟨3⟩, ⟨7⟩] 4 = 2 ∧
    ((¬ ∃ k ∈ ([⟨0⟩, ⟨3⟩, ⟨3⟩, ⟨7⟩] : List FrameInfo), k.pts ≤ 4) →
      getKeyFrameIndexForPtsUsingScannedIndex [⟨0⟩, ⟨3⟩, ⟨3⟩, ⟨7⟩] 4 = -1) ∧
    ((∃ k ∈ ([⟨0⟩, ⟨3⟩, ⟨3⟩, ⟨7⟩] : List FrameInfo), k.pts ≤ 4) →
      ∃ r : Nat, getKeyFrameIndexForPtsUsingScannedIndex [⟨0⟩, ⟨3⟩, ⟨3⟩, ⟨7⟩] 4 = (r : Int) ∧
        r < ([⟨0⟩, ⟨3⟩, ⟨3⟩, ⟨7⟩] : List FrameInfo).length ∧
        (∃ k, ([⟨0⟩, ⟨3⟩, ⟨3⟩, ⟨7⟩] : List FrameInfo)[r]? = some k ∧ k.pts ≤ 4) ∧
        ∀ j k, r < j → ([⟨0⟩, ⟨3⟩, ⟨3⟩, ⟨7⟩] : List FrameInfo)[j]? = some k → 4 < k.pts) :=
  ⟨by unfold sortedByPts; decide, by decide,
    getKeyFrameIndexForPtsUsingScannedIndex_is_last_at_or_before [⟨0⟩, ⟨3⟩, ⟨3⟩, ⟨7⟩] 4
      (by unfold sortedByPts; decide)⟩

/-! ## Claims on repeated scans -/

theorem perm_insertByPts (x : FrameInfo) (l : List FrameInfo) :
    (insertByPts x l).Perm (x :: l) := by
  induction l with
  | nil => exact List.Perm.refl _
  | cons y ys ih =>
    unfold insertByPts
    split
    · exact List.Perm.refl _
    · exact (List.Perm.cons y ih).trans (List.Perm.swap x y ys)

theorem perm_sortByPts (l : List FrameInfo) : (sortByPts l).Perm l := by
  induction l with
  | nil => exact List.Perm.refl _
  | cons x xs ih =>
    unfold sortByPts
    exact (perm_insertByPts x _).trans (List.Perm.cons x ih)

theorem keyFrames_scanPacket {σ : Type} (p : AVPacket) (d : VideoDecoder σ) (i : Int) :
    (mapAt (scanPacket p d).streams_ i).keyFrames =
      (mapAt d.streams_ i).keyFrames ++
        ((retainedPackets [p] i).filter isKey).map (fun q => ⟨q.pts⟩) := by
  rw [scanPacket_streams]
  by_cases hd : isDiscard p = true
  · simp [hd, retainedPackets]
  · rw [if_neg hd, mapAt_mapModify]
    by_cases hi : i = p.stream_index
    · subst hi
      by_cases hk : isKey p = true
      · simp [retainedPackets, hd, hk]
      · simp [retainedPackets, hd, hk]
    · have : ¬ p.stream_index = i := fun h => hi h.symm
      simp [retainedPackets, hi, this]

theorem keyFrames_scanPackets {σ : Type} (ps : List AVPacket) (d : VideoDecoder σ) (i : Int) :
    (mapAt (scanPackets ps d).streams_ i).keyFrames =
      (mapAt d.streams_ i).keyFrames ++
        ((retainedPackets ps i).filter isKey).map (fun q => ⟨q.pts⟩) := by
  induction ps generalizing d with
  | nil => simp [scanPackets, retainedPackets]
  | cons p ps ih =>
    rw [scanPackets_cons, ih, keyFrames_scanPacket, retainedPackets_cons p ps]
    simp

theorem scan_frames_of_ok {σ : Type} (L : Lib σ) (fuel : Nat) (d d' : VideoDecoder σ)
    (ps : List AVPacket) (hps : packetsRead L fuel d.lib = some ps)
    (hscan : scanFileAndUpdateMetadataAndIndex L fuel d = (Result.ok (), d')) (i : Int) :
    (mapAt d'.streams_ i).allFrames =
      sortByPts ((mapAt d.streams_ i).allFrames ++
        (retainedPackets ps i).map (fun q => ⟨q.pts⟩)) ∧
    (mapAt d'.streams_ i).keyFrames =
      sortByPts ((mapAt d.streams_ i).keyFrames ++
        ((retainedPackets ps i).filter isKey).map (fun q => ⟨q.pts⟩)) := by
  obtain ⟨ps', lib, hps', hstreams, _⟩ := scanFile_ok L fuel d d' hscan
  rw [hps] at hps'
  have hpe : ps' = ps := by injection hps' with h; exact h.symm
  subst hpe
  rw [hstreams, mapAt_sortStreams]
  simp only [sortEntry]
  rw [allFrames_scanPackets, keyFrames_scanPackets]
  exact ⟨rfl, rfl⟩

theorem second_scan_frames (first packets second : List FrameInfo)
    (h1 : first = sortByPts packets) (h2 : second = sortByPts (first ++ packets)) :
    sortedByPts second ∧ second.Perm (first ++ first) ∧
      (second = first ↔ first = []) := by
  have hp1 : first.Perm packets := h1 ▸ perm_sortByPts packets
  have hp2 : second.Perm (first ++ first) :=
    (h2 ▸ perm_sortByPts (first ++ packets)).trans (List.Perm.append_left first hp1.symm)
  refine ⟨h2 ▸ sorted_sortByPts _, hp2, ?_⟩
  constructor
  · intro heq
    have hlen := hp2.length_eq
    rw [heq, List.length_append] at hlen
    exact List.length_eq_zero.mp (by omega)
  · intro hnil
    subst hnil
    simpa using hp2

/-- C22, amended: on a decoder scanned once from fresh, when the library
replays the same packet sequence after the rewind and the second rewind
succeeds, a second `scanFileAndUpdateMetadataAndIndex` returns and leaves, for
every stream, `allFrames` and `keyFrames` sorted ascending and holding every
element of the sequence of the first run twice; they equal the sequences of the
first run only where those are empty. -/
theorem second_scan_doubles_frames {σ : Type} (L : Lib σ) (fuel : Nat)
    (d d1 : VideoDecoder σ) (ps : List AVPacket) (hfresh : isFresh d)
    (hps : packetsRead L fuel d.lib = some ps)
    (hscan : scanFileAndUpdateMetadataAndIndex L fuel d = (Result.ok (), d1))
    (hreplay : packetsRead L fuel d1.lib = some ps)
    (hseek : 0 ≤ (L.seekFile (libAfterReads L fuel d1.lib) 0 INT64_MIN 0 0).1) :
    ∃ d2, scanFileAndUpdateMetadataAndIndex L fuel d1 = (Result.ok (), d2) ∧
      ∀ i,
        (sortedByPts (mapAt d2.streams_ i).allFrames ∧
          (mapAt d2.streams_ i).allFrames.Perm
            ((mapAt d1.streams_ i).allFrames ++ (mapAt d1.streams_ i).allFrames) ∧
          ((mapAt d2.streams_ i).allFrames = (mapAt d1.streams_ i).allFrames ↔
            (mapAt d1.streams_ i).allFrames = [])) ∧
        (sortedByPts (mapAt d2.streams_ i).keyFrames ∧
          (mapAt d2.streams_ i).keyFrames.Perm
            ((mapAt d1.streams_ i).keyFrames ++ (mapAt d1.streams_ i).keyFrames) ∧
          ((mapAt d2.streams_ i).keyFrames = (mapAt d1.streams_ i).keyFrames ↔
            (mapAt d1.streams_ i).keyFrames = [])) := by
  obtain ⟨d2, hscan2⟩ := scanFile_returns L fuel d1 ps hreplay hseek
  refine ⟨d2, hscan2, ?_⟩
  intro i
  have hfirst := scan_frames_of_ok L fuel d d1 ps hps hscan i
  have hsecond := scan_frames_of_ok L fuel d1 d2 ps hreplay hscan2 i
  have hempty : mapAt d.streams_ i = {} := by rw [hfresh.1]; rfl
  rw [hempty] at hfirst
  exact ⟨second_scan_frames _ _ _ (by simpa using hfirst.1) hsecond.1,
    second_scan_frames _ _ _ (by simpa using hfirst.2) hsecond.2⟩

/-- Witness of C22, amended: the second scan of `sixFrameContainer`, whose six
packets the reference library replays after the rewind to the first packet. -/
theorem second_scan_doubles_frames_witness :
    isFresh (createFromFilePath refLib sixFrameContainer).2 ∧
    packetsRead refLib 10 (createFromFilePath refLib sixFrameContainer).2.lib =
      some sixFrameContainer.packets ∧
    packetsRead refLib 10 (create_from_file refLib 10 sixFrameContainer).2.lib =
      some sixFrameContainer.packets ∧
    ∃ d2, scanFileAndUpdateMetadataAndIndex refLib 10
        (create_from_file refLib 10 sixFrameContainer).2 = (Result.ok (), d2) ∧
      ∀ i,
        (sortedByPts (mapAt d2.streams_ i).allFrames ∧
          (mapAt d2.streams_ i).allFrames.Perm
            ((mapAt (create_from_file refLib 10 sixFrameContainer).2.streams_ i).allFrames ++
              (mapAt (create_from_file refLib 10 sixFrameContainer).2.streams_ i).allFrames) ∧
          ((mapAt d2.streams_ i).allFrames =
              (mapAt (create_from_file refLib 10 sixFrameContainer).2.streams_ i).allFrames ↔
            (mapAt (create_from_file refLib 10 sixFrameContainer).2.streams_ i).allFrames = [])) ∧
        (sortedByPts (mapAt d2.streams_ i).keyFrames ∧
          (mapAt d2.streams_ i).keyFrames.Perm
            ((mapAt (create_from_file refLib 10 sixFrameContainer).2.streams_ i).keyFrames ++
              (mapAt (create_from_file refLib 10 sixFrameContainer).2.streams_ i).keyFrames) ∧
          ((mapAt d2.streams_ i).keyFrames =
              (mapAt (create_from_file refLib 10 sixFrameContainer).2.streams_ i).keyFrames ↔
            (mapAt (create_from_file refLib 10 sixFrameContainer).2.streams_ i).keyFrames = [])) :=
  ⟨by decide, by rfl, by rfl,
    second_scan_doubles_frames refLib 10 (createFromFilePath refLib sixFrameContainer).2
      (create_from_file refLib 10 sixFrameContainer).2 sixFrameContainer.packets (by decide)
      (by rfl) (by rfl) (by rfl) (by decide)⟩

/-- C22, counterexample: after `create_from_file` on `sixFrameContainer`, the
reference library replays the same six packets, and a second scan returns with
twelve frames and four keyframes in stream 0 where the first scan left six and
two. -/
theorem second_scan_changes_frames :
    packetsRead refLib 10 (createFromFilePath refLib sixFrameContainer).2.lib =
      some sixFrameContainer.packets ∧
    packetsRead refLib 10 (create_from_file refLib 10 sixFrameContainer).2.lib =
      some sixFrameContainer.packets ∧
    (mapAt (create_from_file refLib 10 sixFrameContainer).2.streams_ 0).allFrames =
      [⟨0⟩, ⟨1⟩, ⟨2⟩, ⟨3⟩, ⟨4⟩, ⟨5⟩] ∧
    (mapAt (create_from_file refLib 10 sixFrameContainer).2.streams_ 0).keyFrames = [⟨0⟩, ⟨3⟩] ∧
    (scanFileAndUpdateMetadataAndIndex refLib 10
      (create_from_file refLib 10 sixFrameContainer).2).1 = Result.ok () ∧
    (mapAt (scanFileAndUpdateMetadataAndIndex refLib 10
      (create_from_file refLib 10 sixFrameContainer).2).2.streams_ 0).allFrames =
      [⟨0⟩, ⟨0⟩, ⟨1⟩, ⟨1⟩, ⟨2⟩, ⟨2⟩, ⟨3⟩, ⟨3⟩, ⟨4⟩, ⟨4⟩, ⟨5⟩, ⟨5⟩] ∧
    (mapAt (scanFileAndUpdateMetadataAndIndex refLib 10
      (create_from_file refLib 10 sixFrameContainer).2).2.streams_ 0).keyFrames =
      [⟨0⟩, ⟨0⟩, ⟨3⟩, ⟨3⟩] := by
  refine ⟨by rfl, by rfl, by decide, by decide, by decide, by decide, by decide⟩

/-! ## Lemmas on the logged pump -/

theorem noPermanent_nil : noPermanent [] := by
  intro i status h
  simp at h

theorem noPermanent_append {a b : List PumpCall} (ha : noPermanent a) (hb : noPermanent b) :
    noPermanent (a ++ b) := by
  intro i status h
  rcases List.mem_append.mp h with h | h
  · exact ha i status h
  · exact hb i status h

theorem noPermanent_read (status : Int) : noPermanent [PumpCall.read status] := by
  intro i s h
  simp at h

theorem noPermanent_send (k status : Int) : noPermanent [PumpCall.send k status] := by
  intro i s h
  simp at h

theorem noPermanent_receive (k status : Int) (h : ¬ isPermanent status) :
    noPermanent [PumpCall.receive k status] := by
  intro i s hmem
  simp only [List.mem_singleton, PumpCall.receive.injEq] at hmem
  rw [hmem.2]
  exact h

theorem PumpRun.unchanged {σ : Type} (d : VideoDecoder (σ × List PumpCall)) : PumpRun d d :=
  ⟨rfl, fun _ => rfl, [], by simp, noPermanent_nil⟩

theorem PumpRun.followedBy {σ : Type} {d1 d2 d3 : VideoDecoder (σ × List PumpCall)}
    (h12 : PumpRun d1 d2) (h23 : PumpRun d2 d3) : PumpRun d1 d3 := by
  refine ⟨h23.active.trans h12.active, fun h => ?_, ?_⟩
  · have h2 := h12.streams h
    rw [h23.streams (by rw [h12.active, h2]; exact h), h2]
  · obtain ⟨e1, he1, hn1⟩ := h12.log
    obtain ⟨e2, he2, hn2⟩ := h23.log
    exact ⟨e1 ++ e2, by rw [he2, he1, List.append_assoc], noPermanent_append hn1 hn2⟩

theorem PumpRun.thenExit {σ : Type} {status : Int} {d1 d2 d3 : VideoDecoder (σ × List PumpCall)}
    (h12 : PumpRun d1 d2) (h23 : PermanentExit status d2 d3) : PermanentExit status d1 d3 := by
  refine ⟨h23.active.trans h12.active, fun h => ?_, ?_⟩
  · have h2 := h12.streams h
    rw [h23.streams (by rw [h12.active, h2]; exact h), h2]
  · obtain ⟨e1, he1, hn1⟩ := h12.log
    obtain ⟨e2, i, he2, hn2⟩ := h23.log
    exact ⟨e1 ++ e2, i, by rw [he2, he1]; simp, noPermanent_append hn1 hn2⟩

theorem PumpPost.after {σ : Type} {d d1 : VideoDecoder (σ × List PumpCall)}
    {r : Result LoopExit × VideoDecoder (σ × List PumpCall)}
    (h : PumpRun d d1) (hr : PumpPost d1 r) : PumpPost d r := by
  rcases hr with ⟨hrun, hok⟩ | ⟨ex, hex, hperm, hneg, hexit⟩
  · exact Or.inl ⟨h.followedBy hrun, hok⟩
  · exact Or.inr ⟨ex, hex, hperm, hneg, h.thenExit hexit⟩

theorem receiveFromActiveStreams_traced {σ : Type} (L : Lib σ)
    (hrecv : ∀ lib i, (L.receiveFrame lib i).1 ≤ 0) (l : List Int) (st : Int) (fr : AVFrame)
    (d : VideoDecoder (σ × List PumpCall)) :
    (receiveFromActiveStreams (traced L) l st fr d).2.activeStreamIndices_ =
      d.activeStreamIndices_ ∧
    (receiveFromActiveStreams (traced L) l st fr d).2.decodeStats_ = d.decodeStats_ ∧
    ((∀ k ∈ l, mapCount d.streams_ k ≠ 0) →
      (receiveFromActiveStreams (traced L) l st fr d).2.streams_ = d.streams_) ∧
    ((receiveFromActiveStreams (traced L) l st fr d).1.gotPermanentErrorOnAnyActiveStream = false →
      ∃ evs, (receiveFromActiveStreams (traced L) l st fr d).2.lib.2 = d.lib.2 ++ evs ∧
        noPermanent evs) ∧
    ((receiveFromActiveStreams (traced L) l st fr d).1.gotPermanentErrorOnAnyActiveStream = true →
      isPermanent (receiveFromActiveStreams (traced L) l st fr d).1.ffmpegStatus ∧
      (receiveFromActiveStreams (traced L) l st fr d).1.ffmpegStatus < 0 ∧
      ∃ evs i, (receiveFromActiveStreams (traced L) l st fr d).2.lib.2 =
          d.lib.2 ++ evs ++
            [PumpCall.receive i (receiveFromActiveStreams (traced L) l st fr d).1.ffmpegStatus] ∧
        noPermanent evs) := by
  induction l generalizing st fr d with
  | nil =>
    refine ⟨rfl, rfl, fun _ => rfl, fun _ => ⟨[], by simp [receiveFromActiveStreams],
      noPermanent_nil⟩, fun h => ?_⟩
    simp [receiveFromActiveStreams] at h
  | cons s rest ih =>
    have htouch : (∀ k ∈ s :: rest, mapCount d.streams_ k ≠ 0) →
        mapTouch d.streams_ s = d.streams_ :=
      fun h => mapTouch_of_count_ne_zero (h s (List.mem_cons_self _ _))
    unfold receiveFromActiveStreams
    simp only []
    split
    · rename_i hperm
      refine ⟨rfl, rfl, htouch, fun h => by simp at h, fun _ => ⟨hperm, ?_, [], s, by simp [traced],
        noPermanent_nil⟩⟩
      have hle := hrecv d.lib.1 s
      have hne : (L.receiveFrame d.lib.1 s).1 ≠ 0 := hperm.1
      show (L.receiveFrame d.lib.1 s).1 < 0
      omega
    · rename_i hnperm
      split
      · rename_i hok
        refine ⟨rfl, rfl, htouch, fun _ => ⟨[PumpCall.receive s (L.receiveFrame d.lib.1 s).1],
          by simp [traced], noPermanent_receive _ _ hnperm⟩, fun h => by simp at h⟩
      · obtain ⟨ih1, ih2, ih3, ih4, ih5⟩ := ih ((traced L).receiveFrame d.lib s).1
          ((traced L).receiveFrame d.lib s).2.1
          { d with streams_ := mapTouch d.streams_ s, lib := ((traced L).receiveFrame d.lib s).2.2 }
        refine ⟨ih1, ih2, fun h => ?_, fun h => ?_, fun h => ?_⟩
        · have ht := htouch h
          have := ih3 (by
            intro k hk
            show mapCount (mapTouch d.streams_ s) k ≠ 0
            rw [ht]
            exact h k (List.mem_cons_of_mem _ hk))
          rw [this]
          exact ht
        · obtain ⟨evs, hevs, hn⟩ := ih4 h
          refine ⟨[PumpCall.receive s (L.receiveFrame d.lib.1 s).1] ++ evs, ?_,
            noPermanent_append (noPermanent_receive _ _ hnperm) hn⟩
          rw [hevs]
          simp [traced]
        · obtain ⟨hp, hneg, evs, i, hevs, hn⟩ := ih5 h
          refine ⟨hp, hneg, [PumpCall.receive s (L.receiveFrame d.lib.1 s).1] ++ evs, i, ?_,
            noPermanent_append (noPermanent_receive _ _ hnperm) hn⟩
          rw [hevs]
          simp [traced]

theorem sendNullPackets_traced {σ : Type} (L : Lib σ) (l : List Int) (st : Int)
    (d : VideoDecoder (σ × List PumpCall)) :
    (sendNullPackets (traced L) l st d).2.activeStreamIndices_ = d.activeStreamIndices_ ∧
    (sendNullPackets (traced L) l st d).2.decodeStats_ = d.decodeStats_ ∧
    ((∀ k ∈ l, mapCount d.streams_ k ≠ 0) →
      (sendNullPackets (traced L) l st d).2.streams_ = d.streams_) ∧
    ∃ evs, (sendNullPackets (traced L) l st d).2.lib.2 = d.lib.2 ++ evs ∧
      ∀ i status, PumpCall.receive i status ∉ evs := by
  induction l generalizing st d with
  | nil => exact ⟨rfl, rfl, fun _ => rfl, [], by simp [sendNullPackets], by simp⟩
  | cons s rest ih =>
    have htouch : (∀ k ∈ s :: rest, mapCount d.streams_ k ≠ 0) →
        mapTouch d.streams_ s = d.streams_ :=
      fun h => mapTouch_of_count_ne_zero (h s (List.mem_cons_self _ _))
    unfold sendNullPackets
    simp only []
    split
    · exact ⟨rfl, rfl, htouch, [PumpCall.send s (L.sendPacket d.lib.1 s none).1],
        by simp [traced], by simp⟩
    · obtain ⟨ih1, ih2, ih3, evs, hevs, hn⟩ := ih ((traced L).sendPacket d.lib s none).1
        { d with streams_ := mapTouch d.streams_ s, lib := ((traced L).sendPacket d.lib s none).2 }
      refine ⟨ih1, ih2, fun h => ?_, [PumpCall.send s (L.sendPacket d.lib.1 s none).1] ++ evs,
        ?_, ?_⟩
      · have ht := htouch h
        have := ih3 (by
          intro k hk
          show mapCount (mapTouch d.streams_ s) k ≠ 0
          rw [ht]
          exact h k (List.mem_cons_of_mem _ hk))
        rw [this]
        exact ht
      · rw [hevs]
        simp [traced]
      · intro i status hmem
        simp only [List.singleton_append, List.mem_cons] at hmem
        rcases hmem with hmem | hmem
        · cases hmem
        · exact hn i status hmem

theorem decodeLoop_pumpPost {σ : Type} (L : Lib σ)
    (hrecv : ∀ lib i, (L.receiveFrame lib i).1 ≤ 0)
    (f : VideoDecoder (σ × List PumpCall) → Int → AVFrame → Bool)
    (fuel : Nat) (st : Int) (eof : Bool) (fr : AVFrame) (d : VideoDecoder (σ × List PumpCall)) :
    PumpPost d (decodeLoop (traced L) f fuel st eof fr d) := by
  induction fuel generalizing st eof fr d with
  | zero => exact Or.inl ⟨PumpRun.unchanged d, fun ex h => by simp [decodeLoop] at h⟩
  | succ n ih =>
    unfold decodeLoop
    simp only []
    obtain ⟨hact, _, hstreams, hquiet, hperm⟩ :=
      receiveFromActiveStreams_traced L hrecv d.activeStreamIndices_ st fr d
    generalize receiveFromActiveStreams (traced L) d.activeStreamIndices_ st fr d = rc
      at hact hstreams hquiet hperm ⊢
    split
    · rename_i hgot
      obtain ⟨hp, hneg, hlog⟩ := hperm hgot
      exact Or.inr ⟨_, rfl, hp, hneg, ⟨hact, hstreams, hlog⟩⟩
    · rename_i hgot
      have hrun : PumpRun d rc.2 := ⟨hact, hstreams, hquiet (by simpa using hgot)⟩
      have h2 : PumpRun d { rc.2 with
          decodeStats_ := { rc.2.decodeStats_ with
            numFramesReceivedByDecoder := rc.2.decodeStats_.numFramesReceivedByDecoder + 1 } } :=
        ⟨hrun.active, hrun.streams, hrun.log⟩
      split
      · rename_i hacc
        refine Or.inl ⟨h2, fun ex h => ?_⟩
        simp only [Prod.mk.injEq, Result.ok.injEq] at h
        rw [← h]
        exact hacc.1
      · split
        · exact PumpPost.after h2 (ih _ _ _ _)
        · split
          · exact PumpPost.after h2 (ih _ _ _ _)
          · have h3 : PumpRun d { rc.2 with
                lib := ((traced L).readFrame rc.2.lib).2.2
                decodeStats_ := { rc.2.decodeStats_ with
                  numFramesReceivedByDecoder := rc.2.decodeStats_.numFramesReceivedByDecoder + 1
                  numPacketsRead := rc.2.decodeStats_.numPacketsRead + 1 } } :=
              hrun.followedBy ⟨rfl, fun _ => rfl, [PumpCall.read (L.readFrame rc.2.lib.1).1],
                rfl, noPermanent_read _⟩
            split
            · obtain ⟨sa, _, ss, evs, hevs, hn⟩ := sendNullPackets_traced L
                rc.2.activeStreamIndices_ ((traced L).readFrame rc.2.lib).1 { rc.2 with
                  lib := ((traced L).readFrame rc.2.lib).2.2
                  decodeStats_ := { rc.2.decodeStats_ with
                    numFramesReceivedByDecoder := rc.2.decodeStats_.numFramesReceivedByDecoder + 1
                    numPacketsRead := rc.2.decodeStats_.numPacketsRead + 1 } }
              have h4 := h3.followedBy ⟨sa, ss, evs, hevs, fun i s hm => absurd hm (hn i s)⟩
              split
              · exact Or.inl ⟨h4, fun ex h => by simp at h⟩
              · exact PumpPost.after h4 (ih _ _ _ _)
            · split
              · exact Or.inl ⟨h3, fun ex h => by simp at h⟩
              · split
                · exact PumpPost.after h3 (ih _ _ _ _)
                · rename_i hcount
                  have h5 : PumpRun d
                      { lib := ((traced L).sendPacket ((traced L).readFrame rc.2.lib).2.2
                          ((traced L).readFrame rc.2.lib).2.1.stream_index
                          (some ((traced L).readFrame rc.2.lib).2.1)).2
                        containerMetadata := rc.2.containerMetadata
                        streams_ := mapTouch rc.2.streams_
                          ((traced L).readFrame rc.2.lib).2.1.stream_index
                        activeStreamIndices_ := rc.2.activeStreamIndices_
                        maybeDesiredPts_ := rc.2.maybeDesiredPts_
                        decodeStats_ := { rc.2.decodeStats_ with
                          numFramesReceivedByDecoder :=
                            rc.2.decodeStats_.numFramesReceivedByDecoder + 1
                          numPacketsRead := rc.2.decodeStats_.numPacketsRead + 1
                          numPacketsSentToDecoder :=
                            rc.2.decodeStats_.numPacketsSentToDecoder + 1 } } := by
                    refine h3.followedBy ⟨rfl, fun h => ?_, [PumpCall.send _ _], rfl,
                      noPermanent_send _ _⟩
                    exact mapTouch_of_count_ne_zero (h _ (List.count_pos_iff.mp
                      (Nat.pos_of_ne_zero hcount)))
                  split
                  · exact Or.inl ⟨h5, fun ex h => by simp at h⟩
                  · exact PumpPost.after h5 (ih _ _ _ _)

theorem keys_mapModify (m : List (Int × StreamInfo)) (k : Int) (f : StreamInfo → StreamInfo)
    (h : mapCount m k ≠ 0) : (mapModify m k f).map Prod.fst = m.map Prod.fst := by
  unfold mapModify
  rw [mapTouch_of_count_ne_zero h, List.map_map]
  apply List.map_congr_left
  intro e _
  simp only [Function.comp]
  split <;> rfl

theorem keys_setDiscardFramesBeforePts (s : Dbl) (l : List Int) (m : List (Int × StreamInfo))
    (h : ∀ k ∈ l, mapCount m k ≠ 0) :
    (setDiscardFramesBeforePts s l m).map Prod.fst = m.map Prod.fst := by
  induction l generalizing m with
  | nil => rfl
  | cons x rest ih =>
    unfold setDiscardFramesBeforePts
    rw [ih _ (fun k hk => (mapCount_mapModify_ne_zero m x k _).2
      (Or.inr (h k (List.mem_cons_of_mem _ hk))))]
    exact keys_mapModify m x _ (h x (List.mem_cons_self _ _))

theorem flushAll_traced {σ : Type} (L : Lib σ) (l : List Int) (lib : σ × List PumpCall) :
    (flushAll (traced L) l lib).2 = lib.2 := by
  induction l generalizing lib with
  | nil => rfl
  | cons s rest ih =>
    unfold flushAll
    rw [ih]
    rfl

theorem SeekFrame.noSeek {σ : Type} (d : VideoDecoder (σ × List PumpCall)) : SeekFrame d d :=
  ⟨rfl, rfl, fun _ => rfl, fun _ => rfl, fun h => ⟨rfl, h⟩⟩

theorem afterDiscard_seekFrame {σ : Type} (s : Dbl) (d d' : VideoDecoder (σ × List PumpCall))
    (hlog : d'.lib.2 = d.lib.2) (hact : d'.activeStreamIndices_ = d.activeStreamIndices_)
    (hstreams : d'.streams_ = (afterDiscard s d).streams_) : SeekFrame d d' := by
  refine ⟨hlog, hact, fun k => ?_, fun k => ?_, fun h => ⟨?_, fun k hk => ?_⟩⟩
  · rw [hstreams]
    simp only [afterDiscard, mapAt_setDiscardFramesBeforePts]
    split <;> rfl
  · rw [hstreams]
    simp only [afterDiscard, mapAt_setDiscardFramesBeforePts]
    split <;> rfl
  · rw [hstreams]
    exact keys_setDiscardFramesBeforePts s _ _ h
  · rw [hstreams]
    exact mapCount_setDiscardFramesBeforePts s _ _ k (h k hk)

theorem consumePendingSeek_seekFrame {σ : Type} (L : Lib σ)
    (d : VideoDecoder (σ × List PumpCall)) (hact : d.activeStreamIndices_ ≠ []) :
    SeekFrame d (consumePendingSeek (traced L) d).2 := by
  cases hs : d.maybeDesiredPts_ with
  | none => rw [consumePendingSeek_none (traced L) d hs]; exact SeekFrame.noSeek d
  | some s =>
    rw [consumePendingSeek_eq (traced L) d s hs hact]
    split
    · exact afterDiscard_seekFrame s d _ rfl rfl rfl
    · split
      · exact afterDiscard_seekFrame s d _ rfl rfl rfl
      · exact afterDiscard_seekFrame s d _ (flushAll_traced L _ _) rfl rfl

theorem finishDecode_traced {σ : Type} (L : Lib σ) (ex : LoopExit)
    (d : VideoDecoder (σ × List PumpCall)) :
    (finishDecode (traced L) ex d).2.lib.2 = d.lib.2 := by
  unfold finishDecode
  split
  · rfl
  · unfold convertAVFrameToDecodedOutput
    simp only []
    split
    · unfold convertFrameToTensorUsingFilterGraph
      simp only []
      split
      · rename_i h
        split at h
        · cases h
        · split at h
          · cases h
          · split at h
            · cases h; rfl
            · cases h; rfl
      · rename_i h
        split at h
        · cases h; rfl
        · split at h
          · cases h; rfl
          · split at h
            · cases h
            · cases h
      · rename_i h
        split at h
        · cases h
        · split at h
          · cases h
          · split at h
            · cases h
            · cases h
    · rfl
    · rfl

theorem eq_nil_of_append_singleton {α : Type} (evs pre post : List α) (a b : α)
    (h : evs ++ [a] = pre ++ b :: post) (hb : b ∉ evs) : post = [] := by
  cases post with
  | nil => rfl
  | cons c post' =>
    exfalso
    have hd := congrArg List.dropLast h
    rw [List.dropLast_concat] at hd
    apply hb
    rw [hd, List.dropLast_append_cons]
    simp

/-! ## Claims on non-retriable receive statuses -/

theorem getDecodedOutputWithFilter_traced {σ : Type} (L : Lib σ)
    (hrecv : ∀ lib i, (L.receiveFrame lib i).1 ≤ 0) (fuel : Nat)
    (f : VideoDecoder (σ × List PumpCall) → Int → AVFrame → Bool)
    (d : VideoDecoder (σ × List PumpCall)) (hlog : d.lib.2 = [])
    (hentries : ∀ k ∈ d.activeStreamIndices_, mapCount d.streams_ k ≠ 0) :
    noPermanent (getDecodedOutputWithFilter (traced L) fuel f d).2.lib.2 ∨
    ((∃ kind what, (getDecodedOutputWithFilter (traced L) fuel f d).1 = Result.error kind what) ∧
      (∃ evs i status, (getDecodedOutputWithFilter (traced L) fuel f d).2.lib.2 =
        evs ++ [PumpCall.receive i status] ∧ noPermanent evs) ∧
      (∀ k, (mapAt (getDecodedOutputWithFilter (traced L) fuel f d).2.streams_ k).currentPts =
          (mapAt d.streams_ k).currentPts ∧
        (mapAt (getDecodedOutputWithFilter (traced L) fuel f d).2.streams_ k).currentDuration =
          (mapAt d.streams_ k).currentDuration) ∧
      (getDecodedOutputWithFilter (traced L) fuel f d).2.streams_.map Prod.fst =
        d.streams_.map Prod.fst) := by
  unfold getDecodedOutputWithFilter
  split
  · left
    show noPermanent d.lib.2
    rw [hlog]
    exact noPermanent_nil
  · rename_i hlen
    have hact : (resetDecodeStats d).activeStreamIndices_ ≠ [] := by
      intro h
      exact hlen (by rw [show d.activeStreamIndices_ = [] from h]; rfl)
    have hsf := consumePendingSeek_seekFrame L (resetDecodeStats d) hact
    have hquiet : noPermanent (consumePendingSeek (traced L) (resetDecodeStats d)).2.lib.2 := by
      rw [hsf.log]
      show noPermanent d.lib.2
      rw [hlog]
      exact noPermanent_nil
    split
    · rename_i kind what d1 heq
      left
      rw [heq] at hquiet
      exact hquiet
    · rename_i d1 heq
      left
      rw [heq] at hquiet
      exact hquiet
    · rename_i u d1 heq
      rw [heq] at hsf
      have hlog1 : d1.lib.2 = [] := by
        rw [hsf.log]
        exact hlog
      have hpost := decodeLoop_pumpPost L hrecv f fuel AVSUCCESS false allocatedFrame d1
      rcases hpost with ⟨hrun, hok⟩ | ⟨ex, hex, hperm, hneg, hexit⟩
      · left
        obtain ⟨evs, hevs, hn⟩ := hrun.log
        rw [hlog1, List.nil_append] at hevs
        split
        · rename_i kind what d2 heq2
          rw [heq2] at hevs
          show noPermanent d2.lib.2
          rw [hevs]
          exact hn
        · rename_i d2 heq2
          rw [heq2] at hevs
          show noPermanent d2.lib.2
          rw [hevs]
          exact hn
        · rename_i ex d2 heq2
          rw [heq2] at hevs
          rw [finishDecode_traced, hevs]
          exact hn
      · right
        have hfin : ∀ d2, finishDecode (traced L) ex d2 =
            (Result.error ErrorKind.runtime_error "Could not receive frame from decoder", d2) := by
          intro d2
          unfold finishDecode
          exact if_pos hneg
        have hkeys := hsf.keys hentries
        have hstreams := hexit.streams (by
          rw [hsf.active]
          exact hkeys.2)
        obtain ⟨evs, i, hevs, hn⟩ := hexit.log
        rw [hlog1, List.nil_append] at hevs
        split
        · rename_i kind what d2 heq2
          rw [heq2] at hex
          cases hex
        · rename_i d2 heq2
          rw [heq2] at hex
          cases hex
        · rename_i ex2 d2 heq2
          rw [heq2] at hex hstreams hevs
          simp only [Result.ok.injEq] at hex
          subst hex
          rw [hfin]
          refine ⟨⟨_, _, rfl⟩, ⟨evs, i, _, hevs, hn⟩, fun k => ?_, ?_⟩
          · show (mapAt d2.streams_ k).currentPts = _ ∧ (mapAt d2.streams_ k).currentDuration = _
            rw [hstreams]
            exact ⟨hsf.currentPts k, hsf.currentDuration k⟩
          · show d2.streams_.map Prod.fst = _
            rw [hstreams]
            exact hkeys.1

/-- C24: on a library whose receive-frame status is zero or negative and a
decoder whose active streams all have an entry in the per-stream table, a
decode call in which a receive-frame call returns a status other than success
and `EAGAIN` throws; that call is the last library call of the pump, so no
packet is read after it; and every entry keeps its `currentPts` and
`currentDuration` and the per-stream table keeps its keys. -/
theorem permanent_receive_status_ends_decode_call {σ : Type} (L : Lib σ)
    (hrecv : ∀ lib i, (L.receiveFrame lib i).1 ≤ 0) (fuel : Nat)
    (f : VideoDecoder (σ × List PumpCall) → Int → AVFrame → Bool)
    (d : VideoDecoder (σ × List PumpCall)) (hlog : d.lib.2 = [])
    (hentries : ∀ k ∈ d.activeStreamIndices_, mapCount d.streams_ k ≠ 0)
    (pre post : List PumpCall) (i status : Int) (hstatus : isPermanent status)
    (htrace : (getDecodedOutputWithFilter (traced L) fuel f d).2.lib.2 =
      pre ++ PumpCall.receive i status :: post) :
    (∃ kind what, (getDecodedOutputWithFilter (traced L) fuel f d).1 = Result.error kind what) ∧
    (post = [] ∧ ∀ s, PumpCall.read s ∉ post) ∧
    (∀ k, (mapAt (getDecodedOutputWithFilter (traced L) fuel f d).2.streams_ k).currentPts =
        (mapAt d.streams_ k).currentPts ∧
      (mapAt (getDecodedOutputWithFilter (traced L) fuel f d).2.streams_ k).currentDuration =
        (mapAt d.streams_ k).currentDuration) ∧
    (getDecodedOutputWithFilter (traced L) fuel f d).2.streams_.map Prod.fst =
      d.streams_.map Prod.fst := by
  rcases getDecodedOutputWithFilter_traced L hrecv fuel f d hlog hentries with
    hquiet | ⟨herr, ⟨evs, j, s, hevs, hn⟩, hcur, hkeys⟩
  · exfalso
    exact hquiet i status (by rw [htrace]; simp) hstatus
  · have hpost : post = [] := by
      rw [hevs] at htrace
      exact eq_nil_of_append_singleton evs pre post _ _ htrace (fun hmem => hn i status hmem hstatus)
    refine ⟨herr, ⟨hpost, fun s' hs' => ?_⟩, hcur, hkeys⟩
    rw [hpost] at hs'
    simp at hs'

/-- Witness of C24: `seekToPts(100)` and `getNextDecodedOutput()` on
`sixFrameDecoder`, where the codec reports end of stream after the drain. -/
theorem permanent_receive_status_ends_decode_call_witness :
    (startLog (setCursorPtsInSeconds ⟨100, 1⟩ sixFrameDecoder)).lib.2 = [] ∧
    (∀ k ∈ (startLog (setCursorPtsInSeconds ⟨100, 1⟩ sixFrameDecoder)).activeStreamIndices_,
      mapCount (startLog (setCursorPtsInSeconds ⟨100, 1⟩ sixFrameDecoder)).streams_ k ≠ 0) ∧
    isPermanent AVERROR_EOF ∧
    (getDecodedOutputWithFilter (traced refLib) 20 nextFrameFilter
        (startLog (setCursorPtsInSeconds ⟨100, 1⟩ sixFrameDecoder))).2.lib.2 =
      [PumpCall.receive 0 (-11), PumpCall.read 0, PumpCall.send 0 0, PumpCall.receive 0 0,
        PumpCall.receive 0 (-11), PumpCall.read 0, PumpCall.send 0 0, PumpCall.receive 0 0,
        PumpCall.receive 0 (-11), PumpCall.read 0, PumpCall.send 0 0, PumpCall.receive 0 0,
        PumpCall.receive 0 (-11), PumpCall.read AVERROR_EOF, PumpCall.send 0 0] ++
      PumpCall.receive 0 AVERROR_EOF :: [] ∧
    ((∃ kind what, (getDecodedOutputWithFilter (traced refLib) 20 nextFrameFilter
        (startLog (setCursorPtsInSeconds ⟨100, 1⟩ sixFrameDecoder))).1 =
          Result.error kind what) ∧
      (([] : List PumpCall) = [] ∧ ∀ s, PumpCall.read s ∉ ([] : List PumpCall)) ∧
      (∀ k, (mapAt (getDecodedOutputWithFilter (traced refLib) 20 nextFrameFilter
            (startLog (setCursorPtsInSeconds ⟨100, 1⟩ sixFrameDecoder))).2.streams_ k).currentPts =
          (mapAt (startLog (setCursorPtsInSeconds ⟨100, 1⟩ sixFrameDecoder)).streams_ k).currentPts ∧
        (mapAt (getDecodedOutputWithFilter (traced refLib) 20 nextFrameFilter
            (startLog (setCursorPtsInSeconds ⟨100, 1⟩ sixFrameDecoder))).2.streams_
              k).currentDuration =
          (mapAt (startLog (setCursorPtsInSeconds ⟨100, 1⟩ sixFrameDecoder)).streams_
            k).currentDuration) ∧
      (getDecodedOutputWithFilter (traced refLib) 20 nextFrameFilter
          (startLog (setCursorPtsInSeconds ⟨100, 1⟩ sixFrameDecoder))).2.streams_.map Prod.fst =
        (startLog (setCursorPtsInSeconds ⟨100, 1⟩ sixFrameDecoder)).streams_.map Prod.fst) :=
  ⟨rfl, by decide, by unfold isPermanent; decide, by decide,
    permanent_receive_status_ends_decode_call refLib refLib_receiveFrame_nonpos 20 nextFrameFilter
      (startLog (setCursorPtsInSeconds ⟨100, 1⟩ sixFrameDecoder)) rfl (by decide)
      [PumpCall.receive 0 (-11), PumpCall.read 0, PumpCall.send 0 0, PumpCall.receive 0 0,
        PumpCall.receive 0 (-11), PumpCall.read 0, PumpCall.send 0 0, PumpCall.receive 0 0,
        PumpCall.receive 0 (-11), PumpCall.read 0, PumpCall.send 0 0, PumpCall.receive 0 0,
        PumpCall.receive 0 (-11), PumpCall.read AVERROR_EOF, PumpCall.send 0 0] [] 0
      AVERROR_EOF (by unfold isPermanent; decide) (by decide)⟩

/-! ## Lemmas on the pump counters -/

theorem pumpPasses_append (last : Int) (a b : List PumpCall) :
    pumpPasses last (a ++ b) = pumpPasses last a + pumpPasses last b := by
  unfold pumpPasses successfulReceives againReceivesOn
  rw [List.countP_append, List.countP_append]
  omega

theorem pumpPasses_receive (last k status : Int) :
    pumpPasses last [PumpCall.receive k status] =
      if status = AVSUCCESS then 1
      else if status = AVERROR_EAGAIN ∧ k = last then 1 else 0 := by
  unfold pumpPasses successfulReceives againReceivesOn
  by_cases h1 : status = AVSUCCESS
  · subst h1
    simp [List.countP_cons, AVSUCCESS, AVERROR_EAGAIN]
  · by_cases h2 : status = AVERROR_EAGAIN
    · subst h2
      by_cases h3 : k = last
      · simp [List.countP_cons, AVSUCCESS, AVERROR_EAGAIN, h3]
      · simp [List.countP_cons, AVSUCCESS, AVERROR_EAGAIN, h3]
    · simp [List.countP_cons, h1, h2]

theorem pumpPasses_of_no_receive (last : Int) (evs : List PumpCall)
    (h : ∀ i status, PumpCall.receive i status ∉ evs) : pumpPasses last evs = 0 := by
  unfold pumpPasses successfulReceives againReceivesOn
  rw [List.countP_eq_zero.mpr, List.countP_eq_zero.mpr]
  · intro c hc
    cases c with
    | receive i s => exact absurd hc (h i s)
    | read s => simp
    | send i s => simp
  · intro c hc
    cases c with
    | receive i s => exact absurd hc (h i s)
    | read s => simp
    | send i s => simp

theorem Counted.start {σ : Type} (last : Int) (d : VideoDecoder (σ × List PumpCall)) :
    Counted last d d :=
  ⟨rfl, rfl, le_refl _⟩

theorem Counted.chain {σ : Type} {last : Int} {d1 d2 d3 : VideoDecoder (σ × List PumpCall)}
    (h12 : Counted last d1 d2) (h23 : Counted last d2 d3) : Counted last d1 d3 :=
  ⟨h23.active.trans h12.active, h23.frames.trans h12.frames, le_trans h23.packets h12.packets⟩

theorem receiveFromActiveStreams_passes {σ : Type} (L : Lib σ) (last : Int) (l : List Int)
    (st : Int) (fr : AVFrame) (d : VideoDecoder (σ × List PumpCall))
    (hnodup : l.Nodup) (hlast : l.getLast? = some last) :
    pumpPasses last (receiveFromActiveStreams (traced L) l st fr d).2.lib.2 =
      pumpPasses last d.lib.2 +
        if (receiveFromActiveStreams (traced L) l st fr d).1.gotPermanentErrorOnAnyActiveStream
        then 0 else 1 := by
  induction l generalizing st fr d with
  | nil => simp at hlast
  | cons s rest ih =>
    have hlog : ∀ streams : List (Int × StreamInfo),
        (({ d with streams_ := streams, lib := ((traced L).receiveFrame d.lib s).2.2 } :
          VideoDecoder (σ × List PumpCall)).lib.2) =
          d.lib.2 ++ [PumpCall.receive s (L.receiveFrame d.lib.1 s).1] := fun _ => rfl
    unfold receiveFromActiveStreams
    simp only []
    split
    · rename_i hperm
      have hperm1 : (L.receiveFrame d.lib.1 s).1 ≠ AVSUCCESS ∧
          (L.receiveFrame d.lib.1 s).1 ≠ AVERROR_EAGAIN := hperm
      show pumpPasses last (d.lib.2 ++ [PumpCall.receive s (L.receiveFrame d.lib.1 s).1]) = _
      rw [pumpPasses_append, pumpPasses_receive, if_neg hperm1.1,
        if_neg (fun h => hperm1.2 h.1)]
      simp
    · rename_i hnperm
      have hnperm1 : ¬ ((L.receiveFrame d.lib.1 s).1 ≠ AVSUCCESS ∧
          (L.receiveFrame d.lib.1 s).1 ≠ AVERROR_EAGAIN) := hnperm
      split
      · rename_i hok
        have hok1 : (L.receiveFrame d.lib.1 s).1 = AVSUCCESS := hok
        show pumpPasses last (d.lib.2 ++ [PumpCall.receive s (L.receiveFrame d.lib.1 s).1]) = _
        rw [pumpPasses_append, pumpPasses_receive, if_pos hok1]
        simp
      · rename_i hnok
        have hnok1 : ¬ (L.receiveFrame d.lib.1 s).1 = AVSUCCESS := hnok
        have hag : (L.receiveFrame d.lib.1 s).1 = AVERROR_EAGAIN := by
          by_contra hc
          exact hnperm1 ⟨hnok1, hc⟩
        cases rest with
        | nil =>
          have hs : s = last := by simpa using hlast
          show pumpPasses last (d.lib.2 ++ [PumpCall.receive s (L.receiveFrame d.lib.1 s).1]) = _
          rw [pumpPasses_append, pumpPasses_receive, if_neg hnok1, if_pos ⟨hag, hs⟩]
          simp [receiveFromActiveStreams]
        | cons s2 rest2 =>
          have hlast2 : (s2 :: rest2).getLast? = some last := by
            rw [List.getLast?_cons_cons] at hlast
            exact hlast
          have hne : s ≠ last := by
            intro h
            have hmem : last ∈ s2 :: rest2 := List.mem_of_getLast?_eq_some hlast2
            rw [← h] at hmem
            exact (List.nodup_cons.mp hnodup).1 hmem
          rw [ih _ _ _ (List.nodup_cons.mp hnodup).2 hlast2, hlog, pumpPasses_append,
            pumpPasses_receive, if_neg hnok1, if_neg (fun h => hne h.2)]
          simp

theorem receiveFromActiveStreams_stats {σ : Type} (L : Lib σ) (l : List Int) (st : Int)
    (fr : AVFrame) (d : VideoDecoder σ) :
    (receiveFromActiveStreams L l st fr d).2.decodeStats_ = d.decodeStats_ := by
  induction l generalizing st fr d with
  | nil => rfl
  | cons s rest ih =>
    unfold receiveFromActiveStreams
    simp only []
    split
    · rfl
    · split
      · rfl
      · rw [ih]

theorem Counted.of {σ : Type} (last : Int) (d d' : VideoDecoder (σ × List PumpCall))
    (evs : List PumpCall) (hact : d'.activeStreamIndices_ = d.activeStreamIndices_)
    (hlog : d'.lib.2 = d.lib.2 ++ evs) (hno : ∀ i status, PumpCall.receive i status ∉ evs)
    (hn : d'.decodeStats_.numFramesReceivedByDecoder = d.decodeStats_.numFramesReceivedByDecoder)
    (hp : d'.decodeStats_.numPacketsSentToDecoder - d'.decodeStats_.numPacketsRead ≤
      d.decodeStats_.numPacketsSentToDecoder - d.decodeStats_.numPacketsRead) :
    Counted last d d' := by
  refine ⟨hact, ?_, hp⟩
  rw [hlog, pumpPasses_append, pumpPasses_of_no_receive last evs hno, hn]
  simp

theorem decodeLoop_counted {σ : Type} (L : Lib σ) (last : Int) (act : List Int)
    (hnodup : act.Nodup) (hlast : act.getLast? = some last)
    (f : VideoDecoder (σ × List PumpCall) → Int → AVFrame → Bool)
    (fuel : Nat) (st : Int) (eof : Bool) (fr : AVFrame) (d : VideoDecoder (σ × List PumpCall))
    (hact : d.activeStreamIndices_ = act) :
    Counted last d (decodeLoop (traced L) f fuel st eof fr d).2 := by
  induction fuel generalizing st eof fr d with
  | zero => exact Counted.start last d
  | succ n ih =>
    unfold decodeLoop
    simp only []
    have hpass := receiveFromActiveStreams_passes L last d.activeStreamIndices_ st fr d
      (by rw [hact]; exact hnodup) (by rw [hact]; exact hlast)
    have hstats := receiveFromActiveStreams_stats (traced L) d.activeStreamIndices_ st fr d
    have hactive := (receiveFromActiveStreams_frame (traced L) d.activeStreamIndices_ st fr d).active
    generalize receiveFromActiveStreams (traced L) d.activeStreamIndices_ st fr d = rc
      at hpass hstats hactive ⊢
    have hact2 : rc.2.activeStreamIndices_ = act := hactive.trans hact
    split
    · rename_i hgot
      refine ⟨hactive, ?_, by rw [hstats]⟩
      rw [hpass, if_pos hgot, hstats]
      simp
    · rename_i hgot
      have h2 : Counted last d { rc.2 with
          decodeStats_ := { rc.2.decodeStats_ with
            numFramesReceivedByDecoder := rc.2.decodeStats_.numFramesReceivedByDecoder + 1 } } := by
        refine ⟨hactive, ?_, ?_⟩
        · show rc.2.decodeStats_.numFramesReceivedByDecoder + 1 -
            (pumpPasses last rc.2.lib.2 : Int) = _
          rw [hpass, if_neg hgot, hstats]
          push_cast
          omega
        · show rc.2.decodeStats_.numPacketsSentToDecoder - rc.2.decodeStats_.numPacketsRead ≤ _
          rw [hstats]
      split
      · exact h2
      · split
        · exact h2.chain (ih _ _ _ _ hact2)
        · split
          · exact h2.chain (ih _ _ _ _ hact2)
          · have h3 : Counted last d { rc.2 with
                lib := ((traced L).readFrame rc.2.lib).2.2
                decodeStats_ := { rc.2.decodeStats_ with
                  numFramesReceivedByDecoder := rc.2.decodeStats_.numFramesReceivedByDecoder + 1
                  numPacketsRead := rc.2.decodeStats_.numPacketsRead + 1 } } :=
              h2.chain (Counted.of last _ _ [PumpCall.read (L.readFrame rc.2.lib.1).1]
                rfl rfl (by simp) rfl (by
                  show rc.2.decodeStats_.numPacketsSentToDecoder -
                    (rc.2.decodeStats_.numPacketsRead + 1) ≤
                    rc.2.decodeStats_.numPacketsSentToDecoder - rc.2.decodeStats_.numPacketsRead
                  omega))
            split
            · obtain ⟨sa, sst, _, evs, hevs, hn⟩ := sendNullPackets_traced L
                rc.2.activeStreamIndices_ ((traced L).readFrame rc.2.lib).1 { rc.2 with
                  lib := ((traced L).readFrame rc.2.lib).2.2
                  decodeStats_ := { rc.2.decodeStats_ with
                    numFramesReceivedByDecoder := rc.2.decodeStats_.numFramesReceivedByDecoder + 1
                    numPacketsRead := rc.2.decodeStats_.numPacketsRead + 1 } }
              have h4 := h3.chain (Counted.of last _ _ evs sa hevs hn (by rw [sst])
                (by rw [sst]))
              split
              · exact h4
              · exact h4.chain (ih _ _ _ _ (sa.trans hact2))
            · split
              · exact h3
              · split
                · exact h3.chain (ih _ _ _ _ hact2)
                · have h5 : Counted last d
                      { lib := ((traced L).sendPacket ((traced L).readFrame rc.2.lib).2.2
                          ((traced L).readFrame rc.2.lib).2.1.stream_index
                          (some ((traced L).readFrame rc.2.lib).2.1)).2
                        containerMetadata := rc.2.containerMetadata
                        streams_ := mapTouch rc.2.streams_
                          ((traced L).readFrame rc.2.lib).2.1.stream_index
                        activeStreamIndices_ := rc.2.activeStreamIndices_
                        maybeDesiredPts_ := rc.2.maybeDesiredPts_
                        decodeStats_ := { rc.2.decodeStats_ with
                          numFramesReceivedByDecoder :=
                            rc.2.decodeStats_.numFramesReceivedByDecoder + 1
                          numPacketsRead := rc.2.decodeStats_.numPacketsRead + 1
                          numPacketsSentToDecoder :=
                            rc.2.decodeStats_.numPacketsSentToDecoder + 1 } } :=
                    h2.chain (Counted.of last _ _
                      [PumpCall.read (L.readFrame rc.2.lib.1).1,
                        PumpCall.send (L.readFrame rc.2.lib.1).2.1.stream_index
                          (L.sendPacket (L.readFrame rc.2.lib.1).2.2
                            (L.readFrame rc.2.lib.1).2.1.stream_index
                            (some (L.readFrame rc.2.lib.1).2.1)).1]
                      rfl (by simp [traced]) (by simp) rfl (by
                        show rc.2.decodeStats_.numPacketsSentToDecoder + 1 -
                          (rc.2.decodeStats_.numPacketsRead + 1) ≤
                          rc.2.decodeStats_.numPacketsSentToDecoder -
                            rc.2.decodeStats_.numPacketsRead
                        omega))
                  split
                  · exact h5
                  · exact h5.chain (ih _ _ _ _ hact2)

theorem consumePendingSeek_pumpCounters {σ : Type} (L : Lib σ) (d : VideoDecoder σ)
    (hact : d.activeStreamIndices_ ≠ []) :
    (consumePendingSeek L d).2.decodeStats_.numFramesReceivedByDecoder =
      d.decodeStats_.numFramesReceivedByDecoder ∧
    (consumePendingSeek L d).2.decodeStats_.numPacketsRead = d.decodeStats_.numPacketsRead ∧
    (consumePendingSeek L d).2.decodeStats_.numPacketsSentToDecoder =
      d.decodeStats_.numPacketsSentToDecoder := by
  cases hs : d.maybeDesiredPts_ with
  | none => rw [consumePendingSeek_none L d hs]; exact ⟨rfl, rfl, rfl⟩
  | some s =>
    rw [consumePendingSeek_eq L d s hs hact]
    split
    · exact ⟨rfl, rfl, rfl⟩
    · split
      · exact ⟨rfl, rfl, rfl⟩
      · exact ⟨rfl, rfl, rfl⟩

theorem finishDecode_stats {σ : Type} (L : Lib σ) (ex : LoopExit) (d : VideoDecoder σ) :
    (finishDecode L ex d).2.decodeStats_ = d.decodeStats_ := by
  unfold finishDecode
  split
  · rfl
  · unfold convertAVFrameToDecodedOutput
    simp only []
    split
    · unfold convertFrameToTensorUsingFilterGraph
      simp only []
      split
      · rename_i h
        split at h
        · cases h
        · split at h
          · cases h
          · split at h
            · cases h; rfl
            · cases h; rfl
      · rename_i h
        split at h
        · cases h; rfl
        · split at h
          · cases h; rfl
          · split at h
            · cases h
            · cases h
      · rename_i h
        split at h
        · cases h
        · split at h
          · cases h
          · split at h
            · cases h
            · cases h
    · rfl
    · rfl

/-- What the counters of a decode call hold at its end, on a decoder whose
active streams are distinct and whatever the outcome of the call:
`numFramesReceivedByDecoder` is the number of receive-frame calls that returned
success plus the number of receive-frame calls on the last active stream that
returned `EAGAIN`, since line 628 runs once in every pass of the pump loop that
no status other than these two ended; and
`numPacketsSentToDecoder <= numPacketsRead`. -/
theorem decode_call_counts_pump_passes {σ : Type} (L : Lib σ) (fuel : Nat)
    (f : VideoDecoder (σ × List PumpCall) → Int → AVFrame → Bool)
    (d : VideoDecoder (σ × List PumpCall)) (last : Int) (hlog : d.lib.2 = [])
    (hnodup : d.activeStreamIndices_.Nodup)
    (hlast : d.activeStreamIndices_.getLast? = some last) :
    (getDecodedOutputWithFilter (traced L) fuel f d).2.decodeStats_.numFramesReceivedByDecoder =
      ((successfulReceives (getDecodedOutputWithFilter (traced L) fuel f d).2.lib.2 +
        againReceivesOn last (getDecodedOutputWithFilter (traced L) fuel f d).2.lib.2 : Nat) :
          Int) ∧
    (getDecodedOutputWithFilter (traced L) fuel f d).2.decodeStats_.numPacketsSentToDecoder ≤
      (getDecodedOutputWithFilter (traced L) fuel f d).2.decodeStats_.numPacketsRead := by
  have hne : d.activeStreamIndices_ ≠ [] := by
    intro h
    rw [h] at hlast
    simp at hlast
  have hsummary : ∀ d1 d2 : VideoDecoder (σ × List PumpCall),
      d1.lib.2 = [] → d1.decodeStats_.numFramesReceivedByDecoder = 0 →
      d1.decodeStats_.numPacketsRead = 0 → d1.decodeStats_.numPacketsSentToDecoder = 0 →
      Counted last d1 d2 →
      d2.decodeStats_.numFramesReceivedByDecoder =
        ((successfulReceives d2.lib.2 + againReceivesOn last d2.lib.2 : Nat) : Int) ∧
      d2.decodeStats_.numPacketsSentToDecoder ≤ d2.decodeStats_.numPacketsRead := by
    intro d1 d2 h1 h2 h3 h4 hc
    have hf := hc.frames
    have hp := hc.packets
    rw [h1, h2] at hf
    rw [h3, h4] at hp
    have h0 : pumpPasses last ([] : List PumpCall) = 0 := rfl
    rw [h0] at hf
    unfold pumpPasses at hf
    constructor
    · simp only [Nat.cast_zero, sub_zero] at hf
      omega
    · omega
  unfold getDecodedOutputWithFilter
  rw [if_neg (by simpa [List.length_eq_zero] using hne)]
  have hact0 : (resetDecodeStats d).activeStreamIndices_ ≠ [] := hne
  have hsf := consumePendingSeek_seekFrame L (resetDecodeStats d) hact0
  obtain ⟨hc1, hc2, hc3⟩ := consumePendingSeek_pumpCounters (traced L) (resetDecodeStats d) hact0
  have hlog1 : (consumePendingSeek (traced L) (resetDecodeStats d)).2.lib.2 = [] := by
    rw [hsf.log]
    exact hlog
  split
  · rename_i kind what d1 heq
    rw [heq] at hc1 hc2 hc3 hlog1
    exact hsummary d1 d1 hlog1 hc1 hc2 hc3 (Counted.start last d1)
  · rename_i d1 heq
    rw [heq] at hc1 hc2 hc3 hlog1
    exact hsummary d1 d1 hlog1 hc1 hc2 hc3 (Counted.start last d1)
  · rename_i u d1 heq
    rw [heq] at hc1 hc2 hc3 hlog1 hsf
    have hactive : d1.activeStreamIndices_ = d.activeStreamIndices_ := hsf.active
    have hloop := decodeLoop_counted L last d.activeStreamIndices_ hnodup hlast f fuel AVSUCCESS
      false allocatedFrame d1 hactive
    split
    · rename_i kind what d2 heq2
      rw [heq2] at hloop
      exact hsummary d1 d2 hlog1 hc1 hc2 hc3 hloop
    · rename_i d2 heq2
      rw [heq2] at hloop
      exact hsummary d1 d2 hlog1 hc1 hc2 hc3 hloop
    · rename_i ex d2 heq2
      rw [heq2] at hloop
      rw [finishDecode_stats, finishDecode_traced]
      exact hsummary d1 d2 hlog1 hc1 hc2 hc3 hloop

/-! ## Failing inputs -/

/-- C1, evaluation at the failing input: on `twoStreamDecoder`, where streams 0
and 1 are both active and `allFrames[1].pts` of stream 1 is 1,
`getFrameAtIndex(1, 1)` returns a frame of stream 0 with `pts` 10. -/
theorem getFrameAtIndex_returns_frame_of_other_stream :
    twoStreamDecoder.activeStreamIndices_ = [0, 1] ∧
    (mapAt twoStreamDecoder.streams_ 1).allFrames = [⟨0⟩, ⟨1⟩, ⟨2⟩] ∧
    (getFrameAtIndex refLib 20 1 1 twoStreamDecoder).1.value?.map
      (fun o => (o.streamIndex, o.pts)) = some (0, 10) := by
  decide

/-- C2, evaluation at the failing input: on `twoRateDecoder`, where the current
frame of stream 0 is `[0, 2)` and that of stream 1 is `[0, 3)`, both in
seconds, `getFrameDisplayedAtTimestamp(5/2)` returns the frame of stream 0 with
`pts` 0 and duration 2, and `5/2 * den < pts + duration` fails for it. -/
theorem getFrameDisplayedAtTimestamp_returns_frame_not_displayed :
    twoRateDecoder.activeStreamIndices_ = [0, 1] ∧
    twoRateDecoder.streams_.map (fun e => (e.1, e.2.timeBase.den, e.2.currentPts,
      e.2.currentDuration)) = [(0, 1, 0, 2), (1, 1, 0, 3)] ∧
    (getFrameDisplayedAtTimestamp refLib 20 ⟨5, 2⟩ twoRateDecoder).1 =
      Result.ok ⟨0, AVMediaType.video, 0, ⟨0, 1⟩, some ⟨[3, 2, 4], ⟨0, 2⟩⟩⟩ ∧
    ¬ ((Dbl.toRat ⟨5, 2⟩) * (1 : ℚ) < ((0 : Int) : ℚ) + ((2 : Int) : ℚ)) := by
  refine ⟨by decide, by decide, by rfl, ?_⟩
  simp only [Dbl.toRat]
  norm_num

/-- C5, evaluation at the failing input: on `sixFrameDecoderAtEnd`, whose
stream 0 has `currentPts = 0`, `canWeAvoidSeekingForStream(0, 2)` returns true,
the decode call after `seekToPts(2)` skips the seek and throws, and the same
call with the seek and the flush made returns the frame at `pts` 2. -/
theorem forward_decode_after_end_of_file_differs_from_seek :
    (mapAt sixFrameDecoderAtEnd.streams_ 0).currentPts = 0 ∧
    canWeAvoidSeekingForStream refLib sixFrameDecoderAtEnd.lib
      (mapAt sixFrameDecoderAtEnd.streams_ 0) 0 2 = true ∧
    (getNextDecodedOutput refLib 20 (setCursorPtsInSeconds ⟨2, 1⟩ sixFrameDecoderAtEnd)).1 =
      Result.error ErrorKind.runtime_error "Could not receive frame from decoder" ∧
    (getNextDecodedOutput refLib 20
      (setCursorPtsInSeconds ⟨2, 1⟩ sixFrameDecoderAtEnd)).2.decodeStats_.numSeeksSkipped = 1 ∧
    (decodeWithSeek refLib 20 ⟨2, 1⟩
      (setCursorPtsInSeconds ⟨2, 1⟩ sixFrameDecoderAtEnd)).1.value?.map (fun o => o.pts) =
        some 2 := by
  decide

/-- C12, evaluation at the failing input: on `unsortedDecoder`, where only
stream 0 was activated and stream 1 has no entry in the per-stream table,
`getFramesAtIndexes(1, [0])` throws and leaves an entry for stream 1. -/
theorem getFramesAtIndexes_adds_entry_for_stream_never_activated :
    unsortedDecoder.activeStreamIndices_ = [0] ∧
    mapCount unsortedDecoder.streams_ 1 = 0 ∧
    (getFramesAtIndexes refLib 20 1 [0] unsortedDecoder).1 =
      Result.error ErrorKind.runtime_error "Invalid frame index" ∧
    mapCount (getFramesAtIndexes refLib 20 1 [0] unsortedDecoder).2.streams_ 1 = 1 := by
  decide

/-- C13, evaluation at the failing input: on `sixFrameDecoder`, where stream 0
is active and is the stream that the preferred number -1 resolves to,
`addVideoStreamDecoder(-1, options)` returns and replaces the options of
stream 0, while `addVideoStreamDecoder(0, options)` throws. -/
theorem addVideoStreamDecoder_activates_active_stream_again :
    sixFrameDecoder.activeStreamIndices_ = [0] ∧
    refLib.findBestStream sixFrameDecoder.lib AVMediaType.video (-1) = 0 ∧
    (mapAt sixFrameDecoder.streams_ 0).options = {} ∧
    (addVideoStreamDecoder refLib (-1) { width := some 8, height := some 6 } sixFrameDecoder).1 =
      Result.ok () ∧
    (mapAt (addVideoStreamDecoder refLib (-1) { width := some 8, height := some 6 }
      sixFrameDecoder).2.streams_ 0).options = { width := some 8, height := some 6 } ∧
    (addVideoStreamDecoder refLib 0 { width := some 8, height := some 6 } sixFrameDecoder).1 =
      Result.error ErrorKind.invalid_argument "Stream is already active." := by
  decide

/-- C17, evaluation at the failing input: on `sixFrameDecoderHeightOnly`, whose
codec is 4 wide and 2 high and whose options set only `height = 8`, the scale
filter is configured to 4 by 2 and `getFrameAtIndex` returns frames of height 2
and width 4, while `getFramesAtIndexes` allocates slots of height 8 and width
4, so that writing a decoded frame into its slot fails. -/
theorem getFramesAtIndexes_allocates_other_dimensions_than_scale_filter :
    scaleDimensions { height := some 8 } 4 2 = (4, 2) ∧
    (sixFrameDecoderHeightOnly.lib.codec? 0).map (fun c => (c.scaleWidth, c.scaleHeight)) =
      some (4, 2) ∧
    (getFrameAtIndex refLib 20 0 0 sixFrameDecoderHeightOnly).1.value?.map
      (fun o => o.frame.map (fun t => t.sizes)) = some (some [3, 2, 4]) ∧
    (getFramesAtIndexes refLib 20 0 [] sixFrameDecoderHeightOnly).1 =
      Result.ok ⟨[0, 3, 8, 4], []⟩ ∧
    (getFramesAtIndexes refLib 20 0 [0] sixFrameDecoderHeightOnly).1 =
      Result.error ErrorKind.check_failed "tensor sizes do not match the slot" := by
  decide

/-- C18, evaluation at the failing input: on `sixFrameContainer`, which has one
video stream and no audio stream, the best-stream query for the audio media
type returns a negative value, and `initializeDecoder` sets
`bestAudioStreamIndex` to 0, the result of the query for the video media type. -/
theorem initializeDecoder_sets_best_audio_stream_from_video_query :
    getBestStreamIndex refLib sixFrameContainer AVMediaType.audio < 0 ∧
    getBestStreamIndex refLib sixFrameContainer AVMediaType.video = 0 ∧
    (createFromFilePath refLib sixFrameContainer).1 = Result.ok () ∧
    (createFromFilePath refLib sixFrameContainer).2.containerMetadata.bestVideoStreamIndex =
      some 0 ∧
    (createFromFilePath refLib sixFrameContainer).2.containerMetadata.bestAudioStreamIndex =
      some 0 := by
  decide

/-- C19, evaluation at the failing input: on `sixFrameDecoder`, whose container
has one stream, `get_stream_json_metadata` with `stream_index` 1 or -1 returns
the JSON text of whatever the read outside the vector yields: an empty object
for a record without fields, the width for a record that holds one. -/
theorem get_stream_json_metadata_reads_outside_the_streams :
    sixFrameDecoder.containerMetadata.streams.length = 1 ∧
    get_stream_json_metadata {} sixFrameDecoder 1 = "\x7b\n\x7d" ∧
    get_stream_json_metadata { width := some 7 } sixFrameDecoder (-1) =
      "\x7b\n\"width\": 7\n\x7d" := by
  decide

/-- C23, evaluation at the failing input: `getNextDecodedOutput()` on
`sixFrameDecoder` returns the frame at `pts` 0 and ends with
`numFramesReceivedByDecoder = 2`; on the library that logs its calls the same
call makes one receive-frame call that returns `EAGAIN` and one that returns
success, so one frame was received. -/
theorem decode_call_counts_more_than_successful_receives :
    (getNextDecodedOutput refLib 20 sixFrameDecoder).1.value?.map (fun o => o.pts) = some 0 ∧
    (getNextDecodedOutput refLib 20 sixFrameDecoder).2.decodeStats_.numFramesReceivedByDecoder =
      2 ∧
    (getDecodedOutputWithFilter (traced refLib) 20 nextFrameFilter
      (startLog sixFrameDecoder)).1.value?.map (fun o => o.pts) = some 0 ∧
    (getDecodedOutputWithFilter (traced refLib) 20 nextFrameFilter
      (startLog sixFrameDecoder)).2.lib.2 =
      [PumpCall.receive 0 AVERROR_EAGAIN, PumpCall.read 0, PumpCall.send 0 0,
        PumpCall.receive 0 AVSUCCESS] ∧
    successfulReceives (getDecodedOutputWithFilter (traced refLib) 20 nextFrameFilter
      (startLog sixFrameDecoder)).2.lib.2 = 1 ∧
    (getDecodedOutputWithFilter (traced refLib) 20 nextFrameFilter
      (startLog sixFrameDecoder)).2.decodeStats_.numFramesReceivedByDecoder = 2 := by
  decide

end TorchCodec
